import Mathlib

/-!
Spadengine render system: deferred command queue, frame phases, camera passes.

A shallow embedding of `Game/Source/RenderSystem.cpp` and of `render` and
`update` of `Game/Source/TextComponent.cpp`, and proofs about it.

Conventions of the embedding.

* Pointers to entities and to their components are addresses into the list
  `World.entities`; a component pointer is the address of its owning entity.
  A null or dangling pointer dereference and an index past the end of a
  `std::vector` or array are undefined behaviour in the source and are the
  result `Fault.memory` here.
* `SGE_ASSERT` failing is the result `Fault.assertion`.
* Every operation returns an `Outcome`: the world it reached, and, when it did
  not complete, the fault that stopped it together with the world at that point.
* An argument pair `(size_t count, Entity* xs)` is a count and the list of the
  addresses `&xs[0], &xs[1], ...` of the array elements.
* The function-local `static size_t pass` counters of `renderSprite` and
  `renderText` are the fields `spritePass` and `textPass` of the world.
* The graphics device is an external collaborator: it is embedded as the log of
  the calls made on it, plus the list of handles its `create*` calls will
  return.
* `float` values are carried as rationals; no rounding is modelled. A
  conversion of a float to an unsigned integer is undefined in the source when
  the truncated value is out of range, and has no result here.
* Arithmetic in an unsigned type of fixed width wraps: where the source computes
  in such a type (the size of the `expandedData` array, the depth field of the
  sort key) the value is taken modulo two to the width.
* Types and functions declared in headers that are not among the sources (the
  render queue and its sort key, `SpriteComponent::render`,
  `TextRenderingSystem::renderText`) are modelled from the specification; each
  such definition says so.
-/

namespace sge

/-! ## Values -/

/-- Address of an entity in `World.entities`. -/
abbrev EntityPtr := Nat

/-- Handle of a device texture (`sge::Texture*`, non-null). -/
abbrev Texture := Nat

/-- Handle of a device pipeline, buffer or shader (non-null). -/
abbrev Handle := Nat

/-- Handle of the graphics device object (`GraphicsDevice*`). -/
abbrev DevicePtr := Nat

/-- Two floats (`sge::math::vec2`). -/
structure Vec2 where
  x : Rat
  y : Rat
deriving DecidableEq, Repr

/-- Three floats (`sge::math::vec3`). -/
structure Vec3 where
  x : Rat
  y : Rat
  z : Rat
deriving DecidableEq, Repr

/-- Four floats (`sge::math::vec4`), used for colours. -/
structure Vec4 where
  r : Rat
  g : Rat
  b : Rat
  a : Rat
deriving DecidableEq, Repr

/-- Component-wise sum, `glm::vec3 + glm::vec3`. -/
def Vec3.add (u v : Vec3) : Vec3 := ⟨u.x + v.x, u.y + v.y, u.z + v.z⟩

/-- Component-wise product, `glm::vec3 * glm::vec3`. -/
def Vec3.mul (u v : Vec3) : Vec3 := ⟨u.x * v.x, u.y * v.y, u.z * v.z⟩

/-- A camera viewport, kept as an opaque value. -/
structure Viewport where
  id : Nat
deriving DecidableEq, Repr

/-- The transform of an entity: the state `renderText` reads and writes. -/
structure TransformComponent where
  position : Vec3
  scale : Vec3
deriving DecidableEq, Repr

/-- Matrices are kept symbolic: a camera's view-projection matrix is an opaque
constant, `TransformComponent::getMatrix` is a function of the transform, and
the product keeps its two operands. -/
inductive Mat4 where
  | const (id : Nat)
  | ofTransform (t : TransformComponent)
  | mul (a b : Mat4)
deriving DecidableEq, Repr

/-- Modelled from the spec: the sort key type is declared in `Renderer/RenderQueue.h`,
which is not among the sources. It has a one-bit field `translucent` in the
most significant comparison bit and a field `depth` in the remaining low-order
bits of a 64-bit value. -/
structure SortKey where
  translucent : Nat
  depth : Nat
deriving DecidableEq, Repr

/-- Modelled from the spec: the 64-bit integer by which keys are compared,
`translucent` in bit 63 and `depth` in bits 0..62; a stored field keeps only
the bits of its width. -/
def SortKey.value (k : SortKey) : Nat :=
  (k.translucent % 2) * 2 ^ 63 + k.depth % 2 ^ 63

/-! ## Entities and components -/

/-- The glyph slot of a font face after `FT_Load_Char(face, c, FT_LOAD_RENDER)`:
the fields `renderText` reads. -/
structure GlyphSlot where
  bitmapWidth : Nat
  bitmapRows : Nat
  bitmapBuffer : List Nat
  vertBearingY : Int
  height : Int
  horiBearingY : Int
  advanceX : Int
deriving DecidableEq, Repr

/-- A font: its character size and, for each character, what loading that
character leaves in the glyph slot (characters not listed load `fallback`). -/
structure Font where
  characterSize : Rat
  glyphs : List (Char × GlyphSlot)
  fallback : GlyphSlot
deriving DecidableEq, Repr

/-- The glyph slot after `FT_Load_Char(font->face, c, FT_LOAD_RENDER)`. -/
def Font.loadChar (font : Font) (c : Char) : GlyphSlot :=
  (font.glyphs.lookup c).getD font.fallback

/-- The sprite component: key, texture (null or a handle), colour, and whether its
renderer pointer has been set to the render system. -/
structure SpriteComponent where
  key : SortKey
  texture : Option Texture
  color : Vec4
  renderer : Bool
deriving DecidableEq, Repr

/-- The text component: key, colour, font (null or a font), string, whether its
renderer pointer has been set to the render system by `setRenderer`, and whether its
member `RenderSystem`, a `TextRenderingSystem*` that only the four-argument
constructor and `setRenderSystem` set, is non-null. -/
structure TextComponent where
  key : SortKey
  color : Vec4
  font : Option Font
  text : String
  renderer : Bool
  renderSystem : Bool
deriving DecidableEq, Repr

/-- Embedding of `TextComponent::setRenderSystem`; `system` tells whether the pointer
given is non-null. -/
def TextComponent.setRenderSystem (t : TextComponent) (system : Bool) : TextComponent :=
  { t with renderSystem := system }

/-- The camera component: what `getViewport()` and `getViewProj()` return. -/
structure CameraComponent where
  viewport : Viewport
  viewProj : Mat4
deriving DecidableEq, Repr

/-- The light component; the render system only stores pointers to it. -/
structure LightComponent where
  id : Nat
deriving DecidableEq, Repr

/-- An entity: for each component kind, the component or none
(`getComponent<T>()` returning null). -/
structure Entity where
  transform : Option TransformComponent
  sprite : Option SpriteComponent
  text : Option TextComponent
  camera : Option CameraComponent
  light : Option LightComponent
deriving DecidableEq, Repr

/-! ## Device -/

/-- Payload of a `copyData` call. -/
inductive BufferData where
  | vertices (data : List Rat)
  | mvp (m : Mat4)
  | color (c : Vec4)
deriving DecidableEq, Repr

/-- One call made on the graphics device, with its arguments. Handles that may be
null pointers are optional. -/
inductive DeviceCall where
  | init
  | deinit
  | createShader (pixel : Bool) (size : Nat)
  | createPipeline (vertexShader pixelShader : Option Handle)
  | createBuffer (uniform : Bool) (size : Nat)
  | deleteShader (s : Option Handle)
  | deleteBuffer (b : Option Handle)
  | deletePipeline (p : Option Handle)
  | bindPipeline (p : Option Handle)
  | debindPipeline (p : Option Handle)
  | bindVertexBuffer (b : Option Handle)
  | copyData (b : Option Handle) (size : Nat) (data : BufferData)
  | bindTexture (t : Texture) (slot : Nat)
  | debindTexture (t : Texture) (slot : Nat)
  | bindViewport (v : Viewport)
  | bindVertexUniformBuffer (b : Option Handle) (slot : Nat)
  | bindPixelUniformBuffer (b : Option Handle) (slot : Nat)
  | draw (count : Nat)
  | createTextTexture (width height : Nat) (data : List Nat)
  | swap
  | clear (r g b a : Rat)
deriving DecidableEq, Repr

/-- The graphics device: the calls made on it so far, oldest first, and the
results its coming `create*` calls return (null once the list is used up). -/
structure GraphicsDevice where
  calls : List DeviceCall
  pending : List (Option Nat)
deriving DecidableEq, Repr

/-! ## Render queue -/

/-- The deferred command of a queue entry: `std::bind(&SpriteComponent::render, sprite, _1)`
or `std::bind(&TextComponent::render, text, _1)`, a member call bound to a
component pointer. -/
inductive Command where
  | spriteRender (sprite : EntityPtr)
  | textRender (text : EntityPtr)
deriving DecidableEq, Repr

/-- A queue entry, the pair (key, command). -/
abbrev QueueEntry := SortKey × Command

/-- Modelled from the spec: `RenderQueue` is defined in `Renderer/RenderQueue.h`
and its source file, which are not among the sources. It is the ordered
sequence of entries and the flag of its own submission window. -/
structure RenderQueue where
  queue : List QueueEntry
  acceptingCommands : Bool
deriving DecidableEq, Repr

/-- Modelled from the spec: key order of two entries, ascending by key value. -/
def QueueEntry.le (a b : QueueEntry) : Prop := a.1.value ≤ b.1.value

instance QueueEntry.decLe : DecidableRel QueueEntry.le :=
  fun a b => inferInstanceAs (Decidable (a.1.value ≤ b.1.value))

/-- Modelled from the spec: `RenderQueue::begin`, "fails (assertion) if already recording";
it "clears the previous frame's leftovers and opens the submission window".
The result is none when the assertion fails. -/
def RenderQueue.begin (q : RenderQueue) : Option RenderQueue :=
  if q.acceptingCommands then none
  else some { queue := [], acceptingCommands := true }

/-- Modelled from the spec: `RenderQueue::push`, "fails (assertion) if not recording;
appends in call order". -/
def RenderQueue.push (q : RenderQueue) (key : SortKey) (command : Command) :
    Option RenderQueue :=
  if q.acceptingCommands then some { q with queue := q.queue ++ [(key, command)] }
  else none

/-- Modelled from the spec: `RenderQueue::end`, "fails (assertion) if not recording;
performs a stable sort by key ascending; transitions Recording to Idle". -/
def RenderQueue.end (q : RenderQueue) : Option RenderQueue :=
  if q.acceptingCommands then
    some { queue := q.queue.insertionSort QueueEntry.le, acceptingCommands := false }
  else none

/-- Modelled from the spec: `RenderQueue::clear`, "empties the backing storage entirely and
resets to Idle regardless of current phase". -/
def RenderQueue.clear (_q : RenderQueue) : RenderQueue :=
  { queue := [], acceptingCommands := false }

/-- Modelled from the spec: `RenderQueue::getQueue`, the traversal of the entries in their
stored order. -/
def RenderQueue.getQueue (q : RenderQueue) : List QueueEntry := q.queue

/-! ## Render system state -/

/-- The members of `RenderSystem` (`Game/RenderSystem.h`) that its member functions use.
`device` is the pointer to the graphics device; the device object itself is
`World.graphicsDevice`. -/
structure RenderSystem where
  queue : RenderQueue
  device : DevicePtr
  sprPipeline : Option Handle
  sprVertexBuffer : Option Handle
  sprVertexUniformBuffer : Option Handle
  sprPixelUniformBuffer : Option Handle
  sprVertexShader : Option Handle
  sprPixelShader : Option Handle
  sprVertexUniformData : Mat4
  sprPixelUniformData : Vec4
  charTextures : List (Option Texture)
  previousText : String
  cameras : List EntityPtr
  lights : List EntityPtr
  initialized : Bool
  acceptingCommands : Bool
deriving DecidableEq, Repr

/-- Everything the render system's code reads or writes: the entities in memory, the
render system object, the graphics device object, and the two function-local
static pass counters. -/
structure World where
  entities : List Entity
  renderer : RenderSystem
  graphicsDevice : GraphicsDevice
  spritePass : Nat
  textPass : Nat
deriving DecidableEq, Repr

/-- Why an operation stopped: a failed `SGE_ASSERT`, or an invalid memory access
(undefined behaviour in the source). -/
inductive Fault where
  | assertion
  | memory
deriving DecidableEq, Repr

/-- Result of an operation: it completed in world `w`, or it was stopped by a
fault when the world was `w`. -/
inductive Outcome where
  | ok (w : World)
  | fatal (f : Fault) (w : World)
deriving DecidableEq, Repr

/-- Sequencing: continue with `f` if the first part completed. -/
def Outcome.bind (o : Outcome) (f : World → Outcome) : Outcome :=
  match o with
  | .ok w => f w
  | .fatal e w => .fatal e w

/-- The world an outcome carries. -/
def Outcome.world : Outcome → World
  | .ok w => w
  | .fatal _ w => w

/-- Whether the operation completed. -/
def Outcome.isOk : Outcome → Bool
  | .ok _ => true
  | .fatal _ _ => false

/-- A loop `for (x : xs) body`, over the elements in order, stopping at a fault. -/
def forEach {α : Type} (xs : List α) (body : α → World → Outcome) (w : World) : Outcome :=
  match xs with
  | [] => .ok w
  | x :: rest => (body x w).bind (forEach rest body)

/-- A loop `for (size_t i = 0; i < n; i++) body`. -/
def forRange (n : Nat) (body : Nat → World → Outcome) (w : World) : Outcome :=
  forEach (List.range n) body w

/-- Record a call on the graphics device. -/
def World.deviceCall (w : World) (c : DeviceCall) : World :=
  { w with graphicsDevice := { w.graphicsDevice with calls := w.graphicsDevice.calls ++ [c] } }

/-- Record a `create*` call on the graphics device and take its result: the next
pending handle, or null when none is left. -/
def World.deviceCreate (w : World) (c : DeviceCall) : Option Nat × World :=
  (w.graphicsDevice.pending.head?.join,
   { w with graphicsDevice :=
      { calls := w.graphicsDevice.calls ++ [c], pending := w.graphicsDevice.pending.tail } })

/-- Replace the render system object. -/
def World.setRenderer (w : World) (r : RenderSystem) : World := { w with renderer := r }

/-- Write the static pass counter of `renderSprite`. -/
def World.setSpritePass (w : World) (pass : Nat) : World := { w with spritePass := pass }

/-- Write the static pass counter of `renderText`. -/
def World.setTextPass (w : World) (pass : Nat) : World := { w with textPass := pass }

/-- Write the entity at address `p`. -/
def World.setEntity (w : World) (p : EntityPtr) (e : Entity) : World :=
  { w with entities := w.entities.set p e }

/-- `queue.push(key, command)` on the render system's queue; the queue's own
assertion is fatal. -/
def World.queuePush (key : SortKey) (command : Command) (w : World) : Outcome :=
  match w.renderer.queue.push key command with
  | none => .fatal .assertion w
  | some q => .ok (w.setRenderer { w.renderer with queue := q })

/-! ## Submission -/

/-- Embedding of `RenderSystem::renderSprites`. -/
def RenderSystem.renderSprites (count : Nat) (sprites : List EntityPtr) (w : World) : Outcome :=
  if w.renderer.acceptingCommands then
    forRange count (fun i w =>
      match sprites[i]? with
      | none => .fatal .memory w
      | some p =>
        match w.entities[p]? with
        | none => .fatal .memory w
        | some e =>
          match e.sprite with
          | none => .ok w
          | some sprite =>
            let w := w.setEntity p { e with sprite := some { sprite with renderer := true } }
            forEach w.renderer.cameras
              (fun _camera w => w.queuePush sprite.key (.spriteRender p)) w) w
  else .fatal .assertion w

/-- Embedding of `RenderSystem::renderTexts`. -/
def RenderSystem.renderTexts (count : Nat) (texts : List EntityPtr) (w : World) : Outcome :=
  if w.renderer.acceptingCommands then
    forRange count (fun i w =>
      match texts[i]? with
      | none => .fatal .memory w
      | some p =>
        match w.entities[p]? with
        | none => .fatal .memory w
        | some e =>
          match e.text with
          | none => .ok w
          | some text =>
            let w := w.setEntity p { e with text := some { text with renderer := true } }
            forEach w.renderer.cameras
              (fun _camera w => w.queuePush text.key (.textRender p)) w) w
  else .fatal .assertion w

/-- Embedding of `RenderSystem::renderModels`. -/
def RenderSystem.renderModels (_count : Nat) (_models : List EntityPtr) (w : World) : Outcome :=
  if w.renderer.acceptingCommands then .ok w else .fatal .assertion w

/-- Embedding of `RenderSystem::renderLights`. -/
def RenderSystem.renderLights (count : Nat) (lights : List EntityPtr) (w : World) : Outcome :=
  if w.renderer.acceptingCommands then
    forRange count (fun i w =>
      match lights[i]? with
      | none => .fatal .memory w
      | some p =>
        match w.entities[p]? with
        | none => .fatal .memory w
        | some e =>
          match e.light with
          | none => .fatal .assertion w
          | some _ => .ok (w.setRenderer { w.renderer with lights := w.renderer.lights ++ [p] }))
      (w.setRenderer { w.renderer with lights := [] })
  else .fatal .assertion w

/-- Embedding of `RenderSystem::setRenderTargets`; render targets are not used by the body. -/
def RenderSystem.setRenderTargets (_count : Nat) (_renderTargets : List Nat) (w : World) :
    Outcome :=
  if w.renderer.acceptingCommands then .ok w else .fatal .assertion w

/-- Embedding of `RenderSystem::setCameras`. -/
def RenderSystem.setCameras (count : Nat) (cameras : List EntityPtr) (w : World) : Outcome :=
  if w.renderer.acceptingCommands then
    forRange count (fun i w =>
      match cameras[i]? with
      | none => .fatal .memory w
      | some p =>
        match w.entities[p]? with
        | none => .fatal .memory w
        | some e =>
          match e.camera with
          | none => .fatal .assertion w
          | some _ => .ok (w.setRenderer { w.renderer with cameras := w.renderer.cameras ++ [p] }))
      (w.setRenderer { w.renderer with cameras := [] })
  else .fatal .assertion w

/-! ## Replay routines -/

/-- The camera component behind `cameras[pass]`: the index must be in range and the
pointer must refer to an entity that has a camera. -/
def World.cameraAt (w : World) (pass : Nat) : Option CameraComponent :=
  match w.renderer.cameras[pass]? with
  | none => none
  | some p =>
    match w.entities[p]? with
    | none => none
    | some e => e.camera

/-- The statement `if (++pass >= cameras.size()) pass = 0;`. -/
def nextPass (pass size : Nat) : Nat :=
  if pass + 1 ≥ size then 0 else pass + 1

/-- The calls `bindVertexUniformBuffer(.., 0); copyData(..); bindPixelUniformBuffer(.., 1);
copyData(..); draw(6)` that `renderSprite` and `renderText` share, made after the
two uniform structures have been filled. -/
def World.submitQuad (w : World) : World :=
  let w := w.deviceCall (.bindVertexUniformBuffer w.renderer.sprVertexUniformBuffer 0)
  let w := w.deviceCall
    (.copyData w.renderer.sprVertexUniformBuffer 64 (.mvp w.renderer.sprVertexUniformData))
  let w := w.deviceCall (.bindPixelUniformBuffer w.renderer.sprPixelUniformBuffer 1)
  let w := w.deviceCall
    (.copyData w.renderer.sprPixelUniformBuffer 16 (.color w.renderer.sprPixelUniformData))
  w.deviceCall (.draw 6)

/-- Embedding of `RenderSystem::renderSprite`; `sprite` points to the sprite component. -/
def RenderSystem.renderSprite (sprite : EntityPtr) (w : World) : Outcome :=
  let w := w.deviceCall (.bindPipeline w.renderer.sprPipeline)
  match w.entities[sprite]? with
  | none => .fatal .memory w
  | some e =>
    match e.sprite with
    | none => .fatal .memory w
    | some spr =>
      let w := match spr.texture with
        | some texture => w.deviceCall (.bindTexture texture 0)
        | none => w
      match w.cameraAt w.spritePass with
      | none => .fatal .memory w
      | some camera =>
        let w := w.deviceCall (.bindViewport camera.viewport)
        match e.transform with
        | none => .fatal .memory w
        | some transform =>
          let w := w.setRenderer { w.renderer with
            sprVertexUniformData := .mul camera.viewProj (.ofTransform transform),
            sprPixelUniformData := spr.color }
          let w := w.submitQuad
          let w := match spr.texture with
            | some texture => w.deviceCall (.debindTexture texture 0)
            | none => w
          let w := w.deviceCall (.debindPipeline w.renderer.sprPipeline)
          .ok (w.setSpritePass (nextPass w.spritePass w.renderer.cameras.length))

/-- The loop `while (charTextures.size() != 0) charTextures.erase(charTextures.begin());`. -/
def eraseAll : List (Option Texture) → List (Option Texture)
  | [] => []
  | _ :: rest => eraseAll rest

/-- The number of bits of `unsigned int`, the type of `bitmap.width` and `bitmap.rows`;
it is declared in the FreeType headers, which are not among the sources. The size of
`expandedData` is computed in this type. -/
def bitmapSizeBits : Nat := 32

/-- The assignment `array[index] = byte` into an array on the heap; the result is none
when the index is past the end of the array. -/
def writeByte (array : List Nat) (index byte : Nat) : Option (List Nat) :=
  if index < array.length then some (array.set index byte) else none

/-- The body of the inner loop of the glyph expansion in `renderText`, for row `j` and
column `k`: the two assignments into `expandedData`. The result is none when a read of
the bitmap buffer or a write into the array is past its end (or was so before). -/
def expandPixel (slot : GlyphSlot) (j : Nat) (acc : Option (List Nat)) (k : Nat) :
    Option (List Nat) :=
  match acc with
  | none => none
  | some expandedData =>
    match writeByte expandedData (2 * (k + j * slot.bitmapWidth)) 255 with
    | none => none
    | some expandedData =>
      if k ≥ slot.bitmapWidth ∨ j ≥ slot.bitmapRows then
        writeByte expandedData (2 * (k + j * slot.bitmapWidth) + 1) 0
      else
        match slot.bitmapBuffer[k + slot.bitmapWidth * j]? with
        | none => none
        | some byte => writeByte expandedData (2 * (k + j * slot.bitmapWidth) + 1) byte

/-- The two nested loops of `renderText` that fill `expandedData` from the glyph bitmap.
The array comes from `new unsigned char[2 * width * rows]`, the size being computed in
`unsigned int`, where it wraps; its cells start here as 0. -/
def expandGlyph (slot : GlyphSlot) : Option (List Nat) :=
  (List.range slot.bitmapRows).foldl (fun acc j =>
    (List.range slot.bitmapWidth).foldl (expandPixel slot j) acc)
    (some (List.replicate ((2 * slot.bitmapWidth * slot.bitmapRows) % 2 ^ bitmapSizeBits) 0))

/-- The first part of `RenderSystem::renderText`: "Updates textures if text has changed
since previous rendering". -/
def RenderSystem.updateCharTextures (font : Font) (text : String) (w : World) : Outcome :=
  if text ≠ w.renderer.previousText then
    let w := w.setRenderer { w.renderer with charTextures := eraseAll w.renderer.charTextures }
    (forRange text.length (fun i w =>
      match text.data[i]? with
      | none => .fatal .memory w
      | some c =>
        let slot := font.loadChar c
        match expandGlyph slot with
        | none => .fatal .memory w
        | some expandedData =>
          let (texture, w) :=
            w.deviceCreate (.createTextTexture slot.bitmapWidth slot.bitmapRows expandedData)
          .ok (w.setRenderer { w.renderer with
            charTextures := w.renderer.charTextures ++ [texture] })) w).bind
      (fun w => .ok (w.setRenderer { w.renderer with previousText := text }))
  else .ok w

/-- The value of `pen.y` computed for one glyph in `renderText`. Divisions of the integer
metrics truncate toward zero. -/
def penY (font : Font) (slot : GlyphSlot) : Rat :=
  if slot.height.tdiv 64 - slot.horiBearingY.tdiv 64 > 0 then
    (slot.height.tdiv 64 : Rat) - (slot.horiBearingY : Rat) / 64
  else
    (slot.vertBearingY.tdiv 32 : Rat) - font.characterSize

/-- One iteration of the "Render text" loop of `RenderSystem::renderText`, for the
character index `i`, entered with `pen.x = penX`. -/
def RenderSystem.renderGlyph (text : EntityPtr) (t : TextComponent) (font : Font)
    (originalScale : Vec3) (i : Nat) (penX : Rat) (w : World) : Outcome :=
  match t.text.data[i]? with
  | none => .fatal .memory w
  | some c =>
    let slot := font.loadChar c
    match w.renderer.charTextures[i]? with
    | none => .fatal .memory w
    | some texture =>
      let w := match texture with
        | some tex => w.deviceCall (.bindTexture tex 0)
        | none => w
      match w.entities[text]? with
      | none => .fatal .memory w
      | some e =>
        match e.transform with
        | none => .fatal .memory w
        | some transform =>
          let transform := { transform with
            position := transform.position.add ⟨penX * 2, penY font slot, 0⟩ }
          let transform := { transform with
            scale := originalScale.mul ⟨slot.bitmapWidth, slot.bitmapRows, 1⟩ }
          let w := w.setEntity text { e with transform := some transform }
          match w.cameraAt w.textPass with
          | none => .fatal .memory w
          | some camera =>
            let w := w.deviceCall (.bindViewport camera.viewport)
            let w := w.setRenderer { w.renderer with
              sprVertexUniformData := .mul camera.viewProj (.ofTransform transform),
              sprPixelUniformData := t.color }
            let w := w.submitQuad
            let w := match texture with
              | some tex => w.deviceCall (.debindTexture tex 0)
              | none => w
            .ok w

/-- The value of `pen.x` after the iteration for character index `i`,
`(float)(slot->advance.x >> 6)` for the glyph of that character. -/
def RenderSystem.penXAfter (t : TextComponent) (font : Font) (i : Nat) : Rat :=
  match t.text.data[i]? with
  | none => 0
  | some c => (Int.shiftRight (font.loadChar c).advanceX 6 : Int)

/-- The "Render text" loop of `RenderSystem::renderText`, over the character indices
left to do, with the current `pen.x`. -/
def RenderSystem.renderTextLoop (text : EntityPtr) (t : TextComponent) (font : Font)
    (originalScale : Vec3) : List Nat → Rat → World → Outcome
  | [], _, w => .ok w
  | i :: rest, penX, w =>
    (RenderSystem.renderGlyph text t font originalScale i penX w).bind
      (RenderSystem.renderTextLoop text t font originalScale rest
        (RenderSystem.penXAfter t font i))

/-- Embedding of `RenderSystem::renderText`; `text` points to the text component. -/
def RenderSystem.renderText (text : EntityPtr) (w : World) : Outcome :=
  let w := w.deviceCall (.bindPipeline w.renderer.sprPipeline)
  match w.entities[text]? with
  | none => .fatal .memory w
  | some e =>
    match e.text with
    | none => .fatal .memory w
    | some t =>
      match t.font with
      | none => .fatal .memory w
      | some font =>
        (RenderSystem.updateCharTextures font t.text w).bind fun w =>
          match (w.entities[text]?).bind Entity.transform with
          | none => .fatal .memory w
          | some original =>
            (RenderSystem.renderTextLoop text t font original.scale
              (List.range t.text.length) 0 w).bind fun w =>
              match w.entities[text]? with
              | none => .fatal .memory w
              | some e =>
                match e.transform with
                | none => .fatal .memory w
                | some transform =>
                  let transform := { transform with position := original.position }
                  let transform := { transform with scale := original.scale }
                  let w := w.setEntity text { e with transform := some transform }
                  let w := w.deviceCall (.debindPipeline w.renderer.sprPipeline)
                  .ok (w.setTextPass (nextPass w.textPass w.renderer.cameras.length))

/-- Embedding of `RenderSystem::renderModel`: the body is empty. -/
def RenderSystem.renderModel (_model : EntityPtr) (w : World) : Outcome := .ok w

/-! ## Commands -/

/-- Modelled from the spec: `SpriteComponent::render(GraphicsDevice*)` is in
`SpriteComponent.cpp`, which is not among the sources. A deferred command
"performs all binds/copies/draws/unbinds needed to render exactly one drawable for
exactly one camera pass": it calls `renderSprite` on the renderer the component
was given by `setRenderer`; a null renderer pointer is an invalid access. -/
def SpriteComponent.render (sprite : EntityPtr) (_device : DevicePtr) (w : World) : Outcome :=
  match w.entities[sprite]? with
  | none => .fatal .memory w
  | some e =>
    match e.sprite with
    | none => .fatal .memory w
    | some spr => if spr.renderer then RenderSystem.renderSprite sprite w else .fatal .memory w

/-- Modelled from the spec: `TextRenderingSystem::renderText(TextComponent*)` is declared
in `Game/TextRenderingSystem.h`, which is not among the sources. A deferred command
"performs all binds/copies/draws/unbinds needed to render exactly one drawable for
exactly one camera pass"; for a text that is the text rendering of the render system,
with its cache of "one GPU texture per glyph". -/
def TextRenderingSystem.renderText (text : EntityPtr) (w : World) : Outcome :=
  RenderSystem.renderText text w

/-- Embedding of `TextComponent::render` (`TextComponent.cpp`):
`SGE_ASSERT(RenderSystem); RenderSystem->renderText(this);`, where `RenderSystem` is
the member of type `TextRenderingSystem*`, not the renderer pointer that
`renderTexts` sets. -/
def TextComponent.render (text : EntityPtr) (_device : DevicePtr) (w : World) : Outcome :=
  match w.entities[text]? with
  | none => .fatal .memory w
  | some e =>
    match e.text with
    | none => .fatal .memory w
    | some t =>
      if t.renderSystem then TextRenderingSystem.renderText text w else .fatal .assertion w

/-- Invoking a deferred command with a device pointer, `command.second(device)`. -/
def Command.call (c : Command) (device : DevicePtr) (w : World) : Outcome :=
  match c with
  | .spriteRender sprite => SpriteComponent.render sprite device w
  | .textRender text => TextComponent.render text device w

/-! ## Frame phases -/

/-- Embedding of `RenderSystem::begin`. -/
def RenderSystem.begin (w : World) : Outcome :=
  if w.renderer.initialized && !w.renderer.acceptingCommands then
    match w.renderer.queue.begin with
    | none => .fatal .assertion w
    | some q => .ok (w.setRenderer { w.renderer with queue := q, acceptingCommands := true })
  else .fatal .assertion w

/-- Embedding of `RenderSystem::end`. -/
def RenderSystem.end (w : World) : Outcome :=
  if w.renderer.acceptingCommands then
    match RenderQueue.end w.renderer.queue with
    | none => .fatal .assertion w
    | some q =>
      let w := w.setRenderer { w.renderer with queue := q, acceptingCommands := false }
      forEach w.renderer.queue.getQueue (fun command w => command.2.call w.renderer.device w) w
  else .fatal .assertion w

/-- Embedding of `RenderSystem::present`. -/
def RenderSystem.present (w : World) : Outcome :=
  if w.renderer.initialized && !w.renderer.acceptingCommands then
    let w := w.deviceCall .swap
    .ok (w.deviceCall (.clear (1 / 2) (3 / 5) (1 / 5) 1))
  else .fatal .assertion w

/-- Embedding of `RenderSystem::clear`. -/
def RenderSystem.clear (w : World) : Outcome :=
  if w.renderer.initialized && !w.renderer.acceptingCommands then
    .ok (w.setRenderer { w.renderer with
      queue := w.renderer.queue.clear, cameras := [], lights := [] })
  else .fatal .assertion w

/-! ## Auxiliary definitions for the statements -/

/-- The parts of the render system object that no replay routine writes. -/
def World.control (w : World) :
    RenderQueue × DevicePtr × List EntityPtr × List EntityPtr × Bool × Bool ×
      Option Handle × Option Handle × Option Handle :=
  (w.renderer.queue, w.renderer.device, w.renderer.cameras, w.renderer.lights,
   w.renderer.initialized, w.renderer.acceptingCommands, w.renderer.sprPipeline,
   w.renderer.sprVertexUniformBuffer, w.renderer.sprPixelUniformBuffer)


/-- A call of the frame loop that drives the phase: `begin()` or `end()`. -/
inductive PhaseCall where
  | begin
  | finish
deriving DecidableEq, Repr

/-- Perform one phase call. -/
def PhaseCall.run : PhaseCall → World → Outcome
  | .begin, w => RenderSystem.begin w
  | .finish, w => RenderSystem.end w

/-- Perform a sequence of phase calls in order, stopping at the first fault. -/
def runPhaseCalls (calls : List PhaseCall) (w : World) : Outcome :=
  forEach calls PhaseCall.run w

/-- The sequence strictly alternates begin, end, begin, end, ... starting with begin. -/
def Alternates (calls : List PhaseCall) : Prop :=
  ∀ i : Fin calls.length,
    calls.get i = if i.val % 2 = 0 then PhaseCall.begin else PhaseCall.finish

instance Alternates.decidable (calls : List PhaseCall) : Decidable (Alternates calls) :=
  inferInstanceAs (Decidable (∀ i : Fin calls.length,
    calls.get i = if i.val % 2 = 0 then PhaseCall.begin else PhaseCall.finish))

/-- The queue's submission window is open exactly when the system is accepting commands. -/
def World.queueInStep (w : World) : Prop :=
  w.renderer.queue.acceptingCommands = w.renderer.acceptingCommands


/-! ## Example worlds -/

/-- An opaque white colour. -/
def Example.white : Vec4 := ⟨1, 1, 1, 1⟩

/-- A transform at the origin with unit scale. -/
def Example.origin : TransformComponent := ⟨⟨0, 0, 0⟩, ⟨1, 1, 1⟩⟩

/-- An entity with a transform and a sprite of the given key fields and texture. -/
def Example.spriteEntity (translucent depth : Nat) (texture : Option Texture) : Entity :=
  ⟨some Example.origin, some ⟨⟨translucent, depth⟩, texture, Example.white, false⟩,
   none, none, none⟩

/-- An entity with a transform and a camera with viewport and view-projection `i`. -/
def Example.cameraEntity (i : Nat) : Entity :=
  ⟨some Example.origin, none, none, some ⟨⟨i⟩, .const i⟩, none⟩

/-- An entity with a transform and a light. -/
def Example.lightEntity (i : Nat) : Entity :=
  ⟨some Example.origin, none, none, none, some ⟨i⟩⟩

/-- An initialized render system in the Idle phase with nothing queued. -/
def Example.idleRenderer : RenderSystem :=
  { queue := ⟨[], false⟩, device := 7, sprPipeline := some 1, sprVertexBuffer := some 2,
    sprVertexUniformBuffer := some 3, sprPixelUniformBuffer := some 4,
    sprVertexShader := some 5, sprPixelShader := some 6, sprVertexUniformData := .const 0,
    sprPixelUniformData := Example.white, charTextures := [], previousText := "",
    cameras := [], lights := [], initialized := true, acceptingCommands := false }

/-- Two cameras at addresses 0 and 1, an opaque sprite of depth 5 at 2, an opaque
textured sprite of depth 1 at 3, a translucent sprite of depth 2 at 4; the system is
initialized and Idle. -/
def Example.idleWorld : World :=
  ⟨[Example.cameraEntity 0, Example.cameraEntity 1, Example.spriteEntity 0 5 none,
    Example.spriteEntity 0 1 (some 9), Example.spriteEntity 1 2 none],
   Example.idleRenderer, ⟨[], []⟩, 0, 0⟩

/-- Push a sequence of entries in order; none when a push fails its assertion. -/
def RenderQueue.pushAll : List QueueEntry → RenderQueue → Option RenderQueue
  | [], q => some q
  | e :: rest, q => (q.push e.1 e.2).bind (RenderQueue.pushAll rest)

instance QueueEntry.le_total : IsTotal QueueEntry QueueEntry.le :=
  ⟨fun a b => Nat.le_total a.1.value b.1.value⟩

instance QueueEntry.le_trans : IsTrans QueueEntry QueueEntry.le :=
  ⟨fun _ _ _ hab hbc => Nat.le_trans hab hbc⟩

/-- The world after `begin()`, `setCameras(2, ..)` with the two cameras and
`renderSprites(3, ..)` with the three sprites on `Example.idleWorld`. -/
def Example.recordedWorld : World :=
  (((RenderSystem.begin Example.idleWorld).bind (RenderSystem.setCameras 2 [0, 1])).bind
    (RenderSystem.renderSprites 3 [2, 3, 4])).world

instance World.queueInStep.decidable (w : World) : Decidable w.queueInStep :=
  inferInstanceAs (Decidable (w.renderer.queue.acceptingCommands = w.renderer.acceptingCommands))

/-- Whether a device call is `bindPipeline`. -/
def DeviceCall.isBindPipeline : DeviceCall → Bool
  | .bindPipeline _ => true
  | _ => false

/-- Number of `bindPipeline` calls the device has received. -/
def World.pipelineBinds (w : World) : Nat :=
  w.graphicsDevice.calls.countP DeviceCall.isBindPipeline

/-- The world with `n` copies of the entry `(key, command)` appended to the queue. -/
def World.enqueue (w : World) (key : SortKey) (command : Command) (n : Nat) : World :=
  w.setRenderer { w.renderer with
    queue := { w.renderer.queue with
      queue := w.renderer.queue.queue ++ List.replicate n (key, command) } }

/-- The common shape of the loop bodies of `renderSprites` and `renderTexts`, once the
entity pointer `p` has been read: `get` looks the component up and gives its key and
the entity with the component's renderer set, `cmd` builds the command. -/
def submitBody (get : Entity → Option (SortKey × Entity)) (cmd : EntityPtr → Command)
    (p : EntityPtr) (w : World) : Outcome :=
  match w.entities[p]? with
  | none => .fatal .memory w
  | some e =>
    match get e with
    | none => .ok w
    | some (key, e') =>
      forEach (w.setEntity p e').renderer.cameras
        (fun _camera w => w.queuePush key (cmd p)) (w.setEntity p e')

/-- The world `submitBody` reaches when it completes. -/
def World.submitOne (get : Entity → Option (SortKey × Entity)) (cmd : EntityPtr → Command)
    (w : World) (p : EntityPtr) : World :=
  match w.entities[p]? with
  | none => w
  | some e =>
    match get e with
    | none => w
    | some (key, e') => (w.setEntity p e').enqueue key (cmd p) w.renderer.cameras.length

/-- Lookup of the sprite component, with its key and the entity after `setRenderer`. -/
def spriteLookup (e : Entity) : Option (SortKey × Entity) :=
  e.sprite.map fun s => (s.key, { e with sprite := some { s with renderer := true } })

/-- Lookup of the text component, with its key and the entity after `setRenderer`. -/
def textLookup (e : Entity) : Option (SortKey × Entity) :=
  e.text.map fun t => (t.key, { e with text := some { t with renderer := true } })

/-- The key of the component that `get` finds on the entity at `p`, if any. -/
def World.keyAt (get : Entity → Option (SortKey × Entity)) (w : World) (p : EntityPtr) :
    Option SortKey :=
  ((w.entities[p]?).bind get).map Prod.fst

/-- The entries queued for the entity at `p`: one per camera when `get` finds the
component on it, none otherwise. -/
def World.entriesAt (get : Entity → Option (SortKey × Entity)) (cmd : EntityPtr → Command)
    (w : World) (p : EntityPtr) : List QueueEntry :=
  match w.keyAt get p with
  | some key => List.replicate w.renderer.cameras.length (key, cmd p)
  | none => []

/-- The entity after the component that `get` finds has been given the renderer. -/
def markEntity (get : Entity → Option (SortKey × Entity)) (e : Entity) : Entity :=
  match get e with
  | some (_, e') => e'
  | none => e

/-- Looking the component up again after the renderer was set finds the same key and
changes nothing more. -/
def LookupStable (get : Entity → Option (SortKey × Entity)) : Prop :=
  ∀ e k e', get e = some (k, e') → get e' = some (k, e')

/-- The sprite component of the entity at `p`, if the address is valid and it has one. -/
def World.spriteAt (w : World) (p : EntityPtr) : Option SpriteComponent :=
  (w.entities[p]?).bind Entity.sprite

/-- The text component of the entity at `p`, if the address is valid and it has one. -/
def World.textAt (w : World) (p : EntityPtr) : Option TextComponent :=
  (w.entities[p]?).bind Entity.text

/-- The device calls of one `renderSprite` call for a sprite with transform `t` and the
camera `cam`, with the handles of render system `r`: in the order of the source. -/
def spritePassCalls (r : RenderSystem) (s : SpriteComponent) (t : TransformComponent)
    (cam : CameraComponent) : List DeviceCall :=
  [.bindPipeline r.sprPipeline] ++
  (match s.texture with
    | some texture => [.bindTexture texture 0]
    | none => []) ++
  [.bindViewport cam.viewport,
   .bindVertexUniformBuffer r.sprVertexUniformBuffer 0,
   .copyData r.sprVertexUniformBuffer 64 (.mvp (.mul cam.viewProj (.ofTransform t))),
   .bindPixelUniformBuffer r.sprPixelUniformBuffer 1,
   .copyData r.sprPixelUniformBuffer 16 (.color s.color),
   .draw 6] ++
  (match s.texture with
    | some texture => [.debindTexture texture 0]
    | none => []) ++
  [.debindPipeline r.sprPipeline]

/-- The world after a completed `renderSprite` call for a sprite with transform `t`
that was due for camera `cam`. -/
def World.afterSprite (w : World) (s : SpriteComponent) (t : TransformComponent)
    (cam : CameraComponent) : World :=
  { w with
    graphicsDevice := { w.graphicsDevice with
      calls := w.graphicsDevice.calls ++ spritePassCalls w.renderer s t cam },
    renderer := { w.renderer with
      sprVertexUniformData := .mul cam.viewProj (.ofTransform t),
      sprPixelUniformData := s.color },
    spritePass := nextPass w.spritePass w.renderer.cameras.length }

/-- The device calls of drawing the sprite at address `sprite` with the camera at
address `camera`, read off world `w`; empty when a component is missing. -/
def World.spriteDraw (w : World) (sprite camera : EntityPtr) : List DeviceCall :=
  match w.entities[sprite]?, w.entities[camera]? with
  | some e, some ce =>
    match e.sprite, e.transform, ce.camera with
    | some s, some t, some cam => spritePassCalls w.renderer s t cam
    | _, _, _ => []
  | _, _ => []

/-- What replaying sprite commands never writes: the entities, the Camera Set and the
sprite pipeline and uniform buffer handles. -/
def World.fixed (w : World) :
    List Entity × List EntityPtr × Option Handle × Option Handle × Option Handle :=
  (w.entities, w.renderer.cameras, w.renderer.sprPipeline,
   w.renderer.sprVertexUniformBuffer, w.renderer.sprPixelUniformBuffer)

/-- The component pointer a command is bound to. -/
def Command.target : Command → EntityPtr
  | .spriteRender sprite => sprite
  | .textRender text => text

/-- The queue entries of the drawables among the addresses `ps`, one per entity that has
a sprite, in the order of `ps`: its key and the command bound to it. -/
def World.spriteKeys (w : World) (ps : List EntityPtr) : List QueueEntry :=
  ps.filterMap (fun p => (w.spriteAt p).map (fun s => (s.key, Command.spriteRender p)))

/-- The viewport a device call binds, if it is `bindViewport`. -/
def DeviceCall.viewportOf : DeviceCall → Option Viewport
  | .bindViewport v => some v
  | _ => none

/-- The view-projection matrix a device call uploads as the left factor of an MVP
product, if it is such a `copyData`. -/
def DeviceCall.viewProjOf : DeviceCall → Option Mat4
  | .copyData _ _ (.mvp (.mul a _)) => some a
  | _ => none

/-- The viewports bound on the device so far, in order. -/
def World.viewportsBound (w : World) : List Viewport :=
  w.graphicsDevice.calls.filterMap DeviceCall.viewportOf

/-- The view-projection matrices uploaded (inside an MVP product) so far, in order. -/
def World.viewProjsUsed (w : World) : List Mat4 :=
  w.graphicsDevice.calls.filterMap DeviceCall.viewProjOf

/-- The world after the loop body of the glyph texture regeneration for character `c`,
when the glyph bitmap could be read. -/
def World.createGlyph (font : Font) (w : World) (c : Char) : World :=
  let slot := font.loadChar c
  let created := w.deviceCreate
    (.createTextTexture slot.bitmapWidth slot.bitmapRows ((expandGlyph slot).getD []))
  created.2.setRenderer { created.2.renderer with
    charTextures := created.2.renderer.charTextures ++ [created.1] }

/-- What text replay needs of the world besides the cached textures: the projections that
the texture regeneration leaves alone. -/
def World.textFrame (w : World) :
    List Entity × Nat × Nat × List Viewport × List Mat4 × Nat :=
  (w.entities, w.spritePass, w.textPass, w.viewportsBound, w.viewProjsUsed,
   w.pipelineBinds)

/-- The loop body of `setCameras` once the entity pointer has been read. -/
def RenderSystem.pushCamera (p : EntityPtr) (w : World) : Outcome :=
  match w.entities[p]? with
  | none => .fatal .memory w
  | some e =>
    match e.camera with
    | none => .fatal .assertion w
    | some _ => .ok (w.setRenderer { w.renderer with cameras := w.renderer.cameras ++ [p] })

/-- The loop body of `renderLights` once the entity pointer has been read. -/
def RenderSystem.pushLight (p : EntityPtr) (w : World) : Outcome :=
  match w.entities[p]? with
  | none => .fatal .memory w
  | some e =>
    match e.light with
    | none => .fatal .assertion w
    | some _ => .ok (w.setRenderer { w.renderer with lights := w.renderer.lights ++ [p] })

/-- The world after `begin()` and `setCameras(2, ..)` with the two cameras on
`Example.idleWorld`: accepting commands, nothing queued. -/
def Example.camerasWorld : World :=
  ((RenderSystem.begin Example.idleWorld).bind (RenderSystem.setCameras 2 [0, 1])).world

/-- A glyph slot with a 1 by 1 bitmap. -/
def Example.glyph : GlyphSlot :=
  { bitmapWidth := 1, bitmapRows := 1, bitmapBuffer := [200], vertBearingY := 64,
    height := 64, horiBearingY := 64, advanceX := 128 }

/-- A font in which every character loads `Example.glyph`. -/
def Example.font : Font := { characterSize := 1, glyphs := [], fallback := Example.glyph }

/-- An entity with a transform and a text of string "ab". -/
def Example.textEntity : Entity :=
  ⟨some Example.origin, none,
   some ⟨⟨0, 3⟩, Example.white, some Example.font, "ab", true, true⟩, none, none⟩

/-- Two cameras at addresses 0 and 1, a sprite at 2, a text at 3; both cameras are in the
Camera Set and both pass counters are 0. -/
def Example.textWorld : World :=
  ⟨[Example.cameraEntity 0, Example.cameraEntity 1, Example.spriteEntity 0 5 none,
    Example.textEntity],
   { Example.idleRenderer with cameras := [0, 1] }, ⟨[], []⟩, 0, 0⟩

/-- Forty-one entities with a light each, at addresses 0 to 40; the system accepts commands. -/
def Example.lightsWorld : World :=
  ⟨(List.range 41).map Example.lightEntity,
   { Example.idleRenderer with queue := ⟨[], true⟩, acceptingCommands := true },
   ⟨[], []⟩, 0, 0⟩

/-! ## Construction and teardown -/

/-- Embedding of the constructor `RenderSystem::RenderSystem(Window&)`: the queue is
constructed empty and closed, `initialized` and `acceptingCommands` are false, the
vectors and the remembered string are empty, `device` is the new graphics device;
`raw` is the object before construction, whose other members the constructor leaves
as they are. -/
def RenderSystem.construct (raw : RenderSystem) (device : DevicePtr) : RenderSystem :=
  { raw with
    queue := { queue := [], acceptingCommands := false },
    device := device, charTextures := [], previousText := "",
    cameras := [], lights := [], initialized := false, acceptingCommands := false }

/-- The array `vertexData` of `RenderSystem::init`. -/
def RenderSystem.vertexData : List Rat :=
  [-1, 1, 0, 0, 1,
   1, -1, 0, 1, 0,
   -1, -1, 0, 0, 0,
   1, 1, 0, 1, 1,
   1, -1, 0, 1, 0,
   -1, 1, 0, 0, 1]

/-- Embedding of `RenderSystem::init`. The two shader byte streams come from the
resource manager, an external collaborator: their sizes are parameters. -/
def RenderSystem.init (vShaderSize pShaderSize : Nat) (w : World) : World :=
  let w := w.deviceCall .init
  let (vertexShader, w) := w.deviceCreate (.createShader false vShaderSize)
  let w := w.setRenderer { w.renderer with sprVertexShader := vertexShader }
  let (pixelShader, w) := w.deviceCreate (.createShader true pShaderSize)
  let w := w.setRenderer { w.renderer with sprPixelShader := pixelShader }
  let (pipeline, w) := w.deviceCreate
    (.createPipeline w.renderer.sprVertexShader w.renderer.sprPixelShader)
  let w := w.setRenderer { w.renderer with sprPipeline := pipeline }
  let (vertexBuffer, w) := w.deviceCreate (.createBuffer false 120)
  let w := w.setRenderer { w.renderer with sprVertexBuffer := vertexBuffer }
  let (vertexUniformBuffer, w) := w.deviceCreate (.createBuffer true 64)
  let w := w.setRenderer { w.renderer with sprVertexUniformBuffer := vertexUniformBuffer }
  let (pixelUniformBuffer, w) := w.deviceCreate (.createBuffer true 16)
  let w := w.setRenderer { w.renderer with sprPixelUniformBuffer := pixelUniformBuffer }
  let w := w.deviceCall (.bindPipeline w.renderer.sprPipeline)
  let w := w.deviceCall (.bindVertexBuffer w.renderer.sprVertexBuffer)
  let w := w.deviceCall
    (.copyData w.renderer.sprVertexBuffer 120 (.vertices RenderSystem.vertexData))
  let w := w.deviceCall (.debindPipeline w.renderer.sprPipeline)
  w.setRenderer { w.renderer with initialized := true }

/-- Embedding of `RenderSystem::deinit`. -/
def RenderSystem.deinit (w : World) : World :=
  let w := w.deviceCall (.deleteShader w.renderer.sprVertexShader)
  let w := w.deviceCall (.deleteShader w.renderer.sprPixelShader)
  let w := w.deviceCall (.deleteBuffer w.renderer.sprVertexBuffer)
  let w := w.deviceCall (.deleteBuffer w.renderer.sprVertexUniformBuffer)
  let w := w.deviceCall (.deleteBuffer w.renderer.sprPixelUniformBuffer)
  let w := w.deviceCall (.deletePipeline w.renderer.sprPipeline)
  let w := w.deviceCall .deinit
  w.setRenderer { w.renderer with initialized := false }

/-- A world whose render system has just been constructed on device 7. -/
def Example.constructedWorld : World :=
  ⟨[], RenderSystem.construct Example.idleRenderer 7, ⟨[], [some 11, some 12, some 13,
    some 14, some 15, some 16]⟩, 0, 0⟩

/-! ## Device call sequences -/

/-- Whether a device call is `draw`. -/
def DeviceCall.isDraw : DeviceCall → Bool
  | .draw _ => true
  | _ => false

/-- Something bound on the device that has a matching debind call. -/
inductive Binding where
  | pipeline (p : Option Handle)
  | texture (t : Texture) (slot : Nat)
deriving DecidableEq, Repr

/-- The bindings still open after a device call, innermost first: a bind opens one, a
debind must close the innermost one, every other call leaves them alone. The result
is none once a debind did not match. -/
def DeviceCall.bindStep (stack : Option (List Binding)) (c : DeviceCall) :
    Option (List Binding) :=
  match stack with
  | none => none
  | some st =>
    match c with
    | .bindPipeline p => some (.pipeline p :: st)
    | .bindTexture t slot => some (.texture t slot :: st)
    | .debindPipeline p =>
      match st with
      | top :: rest => if top = .pipeline p then some rest else none
      | [] => none
    | .debindTexture t slot =>
      match st with
      | top :: rest => if top = .texture t slot then some rest else none
      | [] => none
    | _ => some st

/-- Every pipeline and texture bind of the sequence is closed by its debind, in reverse
order of the binds, and nothing else is debound. -/
def bindsBalanced (calls : List DeviceCall) : Bool :=
  calls.foldl DeviceCall.bindStep (some []) == some []

/-- The two static pass counters: of `renderSprite` and of `renderText`. -/
def World.passes (w : World) : Nat × Nat := (w.spritePass, w.textPass)

/-- Whether a queued command is a sprite command. -/
def Command.isSprite : Command → Bool
  | .spriteRender _ => true
  | .textRender _ => false

/-- An entity without any component. -/
def Entity.blank : Entity := ⟨none, none, none, none, none⟩

/-- The entities of the world with the transform of the entity at `p` left out of
account: the other entities, and the entity at `p` without its transform. -/
def World.besidesTransform (w : World) (p : EntityPtr) : List Entity × Option Entity :=
  (w.entities.set p Entity.blank, (w.entities[p]?).map fun e => { e with transform := none })

/-- A text at address 0 whose string is empty; no camera is set. -/
def Example.emptyTextWorld : World :=
  ⟨[⟨some Example.origin, none, some ⟨⟨0, 3⟩, Example.white, some Example.font, "", true, true⟩,
     none, none⟩],
   Example.idleRenderer, ⟨[], []⟩, 0, 0⟩

/-! ## Glyph textures -/

/-- Whether a device call is `createTextTexture`. -/
def DeviceCall.isCreateTextTexture : DeviceCall → Bool
  | .createTextTexture _ _ _ => true
  | _ => false

/-- The `createTextTexture` calls the device has received, oldest first. -/
def World.textTextureCalls (w : World) : List DeviceCall :=
  w.graphicsDevice.calls.filter DeviceCall.isCreateTextTexture

/-- The `createTextTexture` call that `renderText` makes for character `c` of a text in
`font`: the glyph's bitmap size and its expanded data. -/
def Font.textureCall (font : Font) (c : Char) : DeviceCall :=
  .createTextTexture (font.loadChar c).bitmapWidth (font.loadChar c).bitmapRows
    ((expandGlyph (font.loadChar c)).getD [])

/-- The results of the next `n` `create*` calls of a device whose coming results are
`pending`, in call order. -/
def createdResults : Nat → List (Option Nat) → List (Option Texture)
  | 0, _ => []
  | n + 1, pending => pending.head?.join :: createdResults n pending.tail

/-- The glyph cache and what feeds it: the cached textures, the remembered string, the
`createTextTexture` calls made so far and the results the device has yet to give. -/
def World.glyphCache (w : World) :
    List (Option Texture) × String × List DeviceCall × List (Option Nat) :=
  (w.renderer.charTextures, w.renderer.previousText, w.textTextureCalls,
   w.graphicsDevice.pending)

/-- The world `Example.textWorld` on a device whose next two created textures are 21
and 22. -/
def Example.glyphWorld : World :=
  { Example.textWorld with graphicsDevice := ⟨[], [some 21, some 22]⟩ }

/-! ## Sort key of a text -/

/-- Modelled from the spec: the number of bits of the `depth` field of the sort key,
which is declared in `Renderer/RenderQueue.h`, not among the sources: the key is a
64-bit value, `translucent` is its most significant bit and `depth` is "the remaining
bits". -/
def SortKey.depthBits : Nat := 63

/-- The conversion `static_cast<uint64>(x)` of a float: the fractional part is discarded
(truncation toward zero); the result is none when the truncated value is not a 64-bit
unsigned integer, where the behaviour of the source is undefined. -/
def castUInt64 (x : Rat) : Option Nat :=
  let truncated : Int := if 0 ≤ x then x.floor else -((-x).floor)
  if 0 ≤ truncated ∧ truncated < 2 ^ 64 then some truncated.toNat else none

/-- Embedding of `TextComponent::update` (`TextComponent.cpp`); `transform` is the
transform component that the member pointer `transform` refers to. A value assigned to
the bit-field `depth` keeps the bits of the field's width. -/
def TextComponent.update (t : TextComponent) (transform : TransformComponent) :
    Option TextComponent :=
  let key := { t.key with translucent := if t.color.a < 1 then 1 else 0 }
  match castUInt64 transform.position.z with
  | none => none
  | some depth => some { t with key := { key with depth := depth % 2 ^ SortKey.depthBits } }

/-- A text component with the given colour alpha. -/
def Example.textOfAlpha (a : Rat) : TextComponent :=
  ⟨⟨0, 0⟩, ⟨1, 1, 1, a⟩, none, "ab", false, false⟩

/-- A transform at depth `z`. -/
def Example.atDepth (z : Rat) : TransformComponent := ⟨⟨0, 0, z⟩, ⟨1, 1, 1⟩⟩

/-! ## Operations of the render system -/

/-- A call of a member function of the render system, with its arguments. -/
inductive Operation where
  | init (vShaderSize pShaderSize : Nat)
  | deinit
  | begin
  | finish
  | present
  | clear
  | renderSprites (count : Nat) (sprites : List EntityPtr)
  | renderTexts (count : Nat) (texts : List EntityPtr)
  | renderModels (count : Nat) (models : List EntityPtr)
  | renderLights (count : Nat) (lights : List EntityPtr)
  | setRenderTargets (count : Nat) (renderTargets : List Nat)
  | setCameras (count : Nat) (cameras : List EntityPtr)
  | renderSprite (sprite : EntityPtr)
  | renderText (text : EntityPtr)
  | renderModel (model : EntityPtr)
deriving DecidableEq, Repr

/-- Perform one call; `finish` is `end()`. -/
def Operation.run : Operation → World → Outcome
  | .init vShaderSize pShaderSize, w => .ok (RenderSystem.init vShaderSize pShaderSize w)
  | .deinit, w => .ok (RenderSystem.deinit w)
  | .begin, w => RenderSystem.begin w
  | .finish, w => RenderSystem.end w
  | .present, w => RenderSystem.present w
  | .clear, w => RenderSystem.clear w
  | .renderSprites count sprites, w => RenderSystem.renderSprites count sprites w
  | .renderTexts count texts, w => RenderSystem.renderTexts count texts w
  | .renderModels count models, w => RenderSystem.renderModels count models w
  | .renderLights count lights, w => RenderSystem.renderLights count lights w
  | .setRenderTargets count renderTargets, w =>
    RenderSystem.setRenderTargets count renderTargets w
  | .setCameras count cameras, w => RenderSystem.setCameras count cameras w
  | .renderSprite sprite, w => RenderSystem.renderSprite sprite w
  | .renderText text, w => RenderSystem.renderText text w
  | .renderModel model, w => RenderSystem.renderModel model w

/-- Perform a sequence of calls in order, stopping at the first fault. -/
def runOperations (calls : List Operation) (w : World) : Outcome :=
  forEach calls Operation.run w

/-- The calls of a first frame that changes the Camera Set between submission and
`end()`, and of a second frame up to its `end()`. -/
def Example.twoFrames : List Operation :=
  [.begin, .setCameras 1 [0], .renderSprites 1 [2], .setCameras 2 [0, 1], .finish,
   .clear, .begin, .setCameras 1 [0], .renderSprites 1 [2]]

/-! ## The glyph cache and its memo -/

/-- The cached glyph textures and the remembered string. -/
def World.cache (w : World) : List (Option Texture) × String :=
  (w.renderer.charTextures, w.renderer.previousText)

/-- The glyph cache invariant: there are as many cached glyph textures as the remembered
string has characters. -/
def World.cacheInStep (w : World) : Prop :=
  w.renderer.charTextures.length = w.renderer.previousText.length

instance World.cacheInStep.decidable (w : World) : Decidable w.cacheInStep :=
  inferInstanceAs (Decidable (w.renderer.charTextures.length = w.renderer.previousText.length))

/-! ## Device calls of a text -/

/-- The device calls of one iteration of the "Render text" loop, for a glyph with cached
texture `texture` (null or a handle), the camera `cam`, the colour of the text and the
transform the iteration has set; `vertexUniform` and `pixelUniform` are the two uniform
buffer handles of the render system. In the order of the source. -/
def glyphCalls (vertexUniform pixelUniform : Option Handle) (texture : Option Texture)
    (cam : CameraComponent) (color : Vec4) (transform : TransformComponent) :
    List DeviceCall :=
  (match texture with
    | some tex => [.bindTexture tex 0]
    | none => []) ++
  [.bindViewport cam.viewport,
   .bindVertexUniformBuffer vertexUniform 0,
   .copyData vertexUniform 64 (.mvp (.mul cam.viewProj (.ofTransform transform))),
   .bindPixelUniformBuffer pixelUniform 1,
   .copyData pixelUniform 16 (.color color),
   .draw 6] ++
  (match texture with
    | some tex => [.debindTexture tex 0]
    | none => [])

/-- Whether a device call is `bindPipeline` or `debindPipeline`. -/
def DeviceCall.isPipelineCall : DeviceCall → Bool
  | .bindPipeline _ => true
  | .debindPipeline _ => true
  | _ => false

/-- The device calls of the whole "Render text" loop: for each character index, in
order, the calls of its iteration with the cached texture of that index and the
transform paired with it. -/
def textLoopCalls (vertexUniform pixelUniform : Option Handle)
    (textures : List (Option Texture)) (cam : CameraComponent) (color : Vec4)
    (steps : List (Nat × TransformComponent)) : List DeviceCall :=
  steps.flatMap fun step =>
    glyphCalls vertexUniform pixelUniform ((textures[step.1]?).join) cam color step.2

/-- The texture a device call binds, if it is `bindTexture`. -/
def DeviceCall.boundTexture : DeviceCall → Option Texture
  | .bindTexture t _ => some t
  | _ => none

/-- A font in which every character loads a 2 by 1 bitmap. -/
def Example.wideFont : Font :=
  { characterSize := 2, glyphs := [],
    fallback := { bitmapWidth := 2, bitmapRows := 1, bitmapBuffer := [7, 8],
                  vertBearingY := 64, height := 64, horiBearingY := 64, advanceX := 128 } }

/-- A camera at address 0 and two texts of string "ab" at addresses 1 and 2, the first
in `Example.font`, the second in `Example.wideFont`; the camera is in the Camera Set
and the device's next two created textures are 21 and 22. -/
def Example.twoFontsWorld : World :=
  ⟨[Example.cameraEntity 0, Example.textEntity,
    ⟨some Example.origin, none,
     some ⟨⟨0, 4⟩, Example.white, some Example.wideFont, "ab", true, true⟩, none, none⟩],
   { Example.idleRenderer with cameras := [0] }, ⟨[], [some 21, some 22]⟩, 0, 0⟩

/-! ## Glyph bitmap expansion -/

/-- The body of the inner loop of the glyph expansion with the bounds test of the second
assignment left out: the byte written is always the bitmap byte. -/
def expandPixelDirect (slot : GlyphSlot) (j : Nat) (acc : Option (List Nat)) (k : Nat) :
    Option (List Nat) :=
  match acc with
  | none => none
  | some expandedData =>
    match writeByte expandedData (2 * (k + j * slot.bitmapWidth)) 255 with
    | none => none
    | some expandedData =>
      match slot.bitmapBuffer[k + slot.bitmapWidth * j]? with
      | none => none
      | some byte => writeByte expandedData (2 * (k + j * slot.bitmapWidth) + 1) byte

/-- The two nested loops of `renderText` that fill `expandedData`, with the bounds test
of the second assignment left out. -/
def expandGlyphDirect (slot : GlyphSlot) : Option (List Nat) :=
  (List.range slot.bitmapRows).foldl (fun acc j =>
    (List.range slot.bitmapWidth).foldl (expandPixelDirect slot j) acc)
    (some (List.replicate ((2 * slot.bitmapWidth * slot.bitmapRows) % 2 ^ bitmapSizeBits) 0))

/-- The state of the expansion after the first `m` pixels: the array has its full length
and the two bytes of each of these pixels are written. -/
def ExpandedUpTo (slot : GlyphSlot) (m : Nat) (acc : Option (List Nat)) : Prop :=
  ∃ data, acc = some data ∧ data.length = 2 * slot.bitmapWidth * slot.bitmapRows ∧
    ∀ p, p < m → data[2 * p]? = some 255 ∧ data[2 * p + 1]? = slot.bitmapBuffer[p]?

/-- A bitmap of 65536 by 32768 pixels with the given buffer. -/
def Example.hugeGlyph (buffer : List Nat) : GlyphSlot :=
  { bitmapWidth := 65536, bitmapRows := 32768, bitmapBuffer := buffer,
    vertBearingY := 0, height := 0, horiBearingY := 0, advanceX := 0 }

/-- An entity with a transform and a text component as the one-argument constructor
leaves it, after `setText("ab")` and `update()`: colour 1, no font, the member
`RenderSystem` null. -/
def Example.freshTextEntity : Entity :=
  ⟨some Example.origin, none, some ⟨⟨0, 0⟩, Example.white, none, "ab", false, false⟩,
   none, none⟩

/-- A camera at address 0 and the fresh text at address 1; the system is initialized and
Idle. -/
def Example.freshTextWorld : World :=
  ⟨[Example.cameraEntity 0, Example.freshTextEntity], Example.idleRenderer, ⟨[], []⟩, 0, 0⟩

/-- The world after `begin()`, `setCameras(1, ..)` and `renderTexts(1, ..)` with the fresh
text on `Example.freshTextWorld`. -/
def Example.freshTextRecorded : World :=
  (((RenderSystem.begin Example.freshTextWorld).bind (RenderSystem.setCameras 1 [0])).bind
    (RenderSystem.renderTexts 1 [1])).world

/-- The world after `begin()`, `setCameras(1, ..)` and two calls `renderTexts(1, ..)` with
the fresh text on `Example.freshTextWorld`: the text command is queued twice. -/
def Example.freshTextTwice : World :=
  ((((RenderSystem.begin Example.freshTextWorld).bind (RenderSystem.setCameras 1 [0])).bind
    (RenderSystem.renderTexts 1 [1])).bind (RenderSystem.renderTexts 1 [1])).world

/-- The elements of a loop `for (x : xs) body` whose body was entered, in order: the
loop goes on to the next element only when the body completed. -/
def forEachEntered {α : Type} (xs : List α) (body : α → World → Outcome) (w : World) :
    List α :=
  match xs with
  | [] => []
  | x :: rest =>
    x :: (match body x w with
      | .ok v => forEachEntered rest body v
      | .fatal _ _ => [])

/-! # Theorems -/

/-! ## Basic lemmas -/

@[simp] theorem Outcome.bind_ok (w : World) (f : World → Outcome) : (Outcome.ok w).bind f = f w := rfl
@[simp] theorem Outcome.bind_fatal (e : Fault) (w : World) (f : World → Outcome) :
    (Outcome.fatal e w).bind f = .fatal e w := rfl
@[simp] theorem Outcome.world_ok (w : World) : (Outcome.ok w).world = w := rfl
@[simp] theorem Outcome.world_fatal (e : Fault) (w : World) : (Outcome.fatal e w).world = w := rfl
@[simp] theorem forEach_nil {α : Type} (body : α → World → Outcome) (w : World) :
    forEach [] body w = .ok w := rfl
@[simp] theorem forEach_cons {α : Type} (x : α) (xs : List α) (body : α → World → Outcome) (w : World) :
    forEach (x :: xs) body w = (body x w).bind (forEach xs body) := rfl

theorem Outcome.bind_world_inv (I : World → Prop) (o : Outcome) (f : World → Outcome)
    (ho : I o.world) (hf : ∀ w, I w → I (f w).world) : I (o.bind f).world := by
  cases o with
  | ok w => exact hf w ho
  | fatal e w => exact ho

theorem forEach_world_inv {α : Type} (I : World → Prop) (body : α → World → Outcome)
    (hbody : ∀ x w, I w → I (body x w).world) (xs : List α) :
    ∀ w, I w → I (forEach xs body w).world := by
  induction xs with
  | nil => intro w hw; exact hw
  | cons x xs ih =>
    intro w hw
    exact Outcome.bind_world_inv I _ _ (hbody x w hw) ih

@[simp] theorem World.control_deviceCall (w : World) (c : DeviceCall) :
    (w.deviceCall c).control = w.control := rfl

@[simp] theorem World.control_setEntity (w : World) (p : EntityPtr) (e : Entity) :
    (w.setEntity p e).control = w.control := rfl

@[simp] theorem World.control_submitQuad (w : World) : w.submitQuad.control = w.control := rfl

theorem RenderSystem.renderSprite_control (sprite : EntityPtr) (w : World) :
    (RenderSystem.renderSprite sprite w).world.control = w.control := by
  unfold RenderSystem.renderSprite
  simp only []
  split
  · rfl
  · split
    · rfl
    · split <;> split <;> try rfl
      all_goals (split <;> rfl)

/-! ## Replay routines leave the control state alone -/

theorem RenderSystem.updateCharTextures_control (font : Font) (text : String) (w : World) :
    (RenderSystem.updateCharTextures font text w).world.control = w.control := by
  unfold RenderSystem.updateCharTextures
  split
  · apply Outcome.bind_world_inv (fun v => v.control = w.control)
    · unfold forRange
      apply forEach_world_inv (fun v => v.control = w.control)
      · intro i v hv
        simp only []
        split
        · exact hv
        · split
          · exact hv
          · exact hv
      · rfl
    · intro v hv
      exact hv
  · rfl

theorem RenderSystem.renderGlyph_control (text : EntityPtr) (t : TextComponent) (font : Font)
    (originalScale : Vec3) (i : Nat) (penX : Rat) (w : World) :
    (RenderSystem.renderGlyph text t font originalScale i penX w).world.control
      = w.control := by
  unfold RenderSystem.renderGlyph
  split
  · rfl
  · split
    · rfl
    · simp only []
      split
      · split <;> rfl
      · split
        · split <;> rfl
        · split
          · split <;> rfl
          · split <;> rfl

theorem RenderSystem.renderTextLoop_control (text : EntityPtr) (t : TextComponent) (font : Font)
    (originalScale : Vec3) (is : List Nat) :
    ∀ (penX : Rat) (w : World),
      (RenderSystem.renderTextLoop text t font originalScale is penX w).world.control
        = w.control := by
  induction is with
  | nil => intro penX w; rfl
  | cons i rest ih =>
    intro penX w
    unfold RenderSystem.renderTextLoop
    apply Outcome.bind_world_inv (fun v => v.control = w.control)
    · exact RenderSystem.renderGlyph_control text t font originalScale i penX w
    · intro v hv
      rw [ih]; exact hv

theorem RenderSystem.renderText_control (text : EntityPtr) (w : World) :
    (RenderSystem.renderText text w).world.control = w.control := by
  unfold RenderSystem.renderText
  simp only []
  split
  · rfl
  · split
    · rfl
    · split
      · rfl
      · apply Outcome.bind_world_inv (fun v => v.control = w.control)
        · rw [RenderSystem.updateCharTextures_control]; rfl
        · intro v hv
          split
          · exact hv
          · apply Outcome.bind_world_inv (fun v => v.control = w.control)
            · rw [RenderSystem.renderTextLoop_control]; exact hv
            · intro u hu
              split
              · exact hu
              · split
                · exact hu
                · exact hu

theorem Command.call_control (c : Command) (device : DevicePtr) (w : World) :
    (c.call device w).world.control = w.control := by
  cases c with
  | spriteRender sprite =>
    simp only [Command.call, SpriteComponent.render]
    split
    · rfl
    · split
      · rfl
      · split
        · exact RenderSystem.renderSprite_control sprite w
        · rfl
  | textRender text =>
    simp only [Command.call, TextComponent.render]
    split
    · rfl
    · split
      · rfl
      · split
        · exact RenderSystem.renderText_control text w
        · rfl

/-! ## C1: the phase machine -/

theorem alternates_nil : Alternates [] := by
  intro i; exact i.elim0

theorem alternates_cons_cons (a b : PhaseCall) (cs : List PhaseCall) :
    Alternates (a :: b :: cs) ↔ a = .begin ∧ b = .finish ∧ Alternates cs := by
  constructor
  · intro h
    refine ⟨?_, ?_, ?_⟩
    · simpa using h ⟨0, by simp⟩
    · simpa using h ⟨1, by simp⟩
    · intro i
      have := h ⟨i.val + 2, by simp⟩
      simpa [Nat.add_mod] using this
  · rintro ⟨rfl, rfl, h⟩ ⟨i, hi⟩
    match i, hi with
    | 0, _ => simp
    | 1, _ => simp
    | i + 2, hi =>
      have := h ⟨i, by simpa using hi⟩
      simpa [Nat.add_mod] using this

theorem alternates_singleton (a : PhaseCall) : Alternates [a] ↔ a = .begin := by
  constructor
  · intro h; simpa using h ⟨0, by simp⟩
  · rintro rfl ⟨i, hi⟩
    have : i = 0 := by simpa using hi
    subst this; simp

theorem RenderSystem.end_world_acceptingCommands (w : World)
    (h : w.renderer.acceptingCommands = true) (hq : w.queueInStep) :
    (RenderSystem.end w).world.renderer.acceptingCommands = false := by
  unfold World.queueInStep at hq
  unfold RenderSystem.end
  rw [if_pos h]
  simp only [RenderQueue.end, hq, h, if_true]
  apply forEach_world_inv (fun v => v.renderer.acceptingCommands = false)
  · intro c v hv
    have := Command.call_control c.2 v.renderer.device v
    simp only [World.control, Prod.mk.injEq] at this
    show (c.2.call v.renderer.device v).world.renderer.acceptingCommands = false
    rw [this.2.2.2.2.2.1]; exact hv
  · rfl

theorem RenderSystem.begin_idle (w : World) (hi : w.renderer.initialized = true)
    (ha : w.renderer.acceptingCommands = false) (hq : w.queueInStep) :
    ∃ w1, RenderSystem.begin w = .ok w1 ∧ w1.renderer.initialized = true ∧
      w1.renderer.acceptingCommands = true ∧ w1.queueInStep ∧ w1.renderer.queue.queue = [] := by
  unfold World.queueInStep at hq
  refine ⟨w.setRenderer { w.renderer with
    queue := { queue := [], acceptingCommands := true }, acceptingCommands := true },
    ?_, hi, rfl, rfl, rfl⟩
  simp only [RenderSystem.begin, hi, ha, RenderQueue.begin, hq]
  rfl

theorem RenderSystem.end_empty (w : World) (ha : w.renderer.acceptingCommands = true)
    (hq : w.queueInStep) (he : w.renderer.queue.queue = []) :
    ∃ w2, RenderSystem.end w = .ok w2 ∧ w2.renderer.initialized = w.renderer.initialized ∧
      w2.renderer.acceptingCommands = false ∧ w2.queueInStep := by
  unfold World.queueInStep at hq
  refine ⟨w.setRenderer { w.renderer with
    queue := { queue := [], acceptingCommands := false }, acceptingCommands := false },
    ?_, rfl, rfl, rfl⟩
  simp only [RenderSystem.end, ha, RenderQueue.end, hq, he, if_true, List.insertionSort,
    World.setRenderer, RenderQueue.getQueue, forEach_nil]

theorem RenderSystem.begin_recording (w : World) (ha : w.renderer.acceptingCommands = true) :
    RenderSystem.begin w = .fatal .assertion w := by
  simp [RenderSystem.begin, ha]

theorem RenderSystem.end_idle (w : World) (ha : w.renderer.acceptingCommands = false) :
    RenderSystem.end w = .fatal .assertion w := by
  simp [RenderSystem.end, ha]

theorem runPhaseCalls_idle : ∀ (calls : List PhaseCall) (w : World),
    w.renderer.initialized = true → w.renderer.acceptingCommands = false → w.queueInStep →
    ((runPhaseCalls calls w).isOk = true ↔ Alternates calls) ∧
    ((runPhaseCalls calls w).isOk = false → ∃ w', runPhaseCalls calls w = .fatal .assertion w')
  | [], w, _, _, _ => by
    simp [runPhaseCalls, Outcome.isOk, alternates_nil]
  | [a], w, hi, ha, hq => by
    cases a with
    | begin =>
      obtain ⟨w1, h1, _⟩ := RenderSystem.begin_idle w hi ha hq
      simp [runPhaseCalls, PhaseCall.run, h1, Outcome.isOk, alternates_singleton]
    | finish =>
      simp [runPhaseCalls, PhaseCall.run, RenderSystem.end_idle w ha, Outcome.isOk,
        alternates_singleton]
  | a :: b :: cs, w, hi, ha, hq => by
    cases a with
    | finish =>
      simp [runPhaseCalls, PhaseCall.run, RenderSystem.end_idle w ha, Outcome.isOk,
        alternates_cons_cons]
    | begin =>
      obtain ⟨w1, h1, hi1, ha1, hq1, he1⟩ := RenderSystem.begin_idle w hi ha hq
      cases b with
      | begin =>
        simp [runPhaseCalls, PhaseCall.run, h1, RenderSystem.begin_recording w1 ha1,
          Outcome.isOk, alternates_cons_cons]
      | finish =>
        obtain ⟨w2, h2, hi2, ha2, hq2⟩ := RenderSystem.end_empty w1 ha1 hq1 he1
        have ih := runPhaseCalls_idle cs w2 (hi2.trans hi1) ha2 hq2
        have hrun : runPhaseCalls (.begin :: .finish :: cs) w = runPhaseCalls cs w2 := by
          simp [runPhaseCalls, PhaseCall.run, h1, h2]
        rw [hrun, alternates_cons_cons]
        simpa using ih

/-! ## C3: the queue is sorted stably -/

theorem RenderQueue.pushAll_recording (ps : List QueueEntry) :
    ∀ q : RenderQueue, q.acceptingCommands = true →
      RenderQueue.pushAll ps q = some { q with queue := q.queue ++ ps } := by
  induction ps with
  | nil => intro q _; simp [RenderQueue.pushAll]
  | cons e rest ih =>
    intro q hq
    simp only [RenderQueue.pushAll, RenderQueue.push, hq, if_true, Option.some_bind]
    rw [ih _ rfl]
    simp

theorem insertionSort_filter_key (l : List QueueEntry) (k : Nat) :
    (l.insertionSort QueueEntry.le).filter (fun e => decide (e.1.value = k))
      = l.filter (fun e => decide (e.1.value = k)) := by
  have hpw : (l.filter (fun e => decide (e.1.value = k))).Pairwise QueueEntry.le := by
    rw [List.pairwise_iff_forall_sublist]
    intro a b hab
    have ha : a ∈ l.filter (fun e => decide (e.1.value = k)) := hab.subset (by simp)
    have hb : b ∈ l.filter (fun e => decide (e.1.value = k)) := hab.subset (by simp)
    simp only [List.mem_filter, decide_eq_true_eq] at ha hb
    show a.1.value ≤ b.1.value
    rw [ha.2, hb.2]
  have hsub : (l.filter (fun e => decide (e.1.value = k))).Sublist
      (l.insertionSort QueueEntry.le) :=
    List.sublist_insertionSort hpw (List.filter_sublist l)
  have hsub2 := hsub.filter (fun e => decide (e.1.value = k))
  rw [List.filter_filter] at hsub2
  simp only [Bool.and_self] at hsub2
  have hlen : (l.filter (fun e => decide (e.1.value = k))).length
      = ((l.insertionSort QueueEntry.le).filter (fun e => decide (e.1.value = k))).length :=
    ((List.perm_insertionSort QueueEntry.le l).filter _).length_eq.symm
  exact (hsub2.eq_of_length hlen).symm

/-- C3. Between `begin()` and `end()` of the queue, whatever sequence of entries is
pushed (the pushes of `renderSprites`/`renderTexts` included), the list that `end()`
leaves, and that `RenderSystem::end` then iterates, holds exactly the pushed entries,
is non-decreasing by key value, and for every key value lists the entries of that
key in their original push order. -/
theorem RenderQueue.end_sorted_stable (q0 : RenderQueue) (h0 : q0.acceptingCommands = false)
    (pushes : List QueueEntry) :
    ∃ q1 q2 q3, q0.begin = some q1 ∧ RenderQueue.pushAll pushes q1 = some q2 ∧
      RenderQueue.end q2 = some q3 ∧
      q3.getQueue.Perm pushes ∧
      q3.getQueue.Pairwise (fun a b => a.1.value ≤ b.1.value) ∧
      (∀ k : Nat, q3.getQueue.filter (fun e => decide (e.1.value = k))
        = pushes.filter (fun e => decide (e.1.value = k))) ∧
      ∀ w : World, w.renderer.queue = q2 → w.renderer.acceptingCommands = true →
        RenderSystem.end w = forEach q3.getQueue
          (fun command v => command.2.call v.renderer.device v)
          (w.setRenderer { w.renderer with queue := q3, acceptingCommands := false }) := by
  refine ⟨{ queue := [], acceptingCommands := true },
    { queue := pushes, acceptingCommands := true },
    { queue := pushes.insertionSort QueueEntry.le, acceptingCommands := false },
    ?_, ?_, ?_, ?_, ?_, ?_, ?_⟩
  · simp [RenderQueue.begin, h0]
  · rw [RenderQueue.pushAll_recording pushes _ rfl]; simp
  · simp [RenderQueue.end]
  · exact List.perm_insertionSort QueueEntry.le pushes
  · exact List.sorted_insertionSort QueueEntry.le pushes
  · intro k
    exact insertionSort_filter_key pushes k
  · intro w hw ha
    simp [RenderSystem.end, ha, hw, RenderQueue.end, World.setRenderer, RenderQueue.getQueue]

/-- The scenario of the spec: (opaque, 5), (opaque, 1), (translucent, 2) pushed in that
order are iterated as (opaque, 1), (opaque, 5), (translucent, 2). -/
theorem RenderQueue.end_sorted_stable_witness :
    Example.idleRenderer.queue.acceptingCommands = false ∧
    (∃ q1 q2 q3, Example.idleRenderer.queue.begin = some q1 ∧
      RenderQueue.pushAll [(⟨0, 5⟩, .spriteRender 2), (⟨0, 1⟩, .spriteRender 3),
        (⟨1, 2⟩, .spriteRender 4)] q1 = some q2 ∧
      RenderQueue.end q2 = some q3 ∧
      q3.getQueue.Perm [(⟨0, 5⟩, .spriteRender 2), (⟨0, 1⟩, .spriteRender 3),
        (⟨1, 2⟩, .spriteRender 4)]) ∧
    (RenderQueue.end ⟨[(⟨0, 5⟩, .spriteRender 2), (⟨0, 1⟩, .spriteRender 3),
        (⟨1, 2⟩, .spriteRender 4)], true⟩).map RenderQueue.getQueue
      = some [(⟨0, 1⟩, .spriteRender 3), (⟨0, 5⟩, .spriteRender 2),
        (⟨1, 2⟩, .spriteRender 4)] :=
  ⟨rfl,
   let ⟨q1, q2, q3, h1, h2, h3, h4, _⟩ :=
     RenderQueue.end_sorted_stable Example.idleRenderer.queue rfl
       [(⟨0, 5⟩, .spriteRender 2), (⟨0, 1⟩, .spriteRender 3), (⟨1, 2⟩, .spriteRender 4)]
   ⟨q1, q2, q3, h1, h2, h3, h4⟩,
   by decide⟩

/-! ## C2 and C4: submission guard, opaque before translucent -/

/-- C2. Submission guard. While the system is not accepting commands, each of
`renderSprites`, `renderTexts`, `renderModels`, `renderLights`, `setCameras` and
`setRenderTargets` stops at its phase assertion, for every argument list, and the
world at that point is the world it was called in: queue, Camera Set, Light Set and
everything else are as they were. -/
theorem RenderSystem.submission_guard (w : World) (h : w.renderer.acceptingCommands = false)
    (count : Nat) (entities : List EntityPtr) (renderTargets : List Nat) :
    RenderSystem.renderSprites count entities w = .fatal .assertion w ∧
    RenderSystem.renderTexts count entities w = .fatal .assertion w ∧
    RenderSystem.renderModels count entities w = .fatal .assertion w ∧
    RenderSystem.renderLights count entities w = .fatal .assertion w ∧
    RenderSystem.setCameras count entities w = .fatal .assertion w ∧
    RenderSystem.setRenderTargets count renderTargets w = .fatal .assertion w := by
  simp [RenderSystem.renderSprites, RenderSystem.renderTexts, RenderSystem.renderModels,
    RenderSystem.renderLights, RenderSystem.setCameras, RenderSystem.setRenderTargets, h]

theorem SortKey.value_lt_of_opaque (k : SortKey) (h : k.translucent = 0) :
    k.value < 2 ^ 63 := by
  unfold SortKey.value
  rw [h]
  simp only [Nat.zero_mod, Nat.zero_mul, Nat.zero_add]
  exact Nat.mod_lt _ (by norm_num)

theorem SortKey.value_ge_of_translucent (k : SortKey) (h : k.translucent = 1) :
    2 ^ 63 ≤ k.value := by
  unfold SortKey.value
  rw [h]
  simp

/-- C4. In the order in which `end()` invokes the commands of a frame, every entry
whose key has translucent field 0 comes before every entry whose key has translucent
field 1, whatever the depth fields are. -/
theorem RenderSystem.end_opaque_before_translucent (w : World)
    (ha : w.renderer.acceptingCommands = true) (hq : w.queueInStep) :
    ∃ (order : List QueueEntry) (w1 : World),
      RenderSystem.end w = forEach order
        (fun command v => command.2.call v.renderer.device v) w1 ∧
      order.Perm w.renderer.queue.queue ∧
      ∀ (i j : Fin order.length),
        (order.get i).1.translucent = 0 → (order.get j).1.translucent = 1 → i < j := by
  have hq' : w.renderer.queue.acceptingCommands = true := hq.trans ha
  refine ⟨w.renderer.queue.queue.insertionSort QueueEntry.le,
    w.setRenderer { w.renderer with
      queue := { queue := w.renderer.queue.queue.insertionSort QueueEntry.le,
                 acceptingCommands := false },
      acceptingCommands := false }, ?_, ?_, ?_⟩
  · simp [RenderSystem.end, ha, hq', RenderQueue.end, World.setRenderer, RenderQueue.getQueue]
  · exact List.perm_insertionSort QueueEntry.le _
  · intro i j hi hj
    by_contra hij
    have hsorted := List.sorted_insertionSort QueueEntry.le w.renderer.queue.queue
    have hle : j ≤ i := not_lt.mp hij
    have hne : j ≠ i := by
      rintro rfl
      rw [hi] at hj
      exact absurd hj (by decide)
    have hlt : j < i := lt_of_le_of_ne hle hne
    have h1 : ((w.renderer.queue.queue.insertionSort QueueEntry.le).get j).1.value
        ≤ ((w.renderer.queue.queue.insertionSort QueueEntry.le).get i).1.value :=
      List.pairwise_iff_get.mp hsorted j i hlt
    have h2 := SortKey.value_lt_of_opaque _ hi
    have h3 := SortKey.value_ge_of_translucent _ hj
    omega

theorem RenderSystem.submission_guard_witness :
    Example.idleWorld.renderer.acceptingCommands = false ∧
    RenderSystem.renderSprites 3 [2, 3, 4] Example.idleWorld
      = .fatal .assertion Example.idleWorld ∧
    RenderSystem.setCameras 2 [0, 1] Example.idleWorld
      = .fatal .assertion Example.idleWorld :=
  ⟨rfl, (RenderSystem.submission_guard Example.idleWorld rfl 3 [2, 3, 4] []).1,
   (RenderSystem.submission_guard Example.idleWorld rfl 2 [0, 1] []).2.2.2.2.1⟩

theorem RenderSystem.end_opaque_before_translucent_witness :
    Example.recordedWorld.renderer.acceptingCommands = true ∧
    Example.recordedWorld.queueInStep ∧
    ∃ (order : List QueueEntry) (w1 : World),
      RenderSystem.end Example.recordedWorld = forEach order
        (fun command v => command.2.call v.renderer.device v) w1 ∧
      order.Perm Example.recordedWorld.renderer.queue.queue ∧
      ∀ (i j : Fin order.length),
        (order.get i).1.translucent = 0 → (order.get j).1.translucent = 1 → i < j :=
  ⟨by decide, by decide,
   RenderSystem.end_opaque_before_translucent Example.recordedWorld (by decide) (by decide)⟩

/-! ## C5: the queue is replayed once -/

theorem World.pipelineBinds_deviceCall (w : World) (c : DeviceCall) :
    (w.deviceCall c).pipelineBinds = w.pipelineBinds + (if c.isBindPipeline then 1 else 0) := by
  simp [World.pipelineBinds, World.deviceCall, List.countP_append, List.countP_cons]

@[simp] theorem World.pipelineBinds_setEntity (w : World) (p : EntityPtr) (e : Entity) :
    (w.setEntity p e).pipelineBinds = w.pipelineBinds := rfl

@[simp] theorem World.pipelineBinds_setRenderer (w : World) (r : RenderSystem) :
    (w.setRenderer r).pipelineBinds = w.pipelineBinds := rfl

@[simp] theorem World.pipelineBinds_submitQuad (w : World) :
    w.submitQuad.pipelineBinds = w.pipelineBinds := by
  simp [World.submitQuad, World.pipelineBinds_deviceCall, DeviceCall.isBindPipeline]

theorem World.pipelineBinds_deviceCreate (w : World) (c : DeviceCall)
    (hc : c.isBindPipeline = false) :
    (w.deviceCreate c).2.pipelineBinds = w.pipelineBinds := by
  simp [World.pipelineBinds, World.deviceCreate, List.countP_append, List.countP_cons, hc]

@[simp] theorem World.pipelineBinds_setSpritePass (w : World) (n : Nat) :
    (w.setSpritePass n).pipelineBinds = w.pipelineBinds := rfl

@[simp] theorem World.pipelineBinds_setTextPass (w : World) (n : Nat) :
    (w.setTextPass n).pipelineBinds = w.pipelineBinds := rfl

theorem RenderSystem.renderSprite_pipelineBinds (sprite : EntityPtr) (w : World) :
    (RenderSystem.renderSprite sprite w).world.pipelineBinds = w.pipelineBinds + 1 := by
  unfold RenderSystem.renderSprite
  simp only []
  split
  · simp [World.pipelineBinds_deviceCall, DeviceCall.isBindPipeline]
  · split
    · simp [World.pipelineBinds_deviceCall, DeviceCall.isBindPipeline]
    · split <;> split <;> try split
      all_goals simp [World.pipelineBinds_deviceCall, DeviceCall.isBindPipeline]

theorem RenderSystem.updateCharTextures_pipelineBinds (font : Font) (text : String) (w : World) :
    (RenderSystem.updateCharTextures font text w).world.pipelineBinds = w.pipelineBinds := by
  unfold RenderSystem.updateCharTextures
  split
  · apply Outcome.bind_world_inv (fun v => v.pipelineBinds = w.pipelineBinds)
    · unfold forRange
      apply forEach_world_inv (fun v => v.pipelineBinds = w.pipelineBinds)
      · intro i v hv
        simp only []
        split
        · exact hv
        · split
          · exact hv
          · simp only [Outcome.world_ok, World.pipelineBinds_setRenderer]
            rw [World.pipelineBinds_deviceCreate v _ (by rfl)]
            exact hv
      · rfl
    · intro v hv
      exact hv
  · rfl

theorem RenderSystem.renderGlyph_pipelineBinds (text : EntityPtr) (t : TextComponent)
    (font : Font) (originalScale : Vec3) (i : Nat) (penX : Rat) (w : World) :
    (RenderSystem.renderGlyph text t font originalScale i penX w).world.pipelineBinds
      = w.pipelineBinds := by
  unfold RenderSystem.renderGlyph
  split
  · rfl
  · split
    · rfl
    · simp only []
      split
      · split <;> simp [World.pipelineBinds_deviceCall, DeviceCall.isBindPipeline]
      · split
        · split <;> simp [World.pipelineBinds_deviceCall, DeviceCall.isBindPipeline]
        · split
          · split <;> simp [World.pipelineBinds_deviceCall, DeviceCall.isBindPipeline]
          · split <;> simp [World.pipelineBinds_deviceCall, DeviceCall.isBindPipeline]

theorem RenderSystem.renderTextLoop_pipelineBinds (text : EntityPtr) (t : TextComponent)
    (font : Font) (originalScale : Vec3) (is : List Nat) :
    ∀ (penX : Rat) (w : World),
      (RenderSystem.renderTextLoop text t font originalScale is penX w).world.pipelineBinds
        = w.pipelineBinds := by
  induction is with
  | nil => intro penX w; rfl
  | cons i rest ih =>
    intro penX w
    unfold RenderSystem.renderTextLoop
    apply Outcome.bind_world_inv (fun v => v.pipelineBinds = w.pipelineBinds)
    · exact RenderSystem.renderGlyph_pipelineBinds text t font originalScale i penX w
    · intro v hv
      rw [ih]; exact hv

theorem RenderSystem.renderText_pipelineBinds (text : EntityPtr) (w : World) :
    (RenderSystem.renderText text w).world.pipelineBinds = w.pipelineBinds + 1 := by
  have h0 : (w.deviceCall (.bindPipeline w.renderer.sprPipeline)).pipelineBinds
      = w.pipelineBinds + 1 := by
    simp [World.pipelineBinds_deviceCall, DeviceCall.isBindPipeline]
  unfold RenderSystem.renderText
  simp only []
  split
  · exact h0
  · split
    · exact h0
    · split
      · exact h0
      · apply Outcome.bind_world_inv (fun v => v.pipelineBinds = w.pipelineBinds + 1)
        · rw [RenderSystem.updateCharTextures_pipelineBinds]; exact h0
        · intro v hv
          split
          · exact hv
          · apply Outcome.bind_world_inv (fun v => v.pipelineBinds = w.pipelineBinds + 1)
            · rw [RenderSystem.renderTextLoop_pipelineBinds]; exact hv
            · intro u hu
              split
              · exact hu
              · split
                · exact hu
                · simp [World.pipelineBinds_deviceCall, DeviceCall.isBindPipeline, hu]

theorem Command.call_pipelineBinds (c : Command) (device : DevicePtr) (w w' : World)
    (h : c.call device w = .ok w') : w'.pipelineBinds = w.pipelineBinds + 1 := by
  cases c with
  | spriteRender sprite =>
    simp only [Command.call, SpriteComponent.render] at h
    split at h
    · cases h
    · split at h
      · cases h
      · split at h
        · have := RenderSystem.renderSprite_pipelineBinds sprite w
          rw [h] at this; exact this
        · cases h
  | textRender text =>
    simp only [Command.call, TextComponent.render] at h
    split at h
    · cases h
    · split at h
      · cases h
      · split at h
        · have := RenderSystem.renderText_pipelineBinds text w
          rw [show RenderSystem.renderText text w = .ok w' from h] at this; exact this
        · cases h

theorem forEach_call_pipelineBinds (device : DevicePtr) (entries : List QueueEntry) :
    ∀ (w w' : World), forEach entries (fun command v => command.2.call device v) w = .ok w' →
      w'.pipelineBinds = w.pipelineBinds + entries.length := by
  induction entries with
  | nil => intro w w' h; simp at h; subst h; rfl
  | cons e rest ih =>
    intro w w' h
    rw [forEach_cons] at h
    cases h1 : e.2.call device w with
    | fatal f v => rw [h1] at h; cases h
    | ok v =>
      rw [h1] at h
      have h2 := Command.call_pipelineBinds _ _ _ _ h1
      have h3 := ih v w' h
      rw [h3, h2, List.length_cons]; omega

theorem forEach_congr_inv {α : Type} (I : World → Prop) (body body' : α → World → Outcome)
    (hpres : ∀ x w, I w → I (body x w).world)
    (heq : ∀ x w, I w → body x w = body' x w) (xs : List α) :
    ∀ w, I w → forEach xs body w = forEach xs body' w := by
  induction xs with
  | nil => intro w _; rfl
  | cons x rest ih =>
    intro w hw
    rw [forEach_cons, forEach_cons, ← heq x w hw]
    have hx := hpres x w hw
    cases h : body x w with
    | fatal f v => rfl
    | ok v => rw [h] at hx; exact ih v hx

/-! ## C6: what a submission enqueues -/

theorem forEach_map {α β : Type} (g : α → β) (body : β → World → Outcome) (xs : List α) :
    forEach (xs.map g) body = forEach xs (fun x => body (g x)) := by
  induction xs with
  | nil => rfl
  | cons x rest ih =>
    funext w
    simp only [List.map_cons, forEach_cons, ih]

theorem forRange_getElem {α : Type} (f : α → World → Outcome) (xs : List α) :
    ∀ (count : Nat) (w : World), count ≤ xs.length →
      forRange count (fun i w =>
        match xs[i]? with
        | none => .fatal .memory w
        | some x => f x w) w = forEach (xs.take count) f w := by
  induction xs with
  | nil =>
    intro count w h
    have : count = 0 := by simpa using h
    subst this
    rfl
  | cons x rest ih =>
    intro count w h
    cases count with
    | zero => rfl
    | succ n =>
      have hn : n ≤ rest.length := by simpa using h
      unfold forRange
      rw [List.range_succ_eq_map, forEach_cons, forEach_map, List.take_succ_cons, forEach_cons]
      simp only [List.getElem?_cons_zero, Nat.succ_eq_add_one, List.getElem?_cons_succ]
      congr 1
      funext v
      exact ih n v hn

theorem World.queuePush_accepting (key : SortKey) (command : Command) (w : World)
    (hw : w.renderer.queue.acceptingCommands = true) :
    w.queuePush key command = .ok (w.enqueue key command 1) := by
  simp [World.queuePush, RenderQueue.push, hw, World.enqueue, World.setRenderer]

theorem forEach_queuePush (key : SortKey) (command : Command) (cams : List EntityPtr) :
    ∀ w : World, w.renderer.queue.acceptingCommands = true →
      forEach cams (fun _camera w => w.queuePush key command) w
        = .ok (w.enqueue key command cams.length) := by
  induction cams with
  | nil =>
    intro w _
    simp [World.enqueue, World.setRenderer]
  | cons c rest ih =>
    intro w hw
    rw [forEach_cons, World.queuePush_accepting key command w hw, Outcome.bind_ok,
      ih _ (by simpa [World.enqueue, World.setRenderer] using hw)]
    simp [World.enqueue, World.setRenderer, List.replicate_succ]

theorem spriteLookup_stable : LookupStable spriteLookup := by
  intro e k e' h
  unfold spriteLookup at h ⊢
  cases hs : e.sprite with
  | none => rw [hs] at h; cases h
  | some s =>
    rw [hs] at h
    simp only [Option.map_some', Option.some.injEq, Prod.mk.injEq] at h
    obtain ⟨rfl, rfl⟩ := h
    rfl

theorem textLookup_stable : LookupStable textLookup := by
  intro e k e' h
  unfold textLookup at h ⊢
  cases hs : e.text with
  | none => rw [hs] at h; cases h
  | some s =>
    rw [hs] at h
    simp only [Option.map_some', Option.some.injEq, Prod.mk.injEq] at h
    obtain ⟨rfl, rfl⟩ := h
    rfl

theorem markEntity_key (get : Entity → Option (SortKey × Entity)) (hget : LookupStable get)
    (e : Entity) : (get (markEntity get e)).map Prod.fst = (get e).map Prod.fst := by
  unfold markEntity
  cases h : get e with
  | none => simp [h]
  | some ke =>
    obtain ⟨k, e'⟩ := ke
    simp [hget e k e' h]

theorem markEntity_idem (get : Entity → Option (SortKey × Entity)) (hget : LookupStable get)
    (e : Entity) : markEntity get (markEntity get e) = markEntity get e := by
  cases h : get e with
  | none => simp [markEntity, h]
  | some ke =>
    obtain ⟨k, e'⟩ := ke
    have h1 : markEntity get e = e' := by simp [markEntity, h]
    rw [h1]
    simp [markEntity, hget e k e' h]

theorem World.submitOne_entities (get : Entity → Option (SortKey × Entity))
    (cmd : EntityPtr → Command) (w : World) (p q : EntityPtr) :
    (w.submitOne get cmd p).entities[q]?
      = if q = p then (w.entities[q]?).map (markEntity get) else w.entities[q]? := by
  unfold World.submitOne
  cases hp : w.entities[p]? with
  | none =>
    simp only []
    split
    · next h => subst h; simp [hp]
    · rfl
  | some e =>
    simp only []
    cases hg : get e with
    | none =>
      simp only []
      split
      · next h => subst h; simp [hp, markEntity, hg]
      · rfl
    | some ke =>
      obtain ⟨k, e'⟩ := ke
      simp only [World.enqueue, World.setRenderer, World.setEntity]
      have hlt : p < w.entities.length := by
        by_contra hn
        have := List.getElem?_eq_none (not_lt.mp hn)
        rw [this] at hp; cases hp
      rw [List.getElem?_set]
      by_cases hqp : q = p
      · subst hqp
        simp [hlt, hp, markEntity, hg]
      · have : ¬ p = q := fun h => hqp h.symm
        simp [hqp, this]

theorem World.submitOne_renderer (get : Entity → Option (SortKey × Entity))
    (cmd : EntityPtr → Command) (w : World) (p : EntityPtr) :
    (w.submitOne get cmd p).renderer = { w.renderer with
      queue := { w.renderer.queue with
        queue := w.renderer.queue.queue ++ w.entriesAt get cmd p } } := by
  unfold World.submitOne World.entriesAt World.keyAt
  cases hp : w.entities[p]? with
  | none => simp
  | some e =>
    cases hg : get e with
    | none => simp [hg]
    | some ke =>
      obtain ⟨k, e'⟩ := ke
      simp [hg, World.enqueue, World.setRenderer, World.setEntity]

theorem World.submitOne_rest (get : Entity → Option (SortKey × Entity))
    (cmd : EntityPtr → Command) (w : World) (p : EntityPtr) :
    (w.submitOne get cmd p).graphicsDevice = w.graphicsDevice ∧
    (w.submitOne get cmd p).spritePass = w.spritePass ∧
    (w.submitOne get cmd p).textPass = w.textPass ∧
    (w.submitOne get cmd p).entities.length = w.entities.length := by
  unfold World.submitOne
  cases hp : w.entities[p]? with
  | none => simp
  | some e =>
    cases hg : get e with
    | none => simp [hg]
    | some ke =>
      obtain ⟨k, e'⟩ := ke
      simp [hg, World.enqueue, World.setRenderer, World.setEntity]

theorem World.submitOne_keyAt (get : Entity → Option (SortKey × Entity))
    (hget : LookupStable get) (cmd : EntityPtr → Command) (w : World) (p q : EntityPtr) :
    (w.submitOne get cmd p).keyAt get q = w.keyAt get q := by
  unfold World.keyAt
  rw [World.submitOne_entities]
  split
  · cases h : w.entities[q]? with
    | none => rfl
    | some e => simpa using markEntity_key get hget e
  · rfl

theorem World.submitOne_entriesAt (get : Entity → Option (SortKey × Entity))
    (hget : LookupStable get) (cmd : EntityPtr → Command) (w : World) (p q : EntityPtr) :
    (w.submitOne get cmd p).entriesAt get cmd q = w.entriesAt get cmd q := by
  unfold World.entriesAt
  rw [World.submitOne_keyAt get hget, World.submitOne_renderer]

theorem submitBody_ok (get : Entity → Option (SortKey × Entity)) (cmd : EntityPtr → Command)
    (p : EntityPtr) (w : World) (hp : p < w.entities.length)
    (hq : w.renderer.queue.acceptingCommands = true) :
    submitBody get cmd p w = .ok (w.submitOne get cmd p) := by
  unfold submitBody World.submitOne
  have he : w.entities[p]? = some (w.entities.get ⟨p, hp⟩) := by
    simp [List.getElem?_eq_getElem hp]
  rw [he]
  simp only []
  cases hg : get (w.entities.get ⟨p, hp⟩) with
  | none => rfl
  | some ke =>
    obtain ⟨k, e'⟩ := ke
    simp only []
    rw [forEach_queuePush _ _ _ _ (by simpa [World.setEntity] using hq)]
    rfl

theorem forEach_submitBody (get : Entity → Option (SortKey × Entity))
    (cmd : EntityPtr → Command) (ps : List EntityPtr) :
    ∀ w : World, (∀ p ∈ ps, p < w.entities.length) →
      w.renderer.queue.acceptingCommands = true →
      forEach ps (submitBody get cmd) w = .ok (ps.foldl (World.submitOne get cmd) w) := by
  induction ps with
  | nil => intro w _ _; rfl
  | cons p rest ih =>
    intro w hv hq
    rw [forEach_cons, submitBody_ok get cmd p w (hv p (by simp)) hq, Outcome.bind_ok,
      List.foldl_cons]
    apply ih
    · intro r hr
      rw [(World.submitOne_rest get cmd w p).2.2.2]
      exact hv r (by simp [hr])
    · rw [World.submitOne_renderer]; exact hq

theorem foldl_submitOne_renderer (get : Entity → Option (SortKey × Entity))
    (hget : LookupStable get) (cmd : EntityPtr → Command) (ps : List EntityPtr) :
    ∀ w : World, (ps.foldl (World.submitOne get cmd) w).renderer = { w.renderer with
      queue := { w.renderer.queue with
        queue := w.renderer.queue.queue ++ ps.flatMap (w.entriesAt get cmd) } } := by
  induction ps with
  | nil => intro w; simp
  | cons p rest ih =>
    intro w
    rw [List.foldl_cons, ih, World.submitOne_renderer]
    have : (fun q => (w.submitOne get cmd p).entriesAt get cmd q) = w.entriesAt get cmd := by
      funext q; exact World.submitOne_entriesAt get hget cmd w p q
    simp only [List.flatMap_cons, List.append_assoc]
    rw [show (w.submitOne get cmd p).entriesAt get cmd = w.entriesAt get cmd from this]

theorem foldl_submitOne_rest (get : Entity → Option (SortKey × Entity))
    (cmd : EntityPtr → Command) (ps : List EntityPtr) :
    ∀ w : World,
      (ps.foldl (World.submitOne get cmd) w).graphicsDevice = w.graphicsDevice ∧
      (ps.foldl (World.submitOne get cmd) w).spritePass = w.spritePass ∧
      (ps.foldl (World.submitOne get cmd) w).textPass = w.textPass ∧
      (ps.foldl (World.submitOne get cmd) w).entities.length = w.entities.length := by
  induction ps with
  | nil => intro w; simp
  | cons p rest ih =>
    intro w
    rw [List.foldl_cons]
    have h1 := ih (w.submitOne get cmd p)
    have h2 := World.submitOne_rest get cmd w p
    exact ⟨h1.1.trans h2.1, h1.2.1.trans h2.2.1, h1.2.2.1.trans h2.2.2.1,
      h1.2.2.2.trans h2.2.2.2⟩

theorem foldl_submitOne_entities (get : Entity → Option (SortKey × Entity))
    (hget : LookupStable get) (cmd : EntityPtr → Command) (ps : List EntityPtr) :
    ∀ (w : World) (q : EntityPtr),
      (ps.foldl (World.submitOne get cmd) w).entities[q]?
        = if q ∈ ps then (w.entities[q]?).map (markEntity get) else w.entities[q]? := by
  induction ps with
  | nil => intro w q; simp
  | cons p rest ih =>
    intro w q
    rw [List.foldl_cons, ih, World.submitOne_entities]
    by_cases hqp : q = p
    · subst hqp
      simp only [if_true, List.mem_cons, true_or]
      split
      · cases h : w.entities[q]? with
        | none => rfl
        | some e => simp [markEntity_idem get hget e]
      · rfl
    · simp only [hqp, if_false, List.mem_cons, false_or]

theorem World.submitOne_of_keyAt_none (get : Entity → Option (SortKey × Entity))
    (cmd : EntityPtr → Command) (w : World) (p : EntityPtr) (h : w.keyAt get p = none) :
    w.submitOne get cmd p = w := by
  unfold World.keyAt at h
  unfold World.submitOne
  cases hp : w.entities[p]? with
  | none => rfl
  | some e =>
    rw [hp] at h
    cases hg : get e with
    | none => simp [hg]
    | some ke => simp [hg] at h

theorem foldl_submitOne_filter (get : Entity → Option (SortKey × Entity))
    (hget : LookupStable get) (cmd : EntityPtr → Command) (w : World) (ps : List EntityPtr) :
    ∀ v : World, (∀ q, v.keyAt get q = w.keyAt get q) →
      (ps.filter (fun p => (w.keyAt get p).isSome)).foldl (World.submitOne get cmd) v
        = ps.foldl (World.submitOne get cmd) v := by
  induction ps with
  | nil => intro v _; rfl
  | cons p rest ih =>
    intro v hv
    cases hk : (w.keyAt get p).isSome with
    | true =>
      rw [List.filter_cons_of_pos (by simpa using hk), List.foldl_cons, List.foldl_cons]
      apply ih
      intro q
      rw [World.submitOne_keyAt get hget, hv]
    | false =>
      rw [List.filter_cons_of_neg (by simp [hk]), List.foldl_cons]
      have hnone : v.keyAt get p = none := by
        rw [hv]; simpa using hk
      rw [World.submitOne_of_keyAt_none get cmd v p hnone]
      exact ih v hv

theorem length_flatMap_entriesAt (get : Entity → Option (SortKey × Entity))
    (cmd : EntityPtr → Command) (w : World) (ps : List EntityPtr) :
    (ps.flatMap (w.entriesAt get cmd)).length
      = ps.countP (fun p => (w.keyAt get p).isSome) * w.renderer.cameras.length := by
  induction ps with
  | nil => simp
  | cons p rest ih =>
    rw [List.flatMap_cons, List.length_append, ih, List.countP_cons]
    unfold World.entriesAt
    cases h : w.keyAt get p with
    | none => simp
    | some k => simp [Nat.add_mul, Nat.add_comm]

theorem RenderSystem.renderSprites_eq (count : Nat) (sprites : List EntityPtr) (w : World)
    (ha : w.renderer.acceptingCommands = true) :
    RenderSystem.renderSprites count sprites w = forRange count (fun i w =>
      match sprites[i]? with
      | none => .fatal .memory w
      | some p => submitBody spriteLookup Command.spriteRender p w) w := by
  unfold RenderSystem.renderSprites
  rw [if_pos ha]
  congr 1
  funext i v
  cases sprites[i]? with
  | none => rfl
  | some p =>
    simp only [submitBody, spriteLookup]
    cases v.entities[p]? with
    | none => rfl
    | some e =>
      cases hs : e.sprite with
      | none => simp [hs]
      | some s => simp [hs]

theorem RenderSystem.renderTexts_eq (count : Nat) (texts : List EntityPtr) (w : World)
    (ha : w.renderer.acceptingCommands = true) :
    RenderSystem.renderTexts count texts w = forRange count (fun i w =>
      match texts[i]? with
      | none => .fatal .memory w
      | some p => submitBody textLookup Command.textRender p w) w := by
  unfold RenderSystem.renderTexts
  rw [if_pos ha]
  congr 1
  funext i v
  cases texts[i]? with
  | none => rfl
  | some p =>
    simp only [submitBody, textLookup]
    cases v.entities[p]? with
    | none => rfl
    | some e =>
      cases hs : e.text with
      | none => simp [hs]
      | some s => simp [hs]

theorem World.entriesAt_sprite (w : World) (p : EntityPtr) :
    w.entriesAt spriteLookup Command.spriteRender p =
      match w.spriteAt p with
      | some s => List.replicate w.renderer.cameras.length (s.key, Command.spriteRender p)
      | none => [] := by
  unfold World.entriesAt World.keyAt World.spriteAt spriteLookup
  cases w.entities[p]? with
  | none => rfl
  | some e =>
    cases hs : e.sprite with
    | none => simp [hs]
    | some s => simp [hs]

theorem World.entriesAt_text (w : World) (p : EntityPtr) :
    w.entriesAt textLookup Command.textRender p =
      match w.textAt p with
      | some t => List.replicate w.renderer.cameras.length (t.key, Command.textRender p)
      | none => [] := by
  unfold World.entriesAt World.keyAt World.textAt textLookup
  cases w.entities[p]? with
  | none => rfl
  | some e =>
    cases hs : e.text with
    | none => simp [hs]
    | some s => simp [hs]

theorem World.keyAt_sprite_isSome (w : World) (p : EntityPtr) :
    (w.keyAt spriteLookup p).isSome = (w.spriteAt p).isSome := by
  unfold World.keyAt World.spriteAt spriteLookup
  cases w.entities[p]? with
  | none => rfl
  | some e =>
    cases hs : e.sprite with
    | none => simp [hs]
    | some s => simp [hs]

theorem World.keyAt_text_isSome (w : World) (p : EntityPtr) :
    (w.keyAt textLookup p).isSome = (w.textAt p).isSome := by
  unfold World.keyAt World.textAt textLookup
  cases w.entities[p]? with
  | none => rfl
  | some e =>
    cases hs : e.text with
    | none => simp [hs]
    | some s => simp [hs]

theorem submit_loop (get : Entity → Option (SortKey × Entity))
    (cmd : EntityPtr → Command) (w : World)
    (hq : w.renderer.queue.acceptingCommands = true)
    (count : Nat) (ps : List EntityPtr) (hcount : ps.length = count)
    (hvalid : ∀ p ∈ ps, p < w.entities.length) :
    forRange count (fun i w =>
      match ps[i]? with
      | none => .fatal .memory w
      | some p => submitBody get cmd p w) w
      = .ok (ps.foldl (World.submitOne get cmd) w) := by
  have h1 := forRange_getElem (submitBody get cmd) ps count w (by omega)
  rw [← hcount, List.take_length, forEach_submitBody get cmd ps w hvalid hq] at h1
  rw [← h1, ← hcount]
  congr 1
  funext i v
  cases ps[i]? <;> rfl

theorem submit_loop_filter (get : Entity → Option (SortKey × Entity)) (hget : LookupStable get)
    (cmd : EntityPtr → Command) (w : World)
    (hq : w.renderer.queue.acceptingCommands = true)
    (count : Nat) (ps : List EntityPtr) (hcount : ps.length = count)
    (hvalid : ∀ p ∈ ps, p < w.entities.length) :
    forRange (ps.filter (fun p => (w.keyAt get p).isSome)).length (fun i v =>
      match (ps.filter (fun p => (w.keyAt get p).isSome))[i]? with
      | none => .fatal .memory v
      | some p => submitBody get cmd p v) w
      = forRange count (fun i v =>
      match ps[i]? with
      | none => .fatal .memory v
      | some p => submitBody get cmd p v) w := by
  rw [submit_loop get cmd w hq count ps hcount hvalid,
    submit_loop get cmd w hq _ (ps.filter (fun p => (w.keyAt get p).isSome)) rfl
      (fun p hp => hvalid p (List.mem_of_mem_filter hp)),
    foldl_submitOne_filter get hget cmd w ps w (fun _ => rfl)]

/-- C6. Submission count and order for sprites and texts. In a world that accepts
commands, with `n` cameras in the Camera Set, `renderSprites` on a list of valid entity
addresses completes; it changes nothing of the render system but the queue, to which
it appends, after what was there, for each entity of the list in order that has a
sprite, `n` consecutive entries carrying that sprite's key and the command bound to
it; that is `m * n` entries for the `m` entities with a sprite, and none when `n = 0`.
Entities without a sprite contribute nothing and stop nothing: submitting the list
without them gives the same world. The same holds for `renderTexts` and text
components. -/
theorem RenderSystem.renderSprites_renderTexts_enqueue (w : World)
    (ha : w.renderer.acceptingCommands = true) (hq : w.queueInStep)
    (count : Nat) (ps : List EntityPtr) (hcount : ps.length = count)
    (hvalid : ∀ p ∈ ps, p < w.entities.length) :
    (∃ w', RenderSystem.renderSprites count ps w = .ok w' ∧
      w'.renderer = { w.renderer with queue := { w.renderer.queue with
        queue := w.renderer.queue.queue ++ ps.flatMap (fun p =>
          match w.spriteAt p with
          | some s => List.replicate w.renderer.cameras.length (s.key, Command.spriteRender p)
          | none => []) } } ∧
      w'.renderer.queue.queue.length = w.renderer.queue.queue.length +
        ps.countP (fun p => (w.spriteAt p).isSome) * w.renderer.cameras.length ∧
      (w.renderer.cameras.length = 0 → w'.renderer.queue = w.renderer.queue) ∧
      RenderSystem.renderSprites (ps.filter (fun p => (w.spriteAt p).isSome)).length
        (ps.filter (fun p => (w.spriteAt p).isSome)) w = .ok w') ∧
    (∃ w', RenderSystem.renderTexts count ps w = .ok w' ∧
      w'.renderer = { w.renderer with queue := { w.renderer.queue with
        queue := w.renderer.queue.queue ++ ps.flatMap (fun p =>
          match w.textAt p with
          | some t => List.replicate w.renderer.cameras.length (t.key, Command.textRender p)
          | none => []) } } ∧
      w'.renderer.queue.queue.length = w.renderer.queue.queue.length +
        ps.countP (fun p => (w.textAt p).isSome) * w.renderer.cameras.length ∧
      (w.renderer.cameras.length = 0 → w'.renderer.queue = w.renderer.queue) ∧
      RenderSystem.renderTexts (ps.filter (fun p => (w.textAt p).isSome)).length
        (ps.filter (fun p => (w.textAt p).isSome)) w = .ok w') := by
  have hq' : w.renderer.queue.acceptingCommands = true := hq.trans ha
  constructor
  · have hrun := submit_loop spriteLookup Command.spriteRender w hq' count ps hcount hvalid
    have hfil := submit_loop_filter spriteLookup spriteLookup_stable Command.spriteRender w hq'
      count ps hcount hvalid
    have hren := foldl_submitOne_renderer spriteLookup spriteLookup_stable
      Command.spriteRender ps w
    have hfun : (fun p => w.entriesAt spriteLookup Command.spriteRender p) = (fun p =>
          match w.spriteAt p with
          | some s => List.replicate w.renderer.cameras.length (s.key, Command.spriteRender p)
          | none => []) := by
      funext p; exact World.entriesAt_sprite w p
    have hk : (fun p => (w.keyAt spriteLookup p).isSome) = (fun p => (w.spriteAt p).isSome) := by
      funext p; exact World.keyAt_sprite_isSome w p
    have hlen := length_flatMap_entriesAt spriteLookup Command.spriteRender w ps
    rw [hk] at hfil hlen
    refine ⟨ps.foldl (World.submitOne spriteLookup Command.spriteRender) w, ?_, ?_, ?_, ?_, ?_⟩
    · rw [RenderSystem.renderSprites_eq count ps w ha]; exact hrun
    · rw [hren]
      rw [show w.entriesAt spriteLookup Command.spriteRender = _ from hfun]
    · rw [hren]
      simp only [List.length_append]
      rw [hlen]
    · intro h0
      rw [hren]
      have : ps.flatMap (w.entriesAt spriteLookup Command.spriteRender) = [] := by
        apply List.eq_nil_of_length_eq_zero
        rw [hlen, h0, Nat.mul_zero]
      rw [this, List.append_nil]
    · rw [RenderSystem.renderSprites_eq _ _ w ha, hfil, hrun]
  · have hrun := submit_loop textLookup Command.textRender w hq' count ps hcount hvalid
    have hfil := submit_loop_filter textLookup textLookup_stable Command.textRender w hq'
      count ps hcount hvalid
    have hren := foldl_submitOne_renderer textLookup textLookup_stable
      Command.textRender ps w
    have hfun : (fun p => w.entriesAt textLookup Command.textRender p) = (fun p =>
          match w.textAt p with
          | some t => List.replicate w.renderer.cameras.length (t.key, Command.textRender p)
          | none => []) := by
      funext p; exact World.entriesAt_text w p
    have hk : (fun p => (w.keyAt textLookup p).isSome) = (fun p => (w.textAt p).isSome) := by
      funext p; exact World.keyAt_text_isSome w p
    have hlen := length_flatMap_entriesAt textLookup Command.textRender w ps
    rw [hk] at hfil hlen
    refine ⟨ps.foldl (World.submitOne textLookup Command.textRender) w, ?_, ?_, ?_, ?_, ?_⟩
    · rw [RenderSystem.renderTexts_eq count ps w ha]; exact hrun
    · rw [hren]
      rw [show w.entriesAt textLookup Command.textRender = _ from hfun]
    · rw [hren]
      simp only [List.length_append]
      rw [hlen]
    · intro h0
      rw [hren]
      have : ps.flatMap (w.entriesAt textLookup Command.textRender) = [] := by
        apply List.eq_nil_of_length_eq_zero
        rw [hlen, h0, Nat.mul_zero]
      rw [this, List.append_nil]
    · rw [RenderSystem.renderTexts_eq _ _ w ha, hfil, hrun]

/-! ## Stable sorting of blocks of equal entries -/

theorem orderedInsert_iterate_of_head {α : Type} (r : α → α → Prop) [DecidableRel r]
    (hrefl : ∀ a, r a a) (a : α) :
    ∀ (k : Nat) (X : List α), (∀ x ∈ X.head?, r a x) →
      (List.orderedInsert r a)^[k] X = List.replicate k a ++ X := by
  intro k
  induction k with
  | zero => intro X _; rfl
  | succ k ih =>
    intro X hX
    rw [Function.iterate_succ_apply]
    have h1 : List.orderedInsert r a X = a :: X := by
      cases X with
      | nil => rfl
      | cons x X' =>
        have : r a x := hX x (by simp)
        simp [List.orderedInsert, this]
    rw [h1, ih (a :: X) (by intro x hx; simp at hx; subst hx; exact hrefl a)]
    rw [List.replicate_succ', List.append_assoc]
    rfl

theorem orderedInsert_replicate_append {α : Type} (r : α → α → Prop) [DecidableRel r]
    (a b : α) (hab : ¬ r a b) (T : List α) :
    ∀ m : Nat, List.orderedInsert r a (List.replicate m b ++ T)
      = List.replicate m b ++ List.orderedInsert r a T := by
  intro m
  induction m with
  | zero => rfl
  | succ m ih =>
    rw [List.replicate_succ, List.cons_append, List.orderedInsert, if_neg hab, ih]
    rfl

theorem orderedInsert_iterate_replicate_append {α : Type} (r : α → α → Prop) [DecidableRel r]
    (a b : α) (hab : ¬ r a b) (m : Nat) :
    ∀ (k : Nat) (T : List α), (List.orderedInsert r a)^[k] (List.replicate m b ++ T)
      = List.replicate m b ++ (List.orderedInsert r a)^[k] T := by
  intro k
  induction k with
  | zero => intro T; rfl
  | succ k ih =>
    intro T
    rw [Function.iterate_succ_apply, orderedInsert_replicate_append r a b hab T m, ih,
      Function.iterate_succ_apply]

theorem orderedInsert_iterate_blocks {α : Type} (r : α → α → Prop) [DecidableRel r]
    (hrefl : ∀ a, r a a) (a : α) (n : Nat) (hn : 0 < n) :
    ∀ S : List α, (List.orderedInsert r a)^[n] (S.flatMap (List.replicate n))
      = (List.orderedInsert r a S).flatMap (List.replicate n) := by
  intro S
  induction S with
  | nil =>
    rw [List.flatMap_nil, orderedInsert_iterate_of_head r hrefl a n [] (by simp)]
    simp
  | cons b S' ih =>
    by_cases hab : r a b
    · rw [List.orderedInsert, if_pos hab]
      rw [orderedInsert_iterate_of_head r hrefl a n]
      · simp
      · intro x hx
        obtain ⟨m, rfl⟩ : ∃ m, n = m + 1 := ⟨n - 1, by omega⟩
        simp [List.replicate_succ] at hx
        subst hx
        exact hab
    · rw [List.orderedInsert, if_neg hab, List.flatMap_cons,
        orderedInsert_iterate_replicate_append r a b hab n n, ih, List.flatMap_cons]

theorem insertionSort_replicate_append {α : Type} (r : α → α → Prop) [DecidableRel r]
    (a : α) (L : List α) :
    ∀ n : Nat, List.insertionSort r (List.replicate n a ++ L)
      = (List.orderedInsert r a)^[n] (List.insertionSort r L) := by
  intro n
  induction n with
  | zero => rfl
  | succ n ih =>
    rw [List.replicate_succ, List.cons_append, List.insertionSort, ih,
      Function.iterate_succ_apply']

theorem insertionSort_blocks {α : Type} (r : α → α → Prop) [DecidableRel r]
    (hrefl : ∀ a, r a a) (n : Nat) (hn : 0 < n) :
    ∀ l : List α, List.insertionSort r (l.flatMap (List.replicate n))
      = (List.insertionSort r l).flatMap (List.replicate n) := by
  intro l
  induction l with
  | nil => rfl
  | cons a l ih =>
    rw [List.flatMap_cons, insertionSort_replicate_append, ih,
      orderedInsert_iterate_blocks r hrefl a n hn, List.insertionSort]

/-! ## C7: round robin over the cameras -/

@[simp] theorem World.cameraAt_deviceCall (w : World) (c : DeviceCall) (pass : Nat) :
    (w.deviceCall c).cameraAt pass = w.cameraAt pass := rfl

@[simp] theorem World.spritePass_deviceCall (w : World) (c : DeviceCall) :
    (w.deviceCall c).spritePass = w.spritePass := rfl

@[simp] theorem World.textPass_deviceCall (w : World) (c : DeviceCall) :
    (w.deviceCall c).textPass = w.textPass := rfl

@[simp] theorem World.entities_deviceCall (w : World) (c : DeviceCall) :
    (w.deviceCall c).entities = w.entities := rfl

@[simp] theorem World.renderer_deviceCall (w : World) (c : DeviceCall) :
    (w.deviceCall c).renderer = w.renderer := rfl

theorem RenderSystem.renderSprite_ok (sprite : EntityPtr) (w : World) (e : Entity)
    (s : SpriteComponent) (t : TransformComponent) (cam : CameraComponent)
    (he : w.entities[sprite]? = some e) (hs : e.sprite = some s) (ht : e.transform = some t)
    (hc : w.cameraAt w.spritePass = some cam) :
    RenderSystem.renderSprite sprite w = .ok (w.afterSprite s t cam) := by
  unfold RenderSystem.renderSprite
  simp only [World.entities_deviceCall, he, hs]
  cases htex : s.texture with
  | none =>
    simp only [World.cameraAt_deviceCall, World.spritePass_deviceCall, hc, ht]
    simp [World.afterSprite, spritePassCalls, htex, World.submitQuad, World.deviceCall,
      World.setRenderer, World.setSpritePass]
  | some tex =>
    simp only [World.cameraAt_deviceCall, World.spritePass_deviceCall, hc, ht]
    simp [World.afterSprite, spritePassCalls, htex, World.submitQuad, World.deviceCall,
      World.setRenderer, World.setSpritePass]

theorem forEach_append {α : Type} (body : α → World → Outcome) (xs ys : List α) :
    ∀ w, forEach (xs ++ ys) body w = (forEach xs body w).bind (forEach ys body) := by
  induction xs with
  | nil => intro w; rfl
  | cons x rest ih =>
    intro w
    rw [List.cons_append, forEach_cons, forEach_cons]
    cases body x w with
    | ok v => simp [ih]
    | fatal f v => rfl

theorem World.spriteDraw_of_fixed (v w : World) (h : v.fixed = w.fixed)
    (sprite camera : EntityPtr) : v.spriteDraw sprite camera = w.spriteDraw sprite camera := by
  simp only [World.fixed, Prod.mk.injEq] at h
  obtain ⟨h1, _, h3, h4, h5⟩ := h
  unfold World.spriteDraw
  rw [h1]
  cases w.entities[sprite]? with
  | none => rfl
  | some e =>
    cases w.entities[camera]? with
    | none => rfl
    | some ce =>
      simp only []
      cases e.sprite <;> cases e.transform <;> cases ce.camera <;> try rfl
      simp only [spritePassCalls, h3, h4, h5]

theorem Command.call_spriteRender_ok (sprite : EntityPtr) (device : DevicePtr) (w : World)
    (e : Entity) (s : SpriteComponent) (t : TransformComponent) (cam : CameraComponent)
    (he : w.entities[sprite]? = some e) (hs : e.sprite = some s) (hr : s.renderer = true)
    (ht : e.transform = some t) (hc : w.cameraAt w.spritePass = some cam) :
    (Command.spriteRender sprite).call device w = .ok (w.afterSprite s t cam) := by
  simp only [Command.call, SpriteComponent.render, he, hs, hr, if_true]
  exact RenderSystem.renderSprite_ok sprite w e s t cam he hs ht hc

/-- One block of a replay: the same sprite command once for each camera still due. -/
theorem forEach_sprite_block (device : DevicePtr) (sprite : EntityPtr) (key : SortKey)
    (e : Entity) (s : SpriteComponent) (t : TransformComponent)
    (hs : e.sprite = some s) (hr : s.renderer = true) (ht : e.transform = some t)
    (suf : List EntityPtr) :
    ∀ (pre : List EntityPtr) (v : World),
      v.entities[sprite]? = some e →
      v.renderer.cameras = pre ++ suf → v.spritePass = pre.length →
      (∀ c ∈ suf, ∃ ce cam, v.entities[c]? = some ce ∧ ce.camera = some cam) →
      ∃ v', forEach (List.replicate suf.length (key, Command.spriteRender sprite))
          (fun command u => command.2.call device u) v = .ok v' ∧
        v'.graphicsDevice.calls = v.graphicsDevice.calls ++ suf.flatMap (v.spriteDraw sprite) ∧
        v'.spritePass = (if suf = [] then v.spritePass else 0) ∧
        v'.fixed = v.fixed ∧ v'.textPass = v.textPass ∧
        v'.renderer.queue = v.renderer.queue ∧
        v'.renderer.acceptingCommands = v.renderer.acceptingCommands := by
  induction suf with
  | nil =>
    intro pre v _ _ _ _
    exact ⟨v, rfl, by simp, by simp, rfl, rfl, rfl, rfl⟩
  | cons c rest ih =>
    intro pre v he hcams hpass hvalid
    obtain ⟨ce, cam, hce, hcam⟩ := hvalid c (by simp)
    have hcamAt : v.cameraAt v.spritePass = some cam := by
      unfold World.cameraAt
      rw [hcams, hpass]
      have : (pre ++ c :: rest)[pre.length]? = some c := by
        rw [List.getElem?_append_right (Nat.le_refl _)]
        simp
      rw [this]
      simp only [hce, hcam]
    have hcall := Command.call_spriteRender_ok sprite device v e s t cam he hs hr ht hcamAt
    have hfixed : (v.afterSprite s t cam).fixed = v.fixed := rfl
    have hnext : (v.afterSprite s t cam).spritePass
        = if rest = [] then 0 else (pre ++ [c]).length := by
      show nextPass v.spritePass v.renderer.cameras.length = _
      rw [hcams, hpass]
      unfold nextPass
      cases rest with
      | nil => simp
      | cons c' rest' => simp
    have hdraw : v.spriteDraw sprite c = spritePassCalls v.renderer s t cam := by
      unfold World.spriteDraw
      simp [he, hce, hs, ht, hcam]
    cases hrest : rest with
    | nil =>
      subst hrest
      refine ⟨v.afterSprite s t cam, ?_, ?_, ?_, hfixed, rfl, rfl, rfl⟩
      · simp [hcall]
      · simp [hdraw, World.afterSprite]
      · simpa using hnext
    | cons c' rest' =>
      have hne : rest ≠ [] := by rw [hrest]; simp
      obtain ⟨v', h1, h2, h3, h4, h5, h6, h7⟩ := ih (pre ++ [c]) (v.afterSprite s t cam) he
        (by show v.renderer.cameras = _; rw [hcams]; simp)
        (by rw [hnext, if_neg hne])
        (fun c2 hc2 => hvalid c2 (by simp [hc2]))
      rw [← hrest]
      refine ⟨v', ?_, ?_, ?_, h4.trans hfixed, h5, h6, h7⟩
      · rw [List.length_cons, List.replicate_succ, forEach_cons]
        show ((Command.spriteRender sprite).call device v).bind _ = _
        rw [hcall, Outcome.bind_ok]
        exact h1
      · rw [h2, List.flatMap_cons, hdraw]
        have : (fun c2 => (v.afterSprite s t cam).spriteDraw sprite c2) = v.spriteDraw sprite := by
          funext c2
          exact World.spriteDraw_of_fixed _ _ hfixed sprite c2
        rw [show (v.afterSprite s t cam).spriteDraw sprite = v.spriteDraw sprite from this]
        simp [World.afterSprite]
      · rw [h3, if_neg hne]; simp

theorem forEach_sprite_blocks (device : DevicePtr) (cams : List EntityPtr) (hne : cams ≠ [])
    (order : List QueueEntry) :
    ∀ v : World, v.renderer.cameras = cams → v.spritePass = 0 →
      (∀ c ∈ cams, ∃ ce cam, v.entities[c]? = some ce ∧ ce.camera = some cam) →
      (∀ entry ∈ order, ∃ p e s t, entry.2 = Command.spriteRender p ∧
        v.entities[p]? = some e ∧ e.sprite = some s ∧ s.renderer = true ∧
        e.transform = some t) →
      ∃ v', forEach (order.flatMap (List.replicate cams.length))
          (fun command u => command.2.call device u) v = .ok v' ∧
        v'.graphicsDevice.calls = v.graphicsDevice.calls ++
          order.flatMap (fun entry => cams.flatMap (v.spriteDraw entry.2.target)) ∧
        v'.spritePass = 0 ∧ v'.fixed = v.fixed ∧ v'.textPass = v.textPass ∧
        v'.renderer.queue = v.renderer.queue ∧
        v'.renderer.acceptingCommands = v.renderer.acceptingCommands := by
  induction order with
  | nil =>
    intro v _ hp _ _
    exact ⟨v, rfl, by simp, hp, rfl, rfl, rfl, rfl⟩
  | cons entry rest ih =>
    intro v hcams hpass hvalid hentries
    obtain ⟨p, e, s, t, hcmd, he, hs, hr, ht⟩ := hentries entry (by simp)
    obtain ⟨key, cmd⟩ := entry
    simp only at hcmd
    subst hcmd
    obtain ⟨v1, h1, h2, h3, h4, h5, h6, h7⟩ :=
      forEach_sprite_block device p key e s t hs hr ht cams [] v he (by simpa using hcams)
        (by simpa using hpass) hvalid
    have hfix := h4
    simp only [World.fixed, Prod.mk.injEq] at h4
    obtain ⟨v2, g1, g2, g3, g4, g5, g6, g7⟩ := ih v1 (h4.2.1.trans hcams)
      (by rw [h3, if_neg hne])
      (by rw [h4.1]; exact hvalid)
      (by
        intro en hen
        rw [h4.1]
        exact hentries en (by simp [hen]))
    refine ⟨v2, ?_, ?_, g3, g4.trans hfix, g5.trans h5, g6.trans h6, g7.trans h7⟩
    · rw [List.flatMap_cons, forEach_append, h1, Outcome.bind_ok]
      exact g1
    · rw [g2, h2, List.flatMap_cons]
      have : (fun entry : QueueEntry => cams.flatMap (v1.spriteDraw entry.2.target))
          = (fun entry : QueueEntry => cams.flatMap (v.spriteDraw entry.2.target)) := by
        funext en
        congr 1
        funext c
        exact World.spriteDraw_of_fixed v1 v hfix _ c
      rw [this]
      simp [Command.target]

theorem flatMap_entriesAt_sprite (w : World) (ps : List EntityPtr) :
    ps.flatMap (w.entriesAt spriteLookup Command.spriteRender)
      = (ps.filterMap (fun p =>
          (w.spriteAt p).map (fun s => (s.key, Command.spriteRender p)))).flatMap
        (List.replicate w.renderer.cameras.length) := by
  induction ps with
  | nil => rfl
  | cons p rest ih =>
    rw [List.flatMap_cons, ih, World.entriesAt_sprite, List.filterMap_cons]
    cases w.spriteAt p with
    | none => rfl
    | some s => simp

theorem RenderSystem.end_eq (w : World) (ha : w.renderer.acceptingCommands = true)
    (hq : w.queueInStep) :
    RenderSystem.end w = forEach
      (w.renderer.queue.queue.insertionSort QueueEntry.le)
      (fun command v => command.2.call w.renderer.device v)
      (w.setRenderer { w.renderer with
        queue := { queue := w.renderer.queue.queue.insertionSort QueueEntry.le,
                   acceptingCommands := false },
        acceptingCommands := false }) := by
  have hq' : w.renderer.queue.acceptingCommands = true := hq.trans ha
  simp only [RenderSystem.end, ha, hq', RenderQueue.end, if_true, RenderQueue.getQueue]
  apply forEach_congr_inv (fun v => v.control = (w.setRenderer { w.renderer with
      queue := { queue := w.renderer.queue.queue.insertionSort QueueEntry.le,
                 acceptingCommands := false },
      acceptingCommands := false }).control)
  · intro c v hv
    show (c.2.call v.renderer.device v).world.control = _
    rw [Command.call_control]; exact hv
  · intro c v hv
    simp only [World.control, Prod.mk.injEq] at hv
    show c.2.call v.renderer.device v = c.2.call w.renderer.device v
    rw [hv.2.1]; rfl
  · rfl

theorem forEach_renderSprites (batches : List (List EntityPtr)) :
    ∀ w : World, w.renderer.acceptingCommands = true → w.queueInStep →
      (∀ b ∈ batches, ∀ p ∈ b, p < w.entities.length) →
      forEach batches (fun b => RenderSystem.renderSprites b.length b) w
        = .ok (batches.flatten.foldl (World.submitOne spriteLookup Command.spriteRender) w) := by
  induction batches with
  | nil => intro w _ _ _; rfl
  | cons b rest ih =>
    intro w ha hq hv
    have hq' : w.renderer.queue.acceptingCommands = true := hq.trans ha
    rw [forEach_cons, RenderSystem.renderSprites_eq _ _ w ha,
      submit_loop spriteLookup Command.spriteRender w hq' b.length b rfl (hv b (by simp)),
      Outcome.bind_ok, List.flatten_cons, List.foldl_append]
    have hren := foldl_submitOne_renderer spriteLookup spriteLookup_stable
      Command.spriteRender b w
    apply ih
    · rw [hren]; exact ha
    · show _ = _
      rw [hren]; exact hq
    · intro b' hb' p hp
      rw [(foldl_submitOne_rest spriteLookup Command.spriteRender b w).2.2.2]
      exact hv b' (by simp [hb']) p hp

theorem markEntity_spriteLookup (e : Entity) :
    markEntity spriteLookup e
      = { e with sprite := e.sprite.map (fun s => { s with renderer := true }) } := by
  unfold markEntity spriteLookup
  cases hs : e.sprite with
  | none =>
    simp only [Option.map_none']
    cases e
    simp_all
  | some s => simp

theorem World.spriteDraw_of_marked (v w : World)
    (hent : ∀ q : EntityPtr, v.entities[q]? = w.entities[q]? ∨
      v.entities[q]? = (w.entities[q]?).map (markEntity spriteLookup))
    (h3 : v.renderer.sprPipeline = w.renderer.sprPipeline)
    (h4 : v.renderer.sprVertexUniformBuffer = w.renderer.sprVertexUniformBuffer)
    (h5 : v.renderer.sprPixelUniformBuffer = w.renderer.sprPixelUniformBuffer)
    (sprite camera : EntityPtr) : v.spriteDraw sprite camera = w.spriteDraw sprite camera := by
  have key : ∀ q : Nat, (v.entities[q]?).map (markEntity spriteLookup)
      = (w.entities[q]?).map (markEntity spriteLookup) := by
    intro q
    rcases hent q with h | h
    · rw [h]
    · rw [h]
      cases w.entities[q]? with
      | none => rfl
      | some e => simp [markEntity_idem spriteLookup spriteLookup_stable e]
  have hdraw : ∀ u : World, u.spriteDraw sprite camera =
      match (u.entities[sprite]?).map (markEntity spriteLookup),
        (u.entities[camera]?).map (markEntity spriteLookup) with
      | some e, some ce =>
        match e.sprite, e.transform, ce.camera with
        | some s, some t, some cam => spritePassCalls u.renderer s t cam
        | _, _, _ => []
      | _, _ => [] := by
    intro u
    unfold World.spriteDraw
    cases u.entities[sprite]? with
    | none => rfl
    | some e =>
      cases u.entities[camera]? with
      | none => rfl
      | some ce =>
        simp only [Option.map_some', markEntity_spriteLookup]
        cases e.sprite <;> cases e.transform <;> cases ce.camera <;> rfl
  rw [hdraw v, hdraw w, key sprite, key camera]
  cases (w.entities[sprite]?).map (markEntity spriteLookup) with
  | none => rfl
  | some e =>
    cases (w.entities[camera]?).map (markEntity spriteLookup) with
    | none => rfl
    | some ce =>
      simp only []
      cases e.sprite <;> cases e.transform <;> cases ce.camera <;> try rfl
      simp only [spritePassCalls, h3, h4, h5]

theorem nextPass_eq_mod (pass size : Nat) (h : pass < size) :
    nextPass pass size = (pass + 1) % size := by
  unfold nextPass
  split
  · have : pass + 1 = size := by omega
    rw [this, Nat.mod_self]
  · rw [Nat.mod_eq_of_lt (by omega)]

/-- Replaying any list of sprite commands advances the counter modulo the camera count. -/
theorem forEach_sprite_commands_pass (device : DevicePtr) (cams : List EntityPtr)
    (entries : List QueueEntry) :
    ∀ v : World, v.renderer.cameras = cams → v.spritePass < cams.length →
      (∀ c ∈ cams, ∃ ce cam, v.entities[c]? = some ce ∧ ce.camera = some cam) →
      (∀ entry ∈ entries, ∃ p e s t, entry.2 = Command.spriteRender p ∧
        v.entities[p]? = some e ∧ e.sprite = some s ∧ s.renderer = true ∧
        e.transform = some t) →
      ∃ v', forEach entries (fun command u => command.2.call device u) v = .ok v' ∧
        v'.spritePass = (v.spritePass + entries.length) % cams.length ∧
        v'.fixed = v.fixed := by
  induction entries with
  | nil =>
    intro v _ hp _ _
    exact ⟨v, rfl, by simp [Nat.mod_eq_of_lt hp], rfl⟩
  | cons entry rest ih =>
    intro v hcams hpass hvalid hentries
    obtain ⟨p, e, s, t, hcmd, he, hs, hr, ht⟩ := hentries entry (by simp)
    have hidx : v.renderer.cameras[v.spritePass]? = some (cams.get ⟨v.spritePass, hpass⟩) := by
      rw [hcams]; simp [List.getElem?_eq_getElem hpass]
    obtain ⟨ce, cam, hce, hcam⟩ := hvalid (cams.get ⟨v.spritePass, hpass⟩) (List.get_mem _ _ _)
    have hcamAt : v.cameraAt v.spritePass = some cam := by
      unfold World.cameraAt
      rw [hidx]
      simp only [hce, hcam]
    have hcall := Command.call_spriteRender_ok p device v e s t cam he hs hr ht hcamAt
    have hfixed : (v.afterSprite s t cam).fixed = v.fixed := rfl
    have hnext : (v.afterSprite s t cam).spritePass = (v.spritePass + 1) % cams.length := by
      show nextPass v.spritePass v.renderer.cameras.length = _
      rw [hcams]; exact nextPass_eq_mod _ _ hpass
    have hpos : 0 < cams.length := by omega
    obtain ⟨v', h1, h2, h3⟩ := ih (v.afterSprite s t cam) hcams
      (by rw [hnext]; exact Nat.mod_lt _ hpos) hvalid
      (fun en hen => hentries en (by simp [hen]))
    refine ⟨v', ?_, ?_, h3.trans hfixed⟩
    · rw [forEach_cons]
      show (entry.2.call device v).bind _ = _
      rw [hcmd, hcall, Outcome.bind_ok]
      exact h1
    · rw [h2, hnext, List.length_cons, Nat.mod_add_mod]
      congr 1
      omega

theorem World.cameraAt_isSome (v : World) (cams : List EntityPtr) (i : Nat)
    (hc : v.renderer.cameras = cams) (hi : i < cams.length)
    (hvalid : ∀ c ∈ cams, ∃ ce cam, v.entities[c]? = some ce ∧ ce.camera = some cam) :
    (v.cameraAt i).isSome = true := by
  obtain ⟨ce, cam, hce, hcam⟩ := hvalid (cams.get ⟨i, hi⟩) (List.get_mem _ _ _)
  unfold World.cameraAt
  have hidx : v.renderer.cameras[i]? = some (cams.get ⟨i, hi⟩) := by
    rw [hc]; simp [List.getElem?_eq_getElem hi]
  rw [hidx]
  simp only [hce, hcam, Option.isSome_some]

/-- C7. Multi-camera round robin over a frame of sprite submissions. Start from a world
that accepts commands, with an empty queue (as `begin()` leaves it), `n >= 1` cameras
that all exist, and the sprite pass counter at 0; submit any batches of entities
through `renderSprites` (every address valid, every sprite with a transform); then
call `end()`. The submissions complete and leave the Camera Set alone and `m * n`
entries queued for the `m` drawables; `end()` completes; the `j`-th command it runs
starts with the counter at `j mod n`, an index at which the camera lookup succeeds;
the device calls it adds are, for the drawables in stable key order, the draw of that
drawable with camera 0, then camera 1, ..., then camera `n - 1`; and the counter is 0
again at the end. -/
theorem RenderSystem.sprite_round_robin (w : World)
    (ha : w.renderer.acceptingCommands = true) (hq : w.queueInStep)
    (hempty : w.renderer.queue.queue = []) (hpass : w.spritePass = 0)
    (hne : w.renderer.cameras ≠ [])
    (hcameras : ∀ c ∈ w.renderer.cameras,
      ((w.entities[c]?).bind Entity.camera).isSome = true)
    (batches : List (List EntityPtr))
    (hsprites : ∀ b ∈ batches, ∀ p ∈ b, (w.entities[p]?).isSome = true ∧
      ((w.spriteAt p).isSome = true →
        ((w.entities[p]?).bind Entity.transform).isSome = true)) :
    ∃ w1 ws w2 : World,
      forEach batches (fun b => RenderSystem.renderSprites b.length b) w = .ok w1 ∧
      w1.renderer.cameras = w.renderer.cameras ∧
      w1.renderer.queue.queue.length =
        batches.flatten.countP (fun p => (w.spriteAt p).isSome) * w.renderer.cameras.length ∧
      RenderSystem.end w1 = forEach ws.renderer.queue.getQueue
        (fun command v => command.2.call ws.renderer.device v) ws ∧
      ws.spritePass = 0 ∧ ws.renderer.cameras = w.renderer.cameras ∧
      (∀ j, j < ws.renderer.queue.getQueue.length →
        ∃ vj, forEach (ws.renderer.queue.getQueue.take j)
            (fun command v => command.2.call ws.renderer.device v) ws = .ok vj ∧
          vj.spritePass = j % w.renderer.cameras.length ∧
          vj.renderer.cameras = w.renderer.cameras ∧
          (vj.cameraAt vj.spritePass).isSome = true) ∧
      RenderSystem.end w1 = .ok w2 ∧
      w2.graphicsDevice.calls = w.graphicsDevice.calls ++
        ((w.spriteKeys batches.flatten).insertionSort QueueEntry.le).flatMap
          (fun entry => w.renderer.cameras.flatMap (w.spriteDraw entry.2.target)) ∧
      w2.spritePass = 0 := by
  have hcams : ∀ c ∈ w.renderer.cameras,
      ∃ ce cam, w.entities[c]? = some ce ∧ ce.camera = some cam := by
    intro c hc
    have h := hcameras c hc
    cases h1 : w.entities[c]? with
    | none => rw [h1] at h; cases h
    | some ce =>
      rw [h1] at h
      cases h2 : ce.camera with
      | none => simp [h2] at h
      | some cam => exact ⟨ce, cam, rfl, h2⟩
  have hvalid : ∀ b ∈ batches, ∀ p ∈ b,
      ∃ e, w.entities[p]? = some e ∧ (e.sprite.isSome = true → e.transform.isSome = true) := by
    intro b hb p hp
    obtain ⟨h1, h2⟩ := hsprites b hb p hp
    cases h3 : w.entities[p]? with
    | none => rw [h3] at h1; cases h1
    | some e =>
      refine ⟨e, rfl, ?_⟩
      intro hs
      have := h2 (by simpa [World.spriteAt, h3] using hs)
      simpa [h3] using this
  have hnpos : 0 < w.renderer.cameras.length := List.length_pos.mpr hne
  have hvalid' : ∀ b ∈ batches, ∀ p ∈ b, p < w.entities.length := by
    intro b hb p hp
    obtain ⟨e, he, _⟩ := hvalid b hb p hp
    by_contra hn
    rw [List.getElem?_eq_none (not_lt.mp hn)] at he
    cases he
  have hsub := forEach_renderSprites batches w ha hq hvalid'
  have hren := foldl_submitOne_renderer spriteLookup spriteLookup_stable
    Command.spriteRender batches.flatten w
  have hrest := foldl_submitOne_rest spriteLookup Command.spriteRender batches.flatten w
  have hent := foldl_submitOne_entities spriteLookup spriteLookup_stable
    Command.spriteRender batches.flatten w
  have hqueue : (batches.flatten.foldl (World.submitOne spriteLookup Command.spriteRender)
      w).renderer.queue.queue = (w.spriteKeys batches.flatten).flatMap
        (List.replicate w.renderer.cameras.length) := by
    rw [hren]
    simp only [hempty, List.nil_append]
    exact flatMap_entriesAt_sprite w batches.flatten
  have hsort : List.insertionSort QueueEntry.le
      (batches.flatten.foldl (World.submitOne spriteLookup Command.spriteRender)
        w).renderer.queue.queue
      = ((w.spriteKeys batches.flatten).insertionSort QueueEntry.le).flatMap
        (List.replicate w.renderer.cameras.length) := by
    rw [hqueue]
    exact insertionSort_blocks QueueEntry.le (fun a => Nat.le_refl _) _ hnpos _
  have ha1 : (batches.flatten.foldl (World.submitOne spriteLookup Command.spriteRender)
      w).renderer.acceptingCommands = true := by rw [hren]; exact ha
  have hq1 : (batches.flatten.foldl (World.submitOne spriteLookup Command.spriteRender)
      w).queueInStep := by
    show _ = _
    rw [hren]; exact hq
  have hend := RenderSystem.end_eq _ ha1 hq1
  rw [hsort] at hend
  generalize hw1 : batches.flatten.foldl (World.submitOne spriteLookup Command.spriteRender) w
    = w1 at *
  have hcam1 : w1.renderer.cameras = w.renderer.cameras := by rw [hren]
  -- the world in which the replay starts
  generalize hws : (w1.setRenderer { w1.renderer with
      queue := { queue := ((w.spriteKeys batches.flatten).insertionSort QueueEntry.le).flatMap
                   (List.replicate w.renderer.cameras.length),
                 acceptingCommands := false },
      acceptingCommands := false }) = ws at hend
  have hws_ent : ws.entities = w1.entities := by rw [← hws]; rfl
  have hws_cam : ws.renderer.cameras = w.renderer.cameras := by rw [← hws]; exact hcam1
  have hws_pass : ws.spritePass = 0 := by rw [← hws]; exact hrest.2.1.trans hpass
  have hws_dev : ws.renderer.device = w1.renderer.device := by rw [← hws]; rfl
  have hws_queue : ws.renderer.queue.getQueue
      = ((w.spriteKeys batches.flatten).insertionSort QueueEntry.le).flatMap
          (List.replicate w.renderer.cameras.length) := by rw [← hws]; rfl
  have hws_calls : ws.graphicsDevice.calls = w.graphicsDevice.calls := by
    rw [← hws]; exact congrArg GraphicsDevice.calls hrest.1
  have hmark : ∀ q : EntityPtr, ws.entities[q]? = w.entities[q]? ∨
      ws.entities[q]? = (w.entities[q]?).map (markEntity spriteLookup) := by
    intro q
    rw [hws_ent, hent q]
    by_cases hmem : q ∈ batches.flatten
    · right; rw [if_pos hmem]
    · left; rw [if_neg hmem]
  have hcams_ws : ∀ c ∈ w.renderer.cameras,
      ∃ ce cam, ws.entities[c]? = some ce ∧ ce.camera = some cam := by
    intro c hc
    obtain ⟨ce, cam, hce, hcam⟩ := hcams c hc
    rcases hmark c with h | h
    · exact ⟨ce, cam, h.trans hce, hcam⟩
    · refine ⟨markEntity spriteLookup ce, cam, ?_, ?_⟩
      · rw [h, hce]; rfl
      · rw [markEntity_spriteLookup]; exact hcam
  have hentries : ∀ entry ∈ (w.spriteKeys batches.flatten).insertionSort QueueEntry.le,
      ∃ p e s t, entry.2 = Command.spriteRender p ∧
        ws.entities[p]? = some e ∧ e.sprite = some s ∧ s.renderer = true ∧
        e.transform = some t := by
    intro entry hentry
    rw [List.mem_insertionSort] at hentry
    unfold World.spriteKeys at hentry
    rw [List.mem_filterMap] at hentry
    obtain ⟨p, hp, hmap⟩ := hentry
    obtain ⟨b, hb, hpb⟩ := List.mem_flatten.mp hp
    obtain ⟨e, he, htr⟩ := hvalid b hb p hpb
    unfold World.spriteAt at hmap
    rw [he] at hmap
    simp only [Option.some_bind] at hmap
    cases hs : e.sprite with
    | none => rw [hs] at hmap; cases hmap
    | some s =>
      rw [hs] at hmap
      simp only [Option.map_some', Option.some.injEq] at hmap
      have htr' := htr (by rw [hs]; rfl)
      obtain ⟨t, ht⟩ := Option.isSome_iff_exists.mp htr'
      refine ⟨p, markEntity spriteLookup e, { s with renderer := true }, t, ?_, ?_, ?_, rfl, ?_⟩
      · rw [← hmap]
      · rw [hws_ent, hent p, if_pos hp, he]; rfl
      · rw [markEntity_spriteLookup, hs]; rfl
      · rw [markEntity_spriteLookup]; exact ht
  obtain ⟨w2, g1, g2, g3, g4, _, _, _⟩ := forEach_sprite_blocks ws.renderer.device
    w.renderer.cameras hne _ ws hws_cam hws_pass hcams_ws hentries
  rw [← hws_dev, ← hws_queue] at hend
  refine ⟨w1, ws, w2, hsub, hcam1, ?_, hend, hws_pass, hws_cam, ?_, ?_, ?_, g3⟩
  · have h2 : ((w.spriteKeys batches.flatten).flatMap
        (List.replicate w.renderer.cameras.length)).length
        = (batches.flatten.flatMap (w.entriesAt spriteLookup Command.spriteRender)).length := by
      rw [flatMap_entriesAt_sprite]; rfl
    rw [hqueue, h2,
      length_flatMap_entriesAt spriteLookup Command.spriteRender w batches.flatten]
    congr 2
    funext p
    exact World.keyAt_sprite_isSome w p
  · intro j hj
    have hmem : ∀ entry ∈ ws.renderer.queue.getQueue.take j, ∃ p e s t,
        entry.2 = Command.spriteRender p ∧
        ws.entities[p]? = some e ∧ e.sprite = some s ∧ s.renderer = true ∧
        e.transform = some t := by
      intro entry hentry
      have h1 := List.mem_of_mem_take hentry
      rw [hws_queue, List.mem_flatMap] at h1
      obtain ⟨en, hen, hrep⟩ := h1
      rw [List.eq_of_mem_replicate hrep]
      exact hentries en hen
    obtain ⟨vj, h1, h2, h3⟩ := forEach_sprite_commands_pass ws.renderer.device
      w.renderer.cameras (ws.renderer.queue.getQueue.take j) ws hws_cam
      (by rw [hws_pass]; exact hnpos) hcams_ws hmem
    have hfix := h3
    simp only [World.fixed, Prod.mk.injEq] at h3
    have hvj_cam : vj.renderer.cameras = w.renderer.cameras := h3.2.1.trans hws_cam
    have hvj_pass : vj.spritePass = j % w.renderer.cameras.length := by
      rw [h2, hws_pass, List.length_take, Nat.min_eq_left (Nat.le_of_lt hj), Nat.zero_add]
    refine ⟨vj, h1, hvj_pass, hvj_cam, ?_⟩
    apply World.cameraAt_isSome vj w.renderer.cameras _ hvj_cam
    · rw [hvj_pass]; exact Nat.mod_lt _ hnpos
    · rw [h3.1]; exact hcams_ws
  · rw [hend, hws_queue]; exact g1
  · rw [g2, hws_calls]
    congr 2
    funext entry
    congr 1
    funext c
    apply World.spriteDraw_of_marked ws w hmark
    · rw [← hws]; show w1.renderer.sprPipeline = _; rw [hren]
    · rw [← hws]; show w1.renderer.sprVertexUniformBuffer = _; rw [hren]
    · rw [← hws]; show w1.renderer.sprPixelUniformBuffer = _; rw [hren]

/-! ## C8: the pass counter step -/

theorem World.createGlyph_frame (font : Font) (w : World) (c : Char) :
    (w.createGlyph font c).textFrame = w.textFrame ∧
    (w.createGlyph font c).control = w.control ∧
    (w.createGlyph font c).renderer.previousText = w.renderer.previousText ∧
    (w.createGlyph font c).renderer.charTextures.length
      = w.renderer.charTextures.length + 1 := by
  refine ⟨?_, rfl, rfl, ?_⟩
  · simp [World.createGlyph, World.textFrame, World.deviceCreate, World.setRenderer,
      World.viewportsBound, World.viewProjsUsed, World.pipelineBinds, List.filterMap_append,
      DeviceCall.viewportOf, DeviceCall.viewProjOf, List.countP_append, List.countP_cons,
      DeviceCall.isBindPipeline]
  · simp [World.createGlyph, World.deviceCreate, World.setRenderer]

theorem foldl_createGlyph_frame (font : Font) (cs : List Char) :
    ∀ w : World,
      (cs.foldl (World.createGlyph font) w).textFrame = w.textFrame ∧
      (cs.foldl (World.createGlyph font) w).control = w.control ∧
      (cs.foldl (World.createGlyph font) w).renderer.previousText = w.renderer.previousText ∧
      (cs.foldl (World.createGlyph font) w).renderer.charTextures.length
        = w.renderer.charTextures.length + cs.length := by
  induction cs with
  | nil => intro w; simp
  | cons c rest ih =>
    intro w
    rw [List.foldl_cons]
    obtain ⟨h1, h2, h3, h4⟩ := ih (w.createGlyph font c)
    obtain ⟨g1, g2, g3, g4⟩ := World.createGlyph_frame font w c
    refine ⟨h1.trans g1, h2.trans g2, h3.trans g3, ?_⟩
    rw [h4, g4, List.length_cons]; omega

theorem forEach_createGlyph (font : Font) (cs : List Char)
    (hcs : ∀ c ∈ cs, (expandGlyph (font.loadChar c)).isSome = true) :
    ∀ w : World,
      forEach cs (fun c w =>
        match expandGlyph (font.loadChar c) with
        | none => .fatal .memory w
        | some expandedData =>
          let created := w.deviceCreate (.createTextTexture (font.loadChar c).bitmapWidth
            (font.loadChar c).bitmapRows expandedData)
          .ok (created.2.setRenderer { created.2.renderer with
            charTextures := created.2.renderer.charTextures ++ [created.1] })) w
      = .ok (cs.foldl (World.createGlyph font) w) := by
  induction cs with
  | nil => intro w; rfl
  | cons c rest ih =>
    intro w
    rw [forEach_cons, List.foldl_cons]
    obtain ⟨data, hdata⟩ := Option.isSome_iff_exists.mp (hcs c (by simp))
    simp only [hdata, Outcome.bind_ok]
    rw [ih (fun c' hc' => hcs c' (by simp [hc']))]
    simp [World.createGlyph, hdata]

theorem forRange_read {α : Type} (f : α → World → Outcome) (xs : List α) {count : Nat}
    (hc : count ≤ xs.length) {b1 : Nat → World → Outcome}
    (h : ∀ i v, b1 i v = (match xs[i]? with
      | none => Outcome.fatal Fault.memory v
      | some x => f x v)) (w : World) :
    forRange count b1 w = forEach (xs.take count) f w := by
  have : b1 = (fun i v => match xs[i]? with
      | none => Outcome.fatal Fault.memory v
      | some x => f x v) := by funext i v; exact h i v
  rw [this]
  exact forRange_getElem f xs count w hc

theorem eraseAll_eq_nil (l : List (Option Texture)) : eraseAll l = [] := by
  induction l with
  | nil => rfl
  | cons a rest ih => simpa [eraseAll] using ih

/-- The result of the texture update of `renderText` when every glyph bitmap can be read. -/
theorem RenderSystem.updateCharTextures_ok (font : Font) (text : String) (w : World)
    (hcs : ∀ c ∈ text.data, (expandGlyph (font.loadChar c)).isSome = true)
    (hinv : w.renderer.charTextures.length = w.renderer.previousText.length) :
    ∃ w', RenderSystem.updateCharTextures font text w = .ok w' ∧
      w'.textFrame = w.textFrame ∧ w'.control = w.control ∧
      w'.renderer.previousText = text ∧
      w'.renderer.charTextures.length = text.length := by
  unfold RenderSystem.updateCharTextures
  by_cases hne : text = w.renderer.previousText
  · rw [if_neg (by simpa using hne)]
    exact ⟨w, rfl, rfl, rfl, hne.symm, by rw [hinv, ← hne]⟩
  · rw [if_pos hne, eraseAll_eq_nil]
    simp only []
    rw [forRange_read (fun c w =>
      match expandGlyph (font.loadChar c) with
      | none => .fatal .memory w
      | some expandedData =>
        let created := w.deviceCreate (.createTextTexture (font.loadChar c).bitmapWidth
          (font.loadChar c).bitmapRows expandedData)
        .ok (created.2.setRenderer { created.2.renderer with
          charTextures := created.2.renderer.charTextures ++ [created.1] }))
      text.data (show text.length ≤ text.data.length from Nat.le_refl _)]
    · rw [show text.length = text.data.length from rfl, List.take_length,
        forEach_createGlyph font text.data hcs, Outcome.bind_ok]
      obtain ⟨h1, h2, h3, h4⟩ := foldl_createGlyph_frame font text.data
        (w.setRenderer { w.renderer with charTextures := [] })
      refine ⟨_, rfl, h1, h2, rfl, ?_⟩
      exact h4.trans (by simp [World.setRenderer])
    · intro i v
      cases text.data[i]? with
      | none => rfl
      | some c =>
        rfl

theorem World.cameraAt_setEntity_transform (w : World) (p : EntityPtr) (e : Entity)
    (x : Option TransformComponent) (he : w.entities[p]? = some e) (i : Nat) :
    (w.setEntity p { e with transform := x }).cameraAt i = w.cameraAt i := by
  unfold World.cameraAt World.setEntity
  simp only []
  cases w.renderer.cameras[i]? with
  | none => rfl
  | some c =>
    simp only []
    rw [List.getElem?_set]
    by_cases hpc : p = c
    · subst hpc
      have hlt : p < w.entities.length := by
        by_contra hn
        rw [List.getElem?_eq_none (not_lt.mp hn)] at he
        cases he
      simp [hlt, he]
    · simp [hpc]

theorem World.viewportsBound_deviceCall (w : World) (c : DeviceCall) :
    (w.deviceCall c).viewportsBound = w.viewportsBound ++ (c.viewportOf).toList := by
  unfold World.viewportsBound World.deviceCall
  rw [List.filterMap_append]
  cases h : c.viewportOf <;> simp [List.filterMap_cons, h]

theorem World.viewProjsUsed_deviceCall (w : World) (c : DeviceCall) :
    (w.deviceCall c).viewProjsUsed = w.viewProjsUsed ++ (c.viewProjOf).toList := by
  unfold World.viewProjsUsed World.deviceCall
  rw [List.filterMap_append]
  cases h : c.viewProjOf <;> simp [List.filterMap_cons, h]

@[simp] theorem World.viewportsBound_setEntity (w : World) (p : EntityPtr) (e : Entity) :
    (w.setEntity p e).viewportsBound = w.viewportsBound := rfl

@[simp] theorem World.viewProjsUsed_setEntity (w : World) (p : EntityPtr) (e : Entity) :
    (w.setEntity p e).viewProjsUsed = w.viewProjsUsed := rfl

@[simp] theorem World.viewportsBound_setRenderer (w : World) (r : RenderSystem) :
    (w.setRenderer r).viewportsBound = w.viewportsBound := rfl

@[simp] theorem World.viewProjsUsed_setRenderer (w : World) (r : RenderSystem) :
    (w.setRenderer r).viewProjsUsed = w.viewProjsUsed := rfl

@[simp] theorem World.renderer_setRenderer (w : World) (r : RenderSystem) :
    (w.setRenderer r).renderer = r := rfl

theorem World.viewportsBound_submitQuad (w : World) :
    w.submitQuad.viewportsBound = w.viewportsBound := by
  simp [World.submitQuad, World.viewportsBound_deviceCall, DeviceCall.viewportOf]

theorem World.viewProjsUsed_submitQuad (w : World) :
    w.submitQuad.viewProjsUsed = w.viewProjsUsed ++
      (DeviceCall.viewProjOf (.copyData w.renderer.sprVertexUniformBuffer 64
        (.mvp w.renderer.sprVertexUniformData))).toList := by
  simp [World.submitQuad, World.viewProjsUsed_deviceCall]
  simp [DeviceCall.viewProjOf]

@[simp] theorem World.textPass_setEntity (w : World) (p : EntityPtr) (e : Entity) :
    (w.setEntity p e).textPass = w.textPass := rfl

@[simp] theorem World.renderer_setEntity (w : World) (p : EntityPtr) (e : Entity) :
    (w.setEntity p e).renderer = w.renderer := rfl

theorem World.entities_setEntity_self (w : World) (p : EntityPtr) (e e' : Entity)
    (he : w.entities[p]? = some e) : (w.setEntity p e').entities[p]? = some e' := by
  have hlt : p < w.entities.length := by
    by_contra hn
    rw [List.getElem?_eq_none (not_lt.mp hn)] at he
    cases he
  simp [World.setEntity, List.getElem?_set, hlt]

theorem RenderSystem.renderGlyph_ok (text : EntityPtr) (t : TextComponent) (font : Font)
    (originalScale : Vec3) (cam : CameraComponent) (i : Nat) (penX : Rat) (v : World)
    (hi1 : i < t.text.length) (hi2 : i < v.renderer.charTextures.length)
    (he : ∃ e tr, v.entities[text]? = some e ∧ e.transform = some tr)
    (hcam : v.cameraAt v.textPass = some cam) :
    ∃ v', RenderSystem.renderGlyph text t font originalScale i penX v = .ok v' ∧
      v'.textPass = v.textPass ∧ v'.spritePass = v.spritePass ∧
      v'.renderer.charTextures = v.renderer.charTextures ∧
      v'.renderer.previousText = v.renderer.previousText ∧
      v'.viewportsBound = v.viewportsBound ++ [cam.viewport] ∧
      v'.viewProjsUsed = v.viewProjsUsed ++ [cam.viewProj] ∧
      (∃ e tr, v'.entities[text]? = some e ∧ e.transform = some tr) ∧
      v'.cameraAt v'.textPass = some cam := by
  obtain ⟨e, tr, hent, htr⟩ := he
  have hchar : t.text.data[i]? = some (t.text.data.get ⟨i, hi1⟩) := by
    simp [List.getElem?_eq_getElem (show i < t.text.data.length from hi1)]
  have htex : v.renderer.charTextures[i]?
      = some (v.renderer.charTextures.get ⟨i, hi2⟩) := by
    simp [List.getElem?_eq_getElem hi2]
  unfold RenderSystem.renderGlyph
  simp only [hchar, htex]
  cases v.renderer.charTextures.get ⟨i, hi2⟩ with
  | none =>
    simp only [hent, htr, World.textPass_setEntity,
      World.cameraAt_setEntity_transform v text e _ hent, hcam]
    refine ⟨_, rfl, rfl, rfl, rfl, rfl, ?_, ?_, ?_, ?_⟩
    · simp [World.viewportsBound_submitQuad, World.viewportsBound_deviceCall,
        DeviceCall.viewportOf]
    · simp [World.viewProjsUsed_submitQuad, World.viewProjsUsed_deviceCall,
        DeviceCall.viewProjOf]
    · exact ⟨_, _, World.entities_setEntity_self v text e _ hent, rfl⟩
    · show (v.setEntity text _).cameraAt v.textPass = some cam
      rw [World.cameraAt_setEntity_transform v text e _ hent]; exact hcam
  | some tex =>
    have hent' : (v.deviceCall (.bindTexture tex 0)).entities[text]? = some e := hent
    simp only [World.entities_deviceCall, hent, htr, World.textPass_setEntity,
      World.textPass_deviceCall,
      World.cameraAt_setEntity_transform (v.deviceCall (.bindTexture tex 0)) text e _ hent',
      World.cameraAt_deviceCall, hcam]
    refine ⟨_, rfl, rfl, rfl, rfl, rfl, ?_, ?_, ?_, ?_⟩
    · simp [World.viewportsBound_submitQuad, World.viewportsBound_deviceCall,
        DeviceCall.viewportOf]
    · simp [World.viewProjsUsed_submitQuad, World.viewProjsUsed_deviceCall,
        DeviceCall.viewProjOf]
    · exact ⟨_, _, World.entities_setEntity_self _ text e _ hent', rfl⟩
    · show ((v.deviceCall (.bindTexture tex 0)).setEntity text _).cameraAt v.textPass = some cam
      rw [World.cameraAt_setEntity_transform _ text e _ hent']; exact hcam

theorem RenderSystem.renderTextLoop_ok (text : EntityPtr) (t : TextComponent) (font : Font)
    (originalScale : Vec3) (cam : CameraComponent) (is : List Nat) :
    ∀ (penX : Rat) (v : World),
      (∀ i ∈ is, i < t.text.length ∧ i < v.renderer.charTextures.length) →
      (∃ e tr, v.entities[text]? = some e ∧ e.transform = some tr) →
      v.cameraAt v.textPass = some cam →
      ∃ v', RenderSystem.renderTextLoop text t font originalScale is penX v = .ok v' ∧
        v'.textPass = v.textPass ∧ v'.spritePass = v.spritePass ∧
        v'.renderer.charTextures = v.renderer.charTextures ∧
        v'.renderer.previousText = v.renderer.previousText ∧
        v'.viewportsBound = v.viewportsBound ++ List.replicate is.length cam.viewport ∧
        v'.viewProjsUsed = v.viewProjsUsed ++ List.replicate is.length cam.viewProj ∧
        (∃ e tr, v'.entities[text]? = some e ∧ e.transform = some tr) := by
  induction is with
  | nil =>
    intro penX v _ he _
    exact ⟨v, rfl, rfl, rfl, rfl, rfl, by simp, by simp, he⟩
  | cons i rest ih =>
    intro penX v hidx he hcam
    obtain ⟨hi1, hi2⟩ := hidx i (by simp)
    obtain ⟨v1, h1, h2, h3, h4, h5, h6, h7, h8, h9⟩ :=
      RenderSystem.renderGlyph_ok text t font originalScale cam i penX v hi1 hi2 he hcam
    obtain ⟨v2, g1, g2, g3, g4, g5, g6, g7, g8⟩ := ih (RenderSystem.penXAfter t font i) v1
      (fun j hj => by
        rw [h4]
        exact hidx j (by simp [hj]))
      h8 h9
    refine ⟨v2, ?_, g2.trans h2, g3.trans h3, g4.trans h4, g5.trans h5, ?_, ?_, g8⟩
    · unfold RenderSystem.renderTextLoop
      rw [h1, Outcome.bind_ok]
      exact g1
    · rw [g6, h6, List.length_cons, List.replicate_succ]; simp
    · rw [g7, h7, List.length_cons, List.replicate_succ]; simp

theorem World.cameraAt_congr (v w : World) (hc : v.renderer.cameras = w.renderer.cameras)
    (he : v.entities = w.entities) (i : Nat) : v.cameraAt i = w.cameraAt i := by
  unfold World.cameraAt
  rw [hc, he]

/-- The result of `renderText` when the text entity is complete, every glyph bitmap can be
read, the cached textures match the remembered string and the due camera exists. -/
theorem RenderSystem.renderText_ok (text : EntityPtr) (w : World) (e : Entity)
    (t : TextComponent) (font : Font) (tr : TransformComponent) (cam : CameraComponent)
    (he : w.entities[text]? = some e) (ht : e.text = some t) (hf : t.font = some font)
    (htr : e.transform = some tr)
    (hcs : ∀ c ∈ t.text.data, (expandGlyph (font.loadChar c)).isSome = true)
    (hinv : w.renderer.charTextures.length = w.renderer.previousText.length)
    (hcam : w.cameraAt w.textPass = some cam) :
    ∃ w', RenderSystem.renderText text w = .ok w' ∧
      w'.textPass = nextPass w.textPass w.renderer.cameras.length ∧
      w'.spritePass = w.spritePass ∧ w'.control = w.control ∧
      w'.renderer.previousText = t.text ∧
      w'.renderer.charTextures.length = t.text.length ∧
      w'.viewportsBound = w.viewportsBound ++ List.replicate t.text.length cam.viewport ∧
      w'.viewProjsUsed = w.viewProjsUsed ++ List.replicate t.text.length cam.viewProj := by
  -- after bindPipeline
  obtain ⟨w1, hu, hu1, hu2, hu3, hu4⟩ := RenderSystem.updateCharTextures_ok font t.text
    (w.deviceCall (.bindPipeline w.renderer.sprPipeline)) hcs hinv
  have hframe0 : (w.deviceCall (.bindPipeline w.renderer.sprPipeline)).textFrame
      = (w.entities, w.spritePass, w.textPass, w.viewportsBound, w.viewProjsUsed,
         w.pipelineBinds + 1) := by
    simp [World.textFrame, World.viewportsBound_deviceCall, World.viewProjsUsed_deviceCall,
      World.pipelineBinds_deviceCall, DeviceCall.viewportOf, DeviceCall.viewProjOf,
      DeviceCall.isBindPipeline]
  rw [hframe0] at hu1
  simp only [World.textFrame, Prod.mk.injEq] at hu1
  obtain ⟨f1, f2, f3, f4, f5, _⟩ := hu1
  have hc1 : w1.control = w.control := hu2
  have hcams1 : w1.renderer.cameras = w.renderer.cameras := by
    have := hc1
    simp only [World.control, Prod.mk.injEq] at this
    exact this.2.2.1
  have hcam1 : w1.cameraAt w1.textPass = some cam := by
    rw [World.cameraAt_congr w1 w hcams1 f1, f3]; exact hcam
  have hent1 : w1.entities[text]? = some e := by rw [f1]; exact he
  obtain ⟨w2, hl, l1, l2, l3, l4, l5, l6, l7⟩ := RenderSystem.renderTextLoop_ok text t font
    tr.scale cam (List.range t.text.length) 0 w1
    (fun i hi => by
      rw [hu4]
      exact ⟨List.mem_range.mp hi, List.mem_range.mp hi⟩)
    ⟨e, tr, hent1, htr⟩ hcam1
  have hc2 : w2.control = w1.control := by
    have := RenderSystem.renderTextLoop_control text t font tr.scale
      (List.range t.text.length) 0 w1
    rw [hl] at this
    exact this
  obtain ⟨e2, tr2, hent2, htr2⟩ := l7
  refine ⟨((w2.setEntity text { e2 with
      transform := some { position := tr.position, scale := tr.scale } }).deviceCall
        (.debindPipeline w2.renderer.sprPipeline)).setTextPass
          (nextPass w2.textPass w2.renderer.cameras.length), ?_, ?_, ?_, ?_, ?_, ?_, ?_, ?_⟩
  · unfold RenderSystem.renderText
    simp only [World.entities_deviceCall, he, ht, hf, hu, Outcome.bind_ok, hent1,
      Option.some_bind, htr, hl, hent2, htr2]
    rfl
  · show nextPass w2.textPass w2.renderer.cameras.length = _
    have hcams2 : w2.renderer.cameras = w1.renderer.cameras := by
      have := hc2
      simp only [World.control, Prod.mk.injEq] at this
      exact this.2.2.1
    rw [l1, f3, hcams2, hcams1]
  · show w2.spritePass = _
    rw [l2, f2]
  · show w2.control = _
    rw [hc2, hc1]
  · show w2.renderer.previousText = _
    rw [l4, hu3]
  · show w2.renderer.charTextures.length = _
    rw [l3, hu4]
  · show (World.viewportsBound ((w2.setEntity text _).deviceCall _)) = _
    rw [World.viewportsBound_deviceCall, World.viewportsBound_setEntity, l5, f4]
    simp [DeviceCall.viewportOf]
  · show (World.viewProjsUsed ((w2.setEntity text _).deviceCall _)) = _
    rw [World.viewProjsUsed_deviceCall, World.viewProjsUsed_setEntity, l6, f5]
    simp [DeviceCall.viewProjOf]

theorem spritePassCalls_viewports (r : RenderSystem) (s : SpriteComponent)
    (t : TransformComponent) (cam : CameraComponent) :
    (spritePassCalls r s t cam).filterMap DeviceCall.viewportOf = [cam.viewport] ∧
    (spritePassCalls r s t cam).filterMap DeviceCall.viewProjOf = [cam.viewProj] := by
  unfold spritePassCalls
  cases s.texture <;>
    simp [List.filterMap_cons, List.filterMap_append, DeviceCall.viewportOf,
      DeviceCall.viewProjOf]

/-- C8. Pass-counter step. With `n` cameras in the Camera Set, a counter value
`p < n` and the camera at index `p` being `cam`: one call of `renderSprite`, entered
with the sprite counter at `p` for a sprite that has a transform, completes, binds the
viewport of `cam` (and no other), uploads an MVP built from the view-projection of
`cam` (and no other), leaves the sprite counter at `(p + 1) mod n`, and changes neither
the text counter nor the Camera Set. One call of `renderText`, entered with the text
counter at `p` for a text with a font and a transform whose glyph bitmaps can be read
and with the texture cache matching the remembered string, completes, binds the
viewport and uses the view-projection of `cam` once per character, leaves the text
counter at `(p + 1) mod n`, and changes neither the sprite counter nor the Camera Set. -/
theorem RenderSystem.pass_counter_step (w : World) (n p : Nat) (cam : CameraComponent)
    (hn : w.renderer.cameras.length = n) (hp : p < n) (hcam : w.cameraAt p = some cam) :
    (∀ (sprite : EntityPtr) (e : Entity) (s : SpriteComponent) (t : TransformComponent),
      w.spritePass = p → w.entities[sprite]? = some e → e.sprite = some s →
      e.transform = some t →
      ∃ w', RenderSystem.renderSprite sprite w = .ok w' ∧
        w'.spritePass = (p + 1) % n ∧ w'.textPass = w.textPass ∧
        w'.renderer.cameras = w.renderer.cameras ∧
        w'.viewportsBound = w.viewportsBound ++ [cam.viewport] ∧
        w'.viewProjsUsed = w.viewProjsUsed ++ [cam.viewProj]) ∧
    (∀ (text : EntityPtr) (e : Entity) (t : TextComponent) (font : Font)
      (tr : TransformComponent),
      w.textPass = p → w.entities[text]? = some e → e.text = some t →
      t.font = some font → e.transform = some tr →
      (∀ c ∈ t.text.data, (expandGlyph (font.loadChar c)).isSome = true) →
      w.renderer.charTextures.length = w.renderer.previousText.length →
      ∃ w', RenderSystem.renderText text w = .ok w' ∧
        w'.textPass = (p + 1) % n ∧ w'.spritePass = w.spritePass ∧
        w'.renderer.cameras = w.renderer.cameras ∧
        w'.viewportsBound = w.viewportsBound ++ List.replicate t.text.length cam.viewport ∧
        w'.viewProjsUsed = w.viewProjsUsed ++ List.replicate t.text.length cam.viewProj) := by
  constructor
  · intro sprite e s t hpass he hs ht
    refine ⟨w.afterSprite s t cam, ?_, ?_, rfl, rfl, ?_, ?_⟩
    · exact RenderSystem.renderSprite_ok sprite w e s t cam he hs ht (by rw [hpass]; exact hcam)
    · show nextPass w.spritePass w.renderer.cameras.length = _
      rw [hpass, hn]; exact nextPass_eq_mod p n hp
    · show List.filterMap _ (_ ++ _) = _
      rw [List.filterMap_append, (spritePassCalls_viewports w.renderer s t cam).1]
      rfl
    · show List.filterMap _ (_ ++ _) = _
      rw [List.filterMap_append, (spritePassCalls_viewports w.renderer s t cam).2]
      rfl
  · intro text e t font tr hpass he ht hf htr hcs hinv
    obtain ⟨w', h1, h2, h3, h4, _, _, h7, h8⟩ := RenderSystem.renderText_ok text w e t font tr
      cam he ht hf htr hcs hinv (by rw [hpass]; exact hcam)
    refine ⟨w', h1, ?_, h3, ?_, h7, h8⟩
    · rw [h2, hpass, hn]; exact nextPass_eq_mod p n hp
    · simp only [World.control, Prod.mk.injEq] at h4
      exact h4.2.2.1

/-! ## C9 and C10: the Camera Set and the Light Set are replaced -/

theorem RenderSystem.pushCamera_ok (p : EntityPtr) (w : World)
    (h : ((w.entities[p]?).bind Entity.camera).isSome = true) :
    RenderSystem.pushCamera p w
      = .ok (w.setRenderer { w.renderer with cameras := w.renderer.cameras ++ [p] }) := by
  unfold RenderSystem.pushCamera
  cases he : w.entities[p]? with
  | none => rw [he] at h; cases h
  | some e =>
    rw [he] at h
    cases hc : e.camera with
    | none => simp [hc] at h
    | some c => simp only [hc]

theorem RenderSystem.pushLight_ok (p : EntityPtr) (w : World)
    (h : ((w.entities[p]?).bind Entity.light).isSome = true) :
    RenderSystem.pushLight p w
      = .ok (w.setRenderer { w.renderer with lights := w.renderer.lights ++ [p] }) := by
  unfold RenderSystem.pushLight
  cases he : w.entities[p]? with
  | none => rw [he] at h; cases h
  | some e =>
    rw [he] at h
    cases hc : e.light with
    | none => simp [hc] at h
    | some c => simp only [hc]

theorem forEach_pushCamera (ps : List EntityPtr) :
    ∀ w : World, (∀ p ∈ ps, ((w.entities[p]?).bind Entity.camera).isSome = true) →
      forEach ps RenderSystem.pushCamera w
      = .ok (w.setRenderer { w.renderer with cameras := w.renderer.cameras ++ ps }) := by
  induction ps with
  | nil => intro w _; simp [World.setRenderer]
  | cons p rest ih =>
    intro w h
    rw [forEach_cons, RenderSystem.pushCamera_ok p w (h p (by simp)), Outcome.bind_ok]
    refine (ih (w.setRenderer { w.renderer with cameras := w.renderer.cameras ++ [p] })
      (fun q hq => h q (by simp [hq]))).trans ?_
    simp [World.setRenderer]

theorem forEach_pushLight (ps : List EntityPtr) :
    ∀ w : World, (∀ p ∈ ps, ((w.entities[p]?).bind Entity.light).isSome = true) →
      forEach ps RenderSystem.pushLight w
      = .ok (w.setRenderer { w.renderer with lights := w.renderer.lights ++ ps }) := by
  induction ps with
  | nil => intro w _; simp [World.setRenderer]
  | cons p rest ih =>
    intro w h
    rw [forEach_cons, RenderSystem.pushLight_ok p w (h p (by simp)), Outcome.bind_ok]
    refine (ih (w.setRenderer { w.renderer with lights := w.renderer.lights ++ [p] })
      (fun q hq => h q (by simp [hq]))).trans ?_
    simp [World.setRenderer]

theorem RenderSystem.setCameras_ok (count : Nat) (cams : List EntityPtr) (w : World)
    (ha : w.renderer.acceptingCommands = true) (hcount : cams.length = count)
    (hall : ∀ p ∈ cams, ((w.entities[p]?).bind Entity.camera).isSome = true) :
    RenderSystem.setCameras count cams w
      = .ok (w.setRenderer { w.renderer with cameras := cams }) := by
  unfold RenderSystem.setCameras
  rw [if_pos ha]
  rw [forRange_read RenderSystem.pushCamera cams (show count ≤ cams.length by omega)]
  · rw [← hcount, List.take_length]
    refine (forEach_pushCamera cams (w.setRenderer { w.renderer with cameras := [] })
      hall).trans ?_
    simp [World.setRenderer]
  · intro i v
    cases cams[i]? with
    | none => rfl
    | some p => rfl

theorem RenderSystem.renderLights_ok (count : Nat) (lights : List EntityPtr) (w : World)
    (ha : w.renderer.acceptingCommands = true) (hcount : lights.length = count)
    (hall : ∀ p ∈ lights, ((w.entities[p]?).bind Entity.light).isSome = true) :
    RenderSystem.renderLights count lights w
      = .ok (w.setRenderer { w.renderer with lights := lights }) := by
  unfold RenderSystem.renderLights
  rw [if_pos ha]
  rw [forRange_read RenderSystem.pushLight lights (show count ≤ lights.length by omega)]
  · rw [← hcount, List.take_length]
    refine (forEach_pushLight lights (w.setRenderer { w.renderer with lights := [] })
      hall).trans ?_
    simp [World.setRenderer]
  · intro i v
    cases lights[i]? with
    | none => rfl
    | some p => rfl

/-- C9. `setCameras` replaces the Camera Set wholesale. In a world that accepts commands,
for a list of `count` entity addresses that all have a camera, `setCameras` completes
in the world that differs only in its Camera Set, which is exactly the argument list
(in argument order, of length `count`), whatever the Camera Set held before; queue,
Light Set, phase, entities and device are unchanged, and calling it again with the
same list gives the same world. -/
theorem RenderSystem.setCameras_replaces (w : World)
    (ha : w.renderer.acceptingCommands = true) (count : Nat) (cams : List EntityPtr)
    (hcount : cams.length = count)
    (hall : ∀ p ∈ cams, ((w.entities[p]?).bind Entity.camera).isSome = true) :
    (∀ previous : List EntityPtr,
      RenderSystem.setCameras count cams
          (w.setRenderer { w.renderer with cameras := previous })
        = .ok (w.setRenderer { w.renderer with cameras := cams })) ∧
    (∃ w', RenderSystem.setCameras count cams w = .ok w' ∧
      w'.renderer.cameras = cams ∧ w'.renderer.cameras.length = count ∧
      w'.renderer.queue = w.renderer.queue ∧ w'.renderer.lights = w.renderer.lights ∧
      w'.renderer.acceptingCommands = w.renderer.acceptingCommands ∧
      w'.renderer.initialized = w.renderer.initialized ∧
      w'.entities = w.entities ∧ w'.graphicsDevice = w.graphicsDevice ∧
      RenderSystem.setCameras count cams w' = .ok w') := by
  have key : ∀ previous : List EntityPtr,
      RenderSystem.setCameras count cams
          (w.setRenderer { w.renderer with cameras := previous })
        = .ok (w.setRenderer { w.renderer with cameras := cams }) := by
    intro previous
    exact RenderSystem.setCameras_ok count cams _ ha hcount hall
  refine ⟨key, w.setRenderer { w.renderer with cameras := cams }, ?_, rfl, hcount, rfl, rfl,
    rfl, rfl, rfl, rfl, ?_⟩
  · exact RenderSystem.setCameras_ok count cams w ha hcount hall
  · exact key cams

/-- C10. `renderLights` replaces the Light Set wholesale, with no capacity limit. In a
world that accepts commands, for a list of `count` entity addresses that all have a
light, for every `count` (41 and above included), `renderLights` completes without any
assertion in the world that differs only in its Light Set, which is exactly the
argument list in argument order and of length `count`, whatever the Light Set held
before: nothing is truncated and the result is a function of the arguments. -/
theorem RenderSystem.renderLights_replaces (w : World)
    (ha : w.renderer.acceptingCommands = true) (count : Nat) (lights : List EntityPtr)
    (hcount : lights.length = count)
    (hall : ∀ p ∈ lights, ((w.entities[p]?).bind Entity.light).isSome = true) :
    (∀ previous : List EntityPtr,
      RenderSystem.renderLights count lights
          (w.setRenderer { w.renderer with lights := previous })
        = .ok (w.setRenderer { w.renderer with lights := lights })) ∧
    (∃ w', RenderSystem.renderLights count lights w = .ok w' ∧
      w'.renderer.lights = lights ∧ w'.renderer.lights.length = count ∧
      w'.renderer.queue = w.renderer.queue ∧ w'.renderer.cameras = w.renderer.cameras ∧
      w'.renderer.acceptingCommands = w.renderer.acceptingCommands ∧
      w'.entities = w.entities ∧ w'.graphicsDevice = w.graphicsDevice) := by
  refine ⟨fun previous => RenderSystem.renderLights_ok count lights _ ha hcount hall,
    w.setRenderer { w.renderer with lights := lights }, ?_, rfl, hcount, rfl, rfl, rfl, rfl,
    rfl⟩
  exact RenderSystem.renderLights_ok count lights w ha hcount hall

/-! ## Instances of C6 to C10 on example worlds -/

theorem RenderSystem.renderSprites_renderTexts_enqueue_witness :
    Example.camerasWorld.renderer.acceptingCommands = true ∧
    Example.camerasWorld.queueInStep ∧
    (∀ p ∈ [2, 0, 3], p < Example.camerasWorld.entities.length) ∧
    (∃ w', RenderSystem.renderSprites 3 [2, 0, 3] Example.camerasWorld = .ok w' ∧
      w'.renderer.queue.queue.length = Example.camerasWorld.renderer.queue.queue.length +
        [2, 0, 3].countP (fun p => (Example.camerasWorld.spriteAt p).isSome) *
          Example.camerasWorld.renderer.cameras.length) ∧
    ((RenderSystem.renderSprites 3 [2, 0, 3] Example.camerasWorld).world.renderer.queue.queue
      = [(⟨0, 5⟩, .spriteRender 2), (⟨0, 5⟩, .spriteRender 2),
         (⟨0, 1⟩, .spriteRender 3), (⟨0, 1⟩, .spriteRender 3)]) :=
  ⟨by decide, by decide, by decide,
   let ⟨⟨w', h1, _, h3, _, _⟩, _⟩ :=
     RenderSystem.renderSprites_renderTexts_enqueue Example.camerasWorld (by decide)
       (by decide) 3 [2, 0, 3] rfl (by decide)
   ⟨w', h1, h3⟩,
   by decide⟩

theorem RenderSystem.sprite_round_robin_witness :
    Example.camerasWorld.renderer.acceptingCommands = true ∧
    Example.camerasWorld.queueInStep ∧
    Example.camerasWorld.renderer.queue.queue = [] ∧
    Example.camerasWorld.spritePass = 0 ∧
    Example.camerasWorld.renderer.cameras ≠ [] ∧
    (∃ w1 w2 : World,
      forEach [[2], [3]] (fun b => RenderSystem.renderSprites b.length b)
        Example.camerasWorld = .ok w1 ∧
      w1.renderer.queue.queue.length = 4 ∧
      RenderSystem.end w1 = .ok w2 ∧ w2.spritePass = 0) ∧
    ((((RenderSystem.renderSprites 1 [2] Example.camerasWorld).bind
        RenderSystem.end).world.graphicsDevice.calls.filterMap DeviceCall.viewportOf)
      = [⟨0⟩, ⟨1⟩]) ∧
    (((((RenderSystem.renderSprites 1 [2] Example.camerasWorld).bind
        (RenderSystem.renderSprites 1 [3])).bind
        RenderSystem.end).world.graphicsDevice.calls.filterMap DeviceCall.viewportOf)
      = [⟨0⟩, ⟨1⟩, ⟨0⟩, ⟨1⟩]) :=
  ⟨by decide, by decide, by decide, by decide, by decide,
   let ⟨w1, _, w2, h1, _, h3, _, _, _, _, h8, _, h10⟩ :=
     RenderSystem.sprite_round_robin Example.camerasWorld (by decide) (by decide)
       (by decide) (by decide) (by decide) (by decide) [[2], [3]] (by decide)
   ⟨w1, w2, h1, h3, h8, h10⟩,
   by decide, by decide⟩

theorem RenderSystem.pass_counter_step_witness :
    Example.textWorld.renderer.cameras.length = 2 ∧
    Example.textWorld.cameraAt 1 = some ⟨⟨1⟩, .const 1⟩ ∧
    (∃ w', RenderSystem.renderSprite 2 (Example.textWorld.setSpritePass 1) = .ok w' ∧
      w'.spritePass = (1 + 1) % 2) ∧
    (∃ w', RenderSystem.renderText 3 (Example.textWorld.setTextPass 1) = .ok w' ∧
      w'.textPass = (1 + 1) % 2 ∧
      w'.viewportsBound = (Example.textWorld.setTextPass 1).viewportsBound ++
        List.replicate "ab".length ⟨1⟩) :=
  ⟨by decide, by decide,
   let ⟨w', h1, h2, _⟩ :=
     (RenderSystem.pass_counter_step (Example.textWorld.setSpritePass 1) 2 1
       ⟨⟨1⟩, .const 1⟩ (by decide) (by decide) (by decide)).1 2
       (Example.spriteEntity 0 5 none) ⟨⟨0, 5⟩, none, Example.white, false⟩ Example.origin
       (by decide) (by decide) (by decide) (by decide)
   ⟨w', h1, h2⟩,
   let ⟨w', h1, h2, _, _, h5, _⟩ :=
     (RenderSystem.pass_counter_step (Example.textWorld.setTextPass 1) 2 1
       ⟨⟨1⟩, .const 1⟩ (by decide) (by decide) (by decide)).2 3
       Example.textEntity ⟨⟨0, 3⟩, Example.white, some Example.font, "ab", true, true⟩
       Example.font Example.origin
       (by decide) (by decide) (by decide) (by decide) (by decide) (by decide) (by decide)
   ⟨w', h1, h2, h5⟩⟩

theorem RenderSystem.setCameras_replaces_witness :
    Example.camerasWorld.renderer.acceptingCommands = true ∧
    (∀ p ∈ [1, 0], ((Example.camerasWorld.entities[p]?).bind Entity.camera).isSome = true) ∧
    (∃ w', RenderSystem.setCameras 2 [1, 0] Example.camerasWorld = .ok w' ∧
      w'.renderer.cameras = [1, 0] ∧ w'.renderer.cameras.length = 2) :=
  ⟨by decide, by decide,
   let ⟨_, w', h1, h2, h3, _⟩ :=
     RenderSystem.setCameras_replaces Example.camerasWorld (by decide) 2 [1, 0] rfl
       (by decide)
   ⟨w', h1, h2, h3⟩⟩

theorem RenderSystem.renderLights_replaces_witness :
    Example.lightsWorld.renderer.acceptingCommands = true ∧
    (∀ p ∈ List.range 41,
      ((Example.lightsWorld.entities[p]?).bind Entity.light).isSome = true) ∧
    (∃ w', RenderSystem.renderLights 41 (List.range 41) Example.lightsWorld = .ok w' ∧
      w'.renderer.lights = List.range 41 ∧ w'.renderer.lights.length = 41) :=
  ⟨by decide, by decide,
   let ⟨_, w', h1, h2, h3, _⟩ :=
     RenderSystem.renderLights_replaces Example.lightsWorld (by decide) 41 (List.range 41)
       (by decide) (by decide)
   ⟨w', h1, h2, h3⟩⟩

/-! ## C11 to C15: required components, clear and present, models -/

theorem forEach_pushCamera_fails (ps : List EntityPtr) :
    ∀ w : World, (∀ p ∈ ps, p < w.entities.length) →
      (∃ p ∈ ps, ((w.entities[p]?).bind Entity.camera).isSome = false) →
      ∃ w', forEach ps RenderSystem.pushCamera w = .fatal .assertion w' := by
  induction ps with
  | nil => intro w _ h; obtain ⟨p, hp, _⟩ := h; simp at hp
  | cons p rest ih =>
    intro w hv h
    rw [forEach_cons]
    cases hc : ((w.entities[p]?).bind Entity.camera).isSome with
    | true =>
      rw [RenderSystem.pushCamera_ok p w hc, Outcome.bind_ok]
      apply ih (w.setRenderer { w.renderer with cameras := w.renderer.cameras ++ [p] })
      · intro q hq; exact hv q (by simp [hq])
      · obtain ⟨q, hq, hqc⟩ := h
        rcases List.mem_cons.mp hq with rfl | hq'
        · rw [hc] at hqc; cases hqc
        · exact ⟨q, hq', hqc⟩
    | false =>
      have hlt := hv p (by simp)
      refine ⟨w, ?_⟩
      unfold RenderSystem.pushCamera
      rw [List.getElem?_eq_getElem hlt] at hc ⊢
      simp only [Option.some_bind] at hc
      cases he : (w.entities[p]).camera with
      | none => simp only [he, Outcome.bind_fatal]
      | some c => rw [he] at hc; cases hc

theorem forEach_pushLight_fails (ps : List EntityPtr) :
    ∀ w : World, (∀ p ∈ ps, p < w.entities.length) →
      (∃ p ∈ ps, ((w.entities[p]?).bind Entity.light).isSome = false) →
      ∃ w', forEach ps RenderSystem.pushLight w = .fatal .assertion w' := by
  induction ps with
  | nil => intro w _ h; obtain ⟨p, hp, _⟩ := h; simp at hp
  | cons p rest ih =>
    intro w hv h
    rw [forEach_cons]
    cases hc : ((w.entities[p]?).bind Entity.light).isSome with
    | true =>
      rw [RenderSystem.pushLight_ok p w hc, Outcome.bind_ok]
      apply ih (w.setRenderer { w.renderer with lights := w.renderer.lights ++ [p] })
      · intro q hq; exact hv q (by simp [hq])
      · obtain ⟨q, hq, hqc⟩ := h
        rcases List.mem_cons.mp hq with rfl | hq'
        · rw [hc] at hqc; cases hqc
        · exact ⟨q, hq', hqc⟩
    | false =>
      have hlt := hv p (by simp)
      refine ⟨w, ?_⟩
      unfold RenderSystem.pushLight
      rw [List.getElem?_eq_getElem hlt] at hc ⊢
      simp only [Option.some_bind] at hc
      cases he : (w.entities[p]).light with
      | none => simp only [he, Outcome.bind_fatal]
      | some c => rw [he] at hc; cases hc

theorem RenderSystem.setCameras_loop (count : Nat) (cams : List EntityPtr) (w : World)
    (ha : w.renderer.acceptingCommands = true) (hcount : count ≤ cams.length) :
    RenderSystem.setCameras count cams w = forEach (cams.take count) RenderSystem.pushCamera
      (w.setRenderer { w.renderer with cameras := [] }) := by
  unfold RenderSystem.setCameras
  rw [if_pos ha]
  rw [forRange_read RenderSystem.pushCamera cams hcount]
  intro i v
  cases cams[i]? with
  | none => rfl
  | some p => rfl

theorem RenderSystem.renderLights_loop (count : Nat) (lights : List EntityPtr) (w : World)
    (ha : w.renderer.acceptingCommands = true) (hcount : count ≤ lights.length) :
    RenderSystem.renderLights count lights w = forEach (lights.take count)
      RenderSystem.pushLight (w.setRenderer { w.renderer with lights := [] }) := by
  unfold RenderSystem.renderLights
  rw [if_pos ha]
  rw [forRange_read RenderSystem.pushLight lights hcount]
  intro i v
  cases lights[i]? with
  | none => rfl
  | some p => rfl

/-- C11. Required-component lookups are fatal. In a world that accepts commands, for
`count` at most the length of the argument array and existing entities: `setCameras`
stops at a fatal assertion exactly when one of the first `count` entities has no camera
component, and completes otherwise; `renderLights` stops at a fatal assertion exactly
when one of the first `count` entities has no light component, and completes
otherwise. -/
theorem RenderSystem.required_component_fatal (w : World)
    (ha : w.renderer.acceptingCommands = true) (count : Nat) (ps : List EntityPtr)
    (hcount : count ≤ ps.length) (hvalid : ∀ p ∈ ps.take count, p < w.entities.length) :
    ((∃ w', RenderSystem.setCameras count ps w = .fatal .assertion w') ↔
      ∃ p ∈ ps.take count, ((w.entities[p]?).bind Entity.camera).isSome = false) ∧
    ((RenderSystem.setCameras count ps w).isOk = true ↔
      ∀ p ∈ ps.take count, ((w.entities[p]?).bind Entity.camera).isSome = true) ∧
    ((∃ w', RenderSystem.renderLights count ps w = .fatal .assertion w') ↔
      ∃ p ∈ ps.take count, ((w.entities[p]?).bind Entity.light).isSome = false) ∧
    ((RenderSystem.renderLights count ps w).isOk = true ↔
      ∀ p ∈ ps.take count, ((w.entities[p]?).bind Entity.light).isSome = true) := by
  have hc := RenderSystem.setCameras_loop count ps w ha hcount
  have hl := RenderSystem.renderLights_loop count ps w ha hcount
  have hcam_ok : (∀ p ∈ ps.take count, ((w.entities[p]?).bind Entity.camera).isSome = true) →
      ∃ w', RenderSystem.setCameras count ps w = .ok w' := by
    intro hall
    exact ⟨_, hc.trans (forEach_pushCamera (ps.take count)
      (w.setRenderer { w.renderer with cameras := [] }) hall)⟩
  have hcam_fail : (∃ p ∈ ps.take count, ((w.entities[p]?).bind Entity.camera).isSome = false) →
      ∃ w', RenderSystem.setCameras count ps w = .fatal .assertion w' := by
    intro hex
    obtain ⟨w', hw'⟩ := forEach_pushCamera_fails (ps.take count)
      (w.setRenderer { w.renderer with cameras := [] }) hvalid hex
    exact ⟨w', hc.trans hw'⟩
  have hlight_ok : (∀ p ∈ ps.take count, ((w.entities[p]?).bind Entity.light).isSome = true) →
      ∃ w', RenderSystem.renderLights count ps w = .ok w' := by
    intro hall
    exact ⟨_, hl.trans (forEach_pushLight (ps.take count)
      (w.setRenderer { w.renderer with lights := [] }) hall)⟩
  have hlight_fail : (∃ p ∈ ps.take count, ((w.entities[p]?).bind Entity.light).isSome = false) →
      ∃ w', RenderSystem.renderLights count ps w = .fatal .assertion w' := by
    intro hex
    obtain ⟨w', hw'⟩ := forEach_pushLight_fails (ps.take count)
      (w.setRenderer { w.renderer with lights := [] }) hvalid hex
    exact ⟨w', hl.trans hw'⟩
  refine ⟨⟨?_, hcam_fail⟩, ⟨?_, ?_⟩, ⟨?_, hlight_fail⟩, ⟨?_, ?_⟩⟩
  · rintro ⟨w', hw'⟩
    by_contra hno
    have hall : ∀ p ∈ ps.take count, ((w.entities[p]?).bind Entity.camera).isSome = true := by
      intro p hp
      by_contra hp'
      exact hno ⟨p, hp, by simpa using hp'⟩
    obtain ⟨w'', hw''⟩ := hcam_ok hall
    rw [hw''] at hw'; cases hw'
  · intro hok p hp
    by_contra hp'
    obtain ⟨w', hw'⟩ := hcam_fail ⟨p, hp, by simpa using hp'⟩
    rw [hw'] at hok; cases hok
  · intro hall
    obtain ⟨w', hw'⟩ := hcam_ok hall
    rw [hw']; rfl
  · rintro ⟨w', hw'⟩
    by_contra hno
    have hall : ∀ p ∈ ps.take count, ((w.entities[p]?).bind Entity.light).isSome = true := by
      intro p hp
      by_contra hp'
      exact hno ⟨p, hp, by simpa using hp'⟩
    obtain ⟨w'', hw''⟩ := hlight_ok hall
    rw [hw''] at hw'; cases hw'
  · intro hok p hp
    by_contra hp'
    obtain ⟨w', hw'⟩ := hlight_fail ⟨p, hp, by simpa using hp'⟩
    rw [hw'] at hok; cases hok
  · intro hall
    obtain ⟨w', hw'⟩ := hlight_ok hall
    rw [hw']; rfl

theorem RenderSystem.clear_ok (w : World) (hi : w.renderer.initialized = true)
    (ha : w.renderer.acceptingCommands = false) :
    RenderSystem.clear w = .ok (w.setRenderer { w.renderer with
      queue := { queue := [], acceptingCommands := false }, cameras := [], lights := [] }) := by
  unfold RenderSystem.clear
  simp [hi, ha, RenderQueue.clear]

theorem RenderSystem.clear_fatal (w : World)
    (h : w.renderer.acceptingCommands = true ∨ w.renderer.initialized = false) :
    RenderSystem.clear w = .fatal .assertion w := by
  unfold RenderSystem.clear
  rcases h with h | h <;> simp [h]

theorem RenderSystem.present_ok (w : World) (hi : w.renderer.initialized = true)
    (ha : w.renderer.acceptingCommands = false) :
    RenderSystem.present w
      = .ok ((w.deviceCall .swap).deviceCall (.clear (1 / 2) (3 / 5) (1 / 5) 1)) := by
  unfold RenderSystem.present
  simp [hi, ha]

theorem RenderSystem.present_fatal (w : World)
    (h : w.renderer.acceptingCommands = true ∨ w.renderer.initialized = false) :
    RenderSystem.present w = .fatal .assertion w := by
  unfold RenderSystem.present
  rcases h with h | h <;> simp [h]

theorem RenderSystem.init_flags (vShaderSize pShaderSize : Nat) (w : World) :
    (RenderSystem.init vShaderSize pShaderSize w).renderer.initialized = true ∧
    (RenderSystem.init vShaderSize pShaderSize w).renderer.acceptingCommands
      = w.renderer.acceptingCommands := by
  constructor <;> rfl

theorem RenderSystem.deinit_flags (w : World) :
    (RenderSystem.deinit w).renderer.initialized = false ∧
    (RenderSystem.deinit w).renderer.acceptingCommands = w.renderer.acceptingCommands := by
  constructor <;> rfl

theorem RenderSystem.required_component_fatal_witness :
    Example.camerasWorld.renderer.acceptingCommands = true ∧
    2 ≤ [1, 2, 0].length ∧
    (∀ p ∈ [1, 2, 0].take 2, p < Example.camerasWorld.entities.length) ∧
    (∃ w', RenderSystem.setCameras 2 [1, 2, 0] Example.camerasWorld = .fatal .assertion w') ∧
    (∃ w', RenderSystem.renderLights 2 [1, 2, 0] Example.camerasWorld
      = .fatal .assertion w') :=
  ⟨by decide, by decide, by decide,
   (RenderSystem.required_component_fatal Example.camerasWorld (by decide) 2 [1, 2, 0]
     (by decide) (by decide)).1.2 ⟨2, by decide, by decide⟩,
   (RenderSystem.required_component_fatal Example.camerasWorld (by decide) 2 [1, 2, 0]
     (by decide) (by decide)).2.2.1.2 ⟨1, by decide, by decide⟩⟩

/-- C12, as stated, fails. `Example.recordedWorld` is in the Recording phase with
six entries queued; `clear()` stops at its assertion there, and the queue still has its
six entries and the phase is still Recording. -/
theorem RenderSystem.clear_recording_counterexample :
    Example.recordedWorld.renderer.initialized = true ∧
    Example.recordedWorld.renderer.acceptingCommands = true ∧
    RenderSystem.clear Example.recordedWorld = .fatal .assertion Example.recordedWorld ∧
    ¬ ((RenderSystem.clear Example.recordedWorld).world.renderer.queue.queue = [] ∧
       (RenderSystem.clear Example.recordedWorld).world.renderer.acceptingCommands = false) ∧
    (RenderSystem.clear Example.recordedWorld).world.renderer.queue.queue.length = 6 := by
  decide

/-- C12, amended. Called in the Idle phase of an initialized system, `clear()` completes
and returns the queue to zero entries and its window closed, whatever the queue held
and whether or not its own window was open, and the phase stays Idle. Called in the
Recording phase it stops at the fatal assertion and the queue and the phase are what
they were. -/
theorem RenderSystem.clear_resets_when_idle (w : World) :
    (w.renderer.initialized = true → w.renderer.acceptingCommands = false →
      ∃ w', RenderSystem.clear w = .ok w' ∧ w'.renderer.queue.queue = [] ∧
        w'.renderer.queue.queue.length = 0 ∧
        w'.renderer.queue.acceptingCommands = false ∧
        w'.renderer.acceptingCommands = false) ∧
    (w.renderer.acceptingCommands = true →
      RenderSystem.clear w = .fatal .assertion w ∧
      (RenderSystem.clear w).world.renderer.queue = w.renderer.queue ∧
      (RenderSystem.clear w).world.renderer.acceptingCommands = true) := by
  constructor
  · intro hi ha
    exact ⟨_, RenderSystem.clear_ok w hi ha, rfl, rfl, rfl, ha⟩
  · intro ha
    rw [RenderSystem.clear_fatal w (Or.inl ha)]
    exact ⟨rfl, rfl, ha⟩

theorem RenderSystem.clear_resets_when_idle_witness :
    (RenderSystem.end Example.recordedWorld).world.renderer.initialized = true ∧
    (RenderSystem.end Example.recordedWorld).world.renderer.acceptingCommands = false ∧
    (RenderSystem.end Example.recordedWorld).world.renderer.queue.queue.length = 6 ∧
    (∃ w', RenderSystem.clear (RenderSystem.end Example.recordedWorld).world = .ok w' ∧
      w'.renderer.queue.queue.length = 0 ∧ w'.renderer.acceptingCommands = false) ∧
    Example.recordedWorld.renderer.acceptingCommands = true ∧
    RenderSystem.clear Example.recordedWorld = .fatal .assertion Example.recordedWorld :=
  ⟨by decide, by decide, by decide,
   let ⟨w', h1, _, h3, _, h5⟩ :=
     (RenderSystem.clear_resets_when_idle (RenderSystem.end Example.recordedWorld).world).1
       (by decide) (by decide)
   ⟨w', h1, h3, h5⟩,
   by decide,
   ((RenderSystem.clear_resets_when_idle Example.recordedWorld).2 (by decide)).1⟩

/-- C13. `present()` and `clear()` are legal only while Idle. Each stops at the fatal
assertion, the world untouched, when the system is Recording or not initialized: a
system as constructed (before `init()`) and a system after `deinit()` are not
initialized. On an initialized Idle system, such as a constructed system after
`init()`, each completes and the system is still initialized and Idle. -/
theorem RenderSystem.present_clear_idle_only (w : World) :
    (w.renderer.acceptingCommands = true ∨ w.renderer.initialized = false →
      RenderSystem.present w = .fatal .assertion w ∧
      RenderSystem.clear w = .fatal .assertion w) ∧
    (w.renderer.initialized = true ∧ w.renderer.acceptingCommands = false →
      (∃ w1, RenderSystem.present w = .ok w1 ∧ w1.renderer.initialized = true ∧
        w1.renderer.acceptingCommands = false) ∧
      (∃ w2, RenderSystem.clear w = .ok w2 ∧ w2.renderer.initialized = true ∧
        w2.renderer.acceptingCommands = false)) ∧
    (∀ raw device, w.renderer = RenderSystem.construct raw device →
      (RenderSystem.present w = .fatal .assertion w ∧
        RenderSystem.clear w = .fatal .assertion w) ∧
      ∀ vShaderSize pShaderSize,
        (RenderSystem.present (RenderSystem.init vShaderSize pShaderSize w)).isOk = true ∧
        (RenderSystem.clear (RenderSystem.init vShaderSize pShaderSize w)).isOk = true) ∧
    (RenderSystem.present (RenderSystem.deinit w) = .fatal .assertion (RenderSystem.deinit w) ∧
      RenderSystem.clear (RenderSystem.deinit w)
        = .fatal .assertion (RenderSystem.deinit w)) := by
  refine ⟨?_, ?_, ?_, ?_⟩
  · intro h
    exact ⟨RenderSystem.present_fatal w h, RenderSystem.clear_fatal w h⟩
  · rintro ⟨hi, ha⟩
    exact ⟨⟨_, RenderSystem.present_ok w hi ha, hi, ha⟩,
      ⟨_, RenderSystem.clear_ok w hi ha, hi, ha⟩⟩
  · intro raw device hw
    have hi : w.renderer.initialized = false := by rw [hw]; rfl
    have ha : w.renderer.acceptingCommands = false := by rw [hw]; rfl
    refine ⟨⟨RenderSystem.present_fatal w (Or.inr hi), RenderSystem.clear_fatal w (Or.inr hi)⟩,
      ?_⟩
    intro v p
    have hf := RenderSystem.init_flags v p w
    rw [RenderSystem.present_ok _ hf.1 (hf.2.trans ha),
      RenderSystem.clear_ok _ hf.1 (hf.2.trans ha)]
    exact ⟨rfl, rfl⟩
  · have hf := RenderSystem.deinit_flags w
    exact ⟨RenderSystem.present_fatal _ (Or.inr hf.1), RenderSystem.clear_fatal _ (Or.inr hf.1)⟩

theorem RenderSystem.present_clear_idle_only_witness :
    (Example.recordedWorld.renderer.acceptingCommands = true ∧
      RenderSystem.present Example.recordedWorld = .fatal .assertion Example.recordedWorld ∧
      RenderSystem.clear Example.recordedWorld = .fatal .assertion Example.recordedWorld) ∧
    (Example.idleWorld.renderer.initialized = true ∧
      Example.idleWorld.renderer.acceptingCommands = false ∧
      (∃ w1, RenderSystem.present Example.idleWorld = .ok w1 ∧
        w1.renderer.acceptingCommands = false) ∧
      (∃ w2, RenderSystem.clear Example.idleWorld = .ok w2 ∧
        w2.renderer.acceptingCommands = false)) ∧
    (Example.constructedWorld.renderer = RenderSystem.construct Example.idleRenderer 7 ∧
      RenderSystem.present Example.constructedWorld
        = .fatal .assertion Example.constructedWorld ∧
      (RenderSystem.present (RenderSystem.init 10 20 Example.constructedWorld)).isOk
        = true) :=
  ⟨⟨by decide,
    (RenderSystem.present_clear_idle_only Example.recordedWorld).1 (Or.inl (by decide))⟩,
   ⟨by decide, by decide,
    let ⟨⟨w1, h1, _, h3⟩, ⟨w2, g1, _, g3⟩⟩ :=
      (RenderSystem.present_clear_idle_only Example.idleWorld).2.1 ⟨by decide, by decide⟩
    ⟨⟨w1, h1, h3⟩, ⟨w2, g1, g3⟩⟩⟩,
   ⟨rfl,
    ((RenderSystem.present_clear_idle_only Example.constructedWorld).2.2.1
      Example.idleRenderer 7 rfl).1.1,
    (((RenderSystem.present_clear_idle_only Example.constructedWorld).2.2.1
      Example.idleRenderer 7 rfl).2 10 20).1⟩⟩

/-- C14. Superset reset. On an initialized Idle system `clear()` completes; afterwards
the queue has zero entries and the Camera Set and the Light Set are empty, whatever
they held before; the phase flag and the initialized flag are what they were; nothing
outside the render system object changes; and a second `clear()` right after the first
completes in the very same state. -/
theorem RenderSystem.clear_superset_reset (w : World) (hi : w.renderer.initialized = true)
    (ha : w.renderer.acceptingCommands = false) :
    ∃ w', RenderSystem.clear w = .ok w' ∧
      w'.renderer.queue.queue = [] ∧ w'.renderer.queue.queue.length = 0 ∧
      w'.renderer.cameras = [] ∧ w'.renderer.lights = [] ∧
      w'.renderer.acceptingCommands = w.renderer.acceptingCommands ∧
      w'.renderer.initialized = w.renderer.initialized ∧
      w'.entities = w.entities ∧ w'.graphicsDevice = w.graphicsDevice ∧
      w'.spritePass = w.spritePass ∧ w'.textPass = w.textPass ∧
      RenderSystem.clear w' = .ok w' ∧
      (RenderSystem.clear w).bind RenderSystem.clear = RenderSystem.clear w := by
  refine ⟨_, RenderSystem.clear_ok w hi ha, rfl, rfl, rfl, rfl, rfl, rfl, rfl, rfl, rfl, rfl,
    ?_, ?_⟩
  · exact RenderSystem.clear_ok _ hi ha
  · rw [RenderSystem.clear_ok w hi ha, Outcome.bind_ok]
    exact RenderSystem.clear_ok _ hi ha

theorem RenderSystem.clear_superset_reset_witness :
    (RenderSystem.end Example.recordedWorld).world.renderer.initialized = true ∧
    (RenderSystem.end Example.recordedWorld).world.renderer.acceptingCommands = false ∧
    (RenderSystem.end Example.recordedWorld).world.renderer.queue.queue.length = 6 ∧
    (RenderSystem.end Example.recordedWorld).world.renderer.cameras = [0, 1] ∧
    (∃ w', RenderSystem.clear (RenderSystem.end Example.recordedWorld).world = .ok w' ∧
      w'.renderer.queue.queue.length = 0 ∧ w'.renderer.cameras = [] ∧
      w'.renderer.lights = [] ∧ RenderSystem.clear w' = .ok w') :=
  ⟨by decide, by decide, by decide, by decide,
   let ⟨w', h1, _, h3, h4, h5, _, _, _, _, _, _, h12, _⟩ :=
     RenderSystem.clear_superset_reset (RenderSystem.end Example.recordedWorld).world
       (by decide) (by decide)
   ⟨w', h1, h3, h4, h5, h12⟩⟩

theorem forEach_renderModels (batches : List (Nat × List EntityPtr)) (w : World)
    (ha : w.renderer.acceptingCommands = true) :
    forEach batches (fun b => RenderSystem.renderModels b.1 b.2) w = .ok w := by
  induction batches with
  | nil => rfl
  | cons b rest ih =>
    rw [forEach_cons]
    have hb : RenderSystem.renderModels b.1 b.2 w = .ok w := by
      unfold RenderSystem.renderModels
      rw [if_pos ha]
    rw [hb, Outcome.bind_ok]
    exact ih

/-- C15. `renderModels` is a no-op submission. For a Recording system and every count
and entity list, `renderModels` completes in the very world it started from: the queue,
the Camera Set, the Light Set and the phase are unchanged; `renderModel` does nothing
for every argument. Consequently a frame of `begin()`, any number of `renderModels`
calls and `end()`, started on an initialized Idle system, completes with an empty
sorted queue and the device has received no call during the frame. -/
theorem RenderSystem.renderModels_noop (w : World) :
    (w.renderer.acceptingCommands = true →
      ∀ (count : Nat) (models : List EntityPtr),
        RenderSystem.renderModels count models w = .ok w ∧
        (RenderSystem.renderModels count models w).world.renderer.queue = w.renderer.queue ∧
        (RenderSystem.renderModels count models w).world.renderer.cameras
          = w.renderer.cameras ∧
        (RenderSystem.renderModels count models w).world.renderer.lights
          = w.renderer.lights ∧
        (RenderSystem.renderModels count models w).world.renderer.acceptingCommands = true) ∧
    (∀ model : EntityPtr, RenderSystem.renderModel model w = .ok w) ∧
    (w.renderer.initialized = true → w.renderer.acceptingCommands = false → w.queueInStep →
      ∀ batches : List (Nat × List EntityPtr),
        ∃ w1 w2, RenderSystem.begin w = .ok w1 ∧
          forEach batches (fun b => RenderSystem.renderModels b.1 b.2) w1 = .ok w1 ∧
          w1.renderer.queue.queue = [] ∧
          RenderSystem.end w1 = .ok w2 ∧
          w2.renderer.queue.getQueue = [] ∧
          w2.graphicsDevice.calls = w.graphicsDevice.calls ∧
          w2.renderer.acceptingCommands = false) := by
  refine ⟨?_, fun _ => rfl, ?_⟩
  · intro ha count models
    have h : RenderSystem.renderModels count models w = .ok w := by
      unfold RenderSystem.renderModels
      rw [if_pos ha]
    rw [h]
    exact ⟨rfl, rfl, rfl, rfl, ha⟩
  · intro hi ha hq batches
    obtain ⟨w1, hb, _, ha1, hq1, he1⟩ := RenderSystem.begin_idle w hi ha hq
    have hdev : w1.graphicsDevice = w.graphicsDevice := by
      unfold RenderSystem.begin at hb
      simp only [hi, ha, Bool.not_false, Bool.and_self, if_true] at hb
      cases hqb : w.renderer.queue.begin with
      | none => rw [hqb] at hb; cases hb
      | some q =>
        rw [hqb] at hb
        injection hb with hb
        rw [← hb]; rfl
    have hend := RenderSystem.end_eq w1 ha1 hq1
    rw [he1] at hend
    refine ⟨w1, _, hb, forEach_renderModels batches w1 ha1, he1, hend, rfl, ?_, rfl⟩
    show w1.graphicsDevice.calls = w.graphicsDevice.calls
    rw [hdev]

theorem RenderSystem.renderModels_noop_witness :
    Example.idleWorld.renderer.initialized = true ∧
    Example.idleWorld.renderer.acceptingCommands = false ∧
    Example.idleWorld.queueInStep ∧
    (∃ w1 w2, RenderSystem.begin Example.idleWorld = .ok w1 ∧
      forEach [(2, [2, 3]), (1, [4])] (fun b => RenderSystem.renderModels b.1 b.2) w1
        = .ok w1 ∧
      RenderSystem.end w1 = .ok w2 ∧
      w2.graphicsDevice.calls = Example.idleWorld.graphicsDevice.calls) ∧
    Example.recordedWorld.renderer.acceptingCommands = true ∧
    RenderSystem.renderModels 3 [2, 3, 4] Example.recordedWorld = .ok Example.recordedWorld :=
  ⟨by decide, by decide, by decide,
   let ⟨w1, w2, h1, h2, _, h4, _, h6, _⟩ :=
     (RenderSystem.renderModels_noop Example.idleWorld).2.2 (by decide) (by decide)
       (by decide) [(2, [2, 3]), (1, [4])]
   ⟨w1, w2, h1, h2, h4, h6⟩,
   by decide,
   ((RenderSystem.renderModels_noop Example.recordedWorld).1 (by decide) 3 [2, 3, 4]).1⟩

/-! ## C18: the device calls of one sprite -/

theorem spritePassCalls_balanced (r : RenderSystem) (s : SpriteComponent)
    (t : TransformComponent) (cam : CameraComponent) :
    bindsBalanced (spritePassCalls r s t cam) = true ∧
    (spritePassCalls r s t cam).countP DeviceCall.isDraw = 1 := by
  unfold spritePassCalls
  cases s.texture with
  | none => simp [bindsBalanced, DeviceCall.bindStep, DeviceCall.isDraw]
  | some texture => simp [bindsBalanced, DeviceCall.bindStep, DeviceCall.isDraw]

/-- C18. Sprite binding discipline. For a sprite whose entity and transform exist and a
camera due for the pass, one call of `renderSprite` completes and appends to the device
log exactly: `bindPipeline(sprPipeline)`; `bindTexture(texture, 0)` only if the sprite
has a texture; `bindViewport`; `bindVertexUniformBuffer(.., 0)` then `copyData`;
`bindPixelUniformBuffer(.., 1)` then `copyData`; `draw(6)`; `debindTexture(texture, 0)`
only if the sprite has a texture; `debindPipeline(sprPipeline)`. The sequence has
exactly one draw, its binds are closed by their debinds in reverse order, and a
replayed sprite command of a component that was given its renderer is this call. -/
theorem RenderSystem.sprite_binding_discipline (sprite : EntityPtr) (w : World) (e : Entity)
    (s : SpriteComponent) (t : TransformComponent) (cam : CameraComponent)
    (he : w.entities[sprite]? = some e) (hs : e.sprite = some s) (ht : e.transform = some t)
    (hc : w.cameraAt w.spritePass = some cam) :
    ∃ w' issued, RenderSystem.renderSprite sprite w = .ok w' ∧
      w'.graphicsDevice.calls = w.graphicsDevice.calls ++ issued ∧
      (∀ texture, s.texture = some texture → issued =
        [.bindPipeline w.renderer.sprPipeline,
         .bindTexture texture 0,
         .bindViewport cam.viewport,
         .bindVertexUniformBuffer w.renderer.sprVertexUniformBuffer 0,
         .copyData w.renderer.sprVertexUniformBuffer 64
           (.mvp (.mul cam.viewProj (.ofTransform t))),
         .bindPixelUniformBuffer w.renderer.sprPixelUniformBuffer 1,
         .copyData w.renderer.sprPixelUniformBuffer 16 (.color s.color),
         .draw 6,
         .debindTexture texture 0,
         .debindPipeline w.renderer.sprPipeline]) ∧
      (s.texture = none → issued =
        [.bindPipeline w.renderer.sprPipeline,
         .bindViewport cam.viewport,
         .bindVertexUniformBuffer w.renderer.sprVertexUniformBuffer 0,
         .copyData w.renderer.sprVertexUniformBuffer 64
           (.mvp (.mul cam.viewProj (.ofTransform t))),
         .bindPixelUniformBuffer w.renderer.sprPixelUniformBuffer 1,
         .copyData w.renderer.sprPixelUniformBuffer 16 (.color s.color),
         .draw 6,
         .debindPipeline w.renderer.sprPipeline]) ∧
      issued.countP DeviceCall.isDraw = 1 ∧
      w'.graphicsDevice.calls.countP DeviceCall.isDraw
        = w.graphicsDevice.calls.countP DeviceCall.isDraw + 1 ∧
      bindsBalanced issued = true ∧
      (s.renderer = true → ∀ device : DevicePtr,
        (Command.spriteRender sprite).call device w = .ok w') := by
  have hb := spritePassCalls_balanced w.renderer s t cam
  refine ⟨w.afterSprite s t cam, spritePassCalls w.renderer s t cam,
    RenderSystem.renderSprite_ok sprite w e s t cam he hs ht hc, rfl, ?_, ?_, hb.2, ?_, hb.1, ?_⟩
  · intro texture htex
    unfold spritePassCalls
    rw [htex]
    rfl
  · intro htex
    unfold spritePassCalls
    rw [htex]
    rfl
  · show (w.graphicsDevice.calls ++ spritePassCalls w.renderer s t cam).countP
      DeviceCall.isDraw = _
    rw [List.countP_append, hb.2]
  · intro hr device
    exact Command.call_spriteRender_ok sprite device w e s t cam he hs hr ht hc

theorem RenderSystem.sprite_binding_discipline_witness :
    Example.camerasWorld.entities[3]? = some (Example.spriteEntity 0 1 (some 9)) ∧
    Example.camerasWorld.cameraAt Example.camerasWorld.spritePass = some ⟨⟨0⟩, .const 0⟩ ∧
    (∃ w', RenderSystem.renderSprite 3 Example.camerasWorld = .ok w' ∧
      w'.graphicsDevice.calls.countP DeviceCall.isDraw
        = Example.camerasWorld.graphicsDevice.calls.countP DeviceCall.isDraw + 1) ∧
    (RenderSystem.renderSprite 3 Example.camerasWorld).world.graphicsDevice.calls =
      [.bindPipeline (some 1), .bindTexture 9 0, .bindViewport ⟨0⟩,
       .bindVertexUniformBuffer (some 3) 0,
       .copyData (some 3) 64 (.mvp (.mul (.const 0) (.ofTransform Example.origin))),
       .bindPixelUniformBuffer (some 4) 1,
       .copyData (some 4) 16 (.color Example.white),
       .draw 6, .debindTexture 9 0, .debindPipeline (some 1)] ∧
    (RenderSystem.renderSprite 2 Example.camerasWorld).world.graphicsDevice.calls =
      [.bindPipeline (some 1), .bindViewport ⟨0⟩,
       .bindVertexUniformBuffer (some 3) 0,
       .copyData (some 3) 64 (.mvp (.mul (.const 0) (.ofTransform Example.origin))),
       .bindPixelUniformBuffer (some 4) 1,
       .copyData (some 4) 16 (.color Example.white),
       .draw 6, .debindPipeline (some 1)] :=
  ⟨by decide, by decide,
   let ⟨w', _, h1, _, _, _, _, h6, _⟩ :=
     RenderSystem.sprite_binding_discipline 3 Example.camerasWorld
       (Example.spriteEntity 0 1 (some 9)) ⟨⟨0, 1⟩, some 9, Example.white, false⟩
       Example.origin ⟨⟨0⟩, .const 0⟩ (by decide) (by decide) (by decide) (by decide)
   ⟨w', h1, h6⟩,
   by decide, by decide⟩

/-! ## C20: the two pass counters are independent -/

theorem forEach_world_inv_mem {α : Type} (I : World → Prop) (body : α → World → Outcome)
    (xs : List α) (hbody : ∀ x ∈ xs, ∀ w, I w → I (body x w).world) :
    ∀ w, I w → I (forEach xs body w).world := by
  induction xs with
  | nil => intro w hw; exact hw
  | cons x xs ih =>
    intro w hw
    exact Outcome.bind_world_inv I _ _ (hbody x (List.mem_cons_self x xs) w hw)
      (ih (fun y hy => hbody y (List.mem_cons_of_mem x hy)))

theorem RenderSystem.renderSprite_textPass (sprite : EntityPtr) (w : World) :
    (RenderSystem.renderSprite sprite w).world.textPass = w.textPass := by
  unfold RenderSystem.renderSprite
  simp only []
  split
  · rfl
  · split
    · rfl
    · split <;> split <;> try rfl
      all_goals (split <;> rfl)

theorem RenderSystem.updateCharTextures_passes (font : Font) (text : String) (w : World) :
    (RenderSystem.updateCharTextures font text w).world.passes = w.passes := by
  unfold RenderSystem.updateCharTextures
  split
  · apply Outcome.bind_world_inv (fun v => v.passes = w.passes)
    · unfold forRange
      apply forEach_world_inv (fun v => v.passes = w.passes)
      · intro i v hv
        simp only []
        split
        · exact hv
        · split
          · exact hv
          · exact hv
      · rfl
    · intro v hv
      exact hv
  · rfl

theorem RenderSystem.renderGlyph_passes (text : EntityPtr) (t : TextComponent) (font : Font)
    (originalScale : Vec3) (i : Nat) (penX : Rat) (w : World) :
    (RenderSystem.renderGlyph text t font originalScale i penX w).world.passes
      = w.passes := by
  unfold RenderSystem.renderGlyph
  split
  · rfl
  · split
    · rfl
    · simp only []
      split
      · split <;> rfl
      · split
        · split <;> rfl
        · split
          · split <;> rfl
          · split <;> rfl

theorem RenderSystem.renderTextLoop_passes (text : EntityPtr) (t : TextComponent) (font : Font)
    (originalScale : Vec3) (is : List Nat) :
    ∀ (penX : Rat) (w : World),
      (RenderSystem.renderTextLoop text t font originalScale is penX w).world.passes
        = w.passes := by
  induction is with
  | nil => intro penX w; rfl
  | cons i rest ih =>
    intro penX w
    unfold RenderSystem.renderTextLoop
    apply Outcome.bind_world_inv (fun v => v.passes = w.passes)
    · exact RenderSystem.renderGlyph_passes text t font originalScale i penX w
    · intro v hv
      rw [ih]; exact hv

theorem RenderSystem.renderText_spritePass (text : EntityPtr) (w : World) :
    (RenderSystem.renderText text w).world.spritePass = w.spritePass := by
  unfold RenderSystem.renderText
  simp only []
  split
  · rfl
  · split
    · rfl
    · split
      · rfl
      · apply Outcome.bind_world_inv (fun v => v.spritePass = w.spritePass)
        · exact congrArg Prod.fst (RenderSystem.updateCharTextures_passes _ _ _)
        · intro v hv
          split
          · exact hv
          · apply Outcome.bind_world_inv (fun v => v.spritePass = w.spritePass)
            · exact (congrArg Prod.fst (RenderSystem.renderTextLoop_passes _ _ _ _ _ _ _)).trans hv
            · intro u hu
              split
              · exact hu
              · split
                · exact hu
                · exact hu

theorem Command.call_sprite_textPass (sprite : EntityPtr) (device : DevicePtr) (w : World) :
    ((Command.spriteRender sprite).call device w).world.textPass = w.textPass := by
  simp only [Command.call, SpriteComponent.render]
  split
  · rfl
  · split
    · rfl
    · split
      · exact RenderSystem.renderSprite_textPass sprite w
      · rfl

theorem Command.call_text_spritePass (text : EntityPtr) (device : DevicePtr) (w : World) :
    ((Command.textRender text).call device w).world.spritePass = w.spritePass := by
  simp only [Command.call, TextComponent.render]
  split
  · rfl
  · split
    · rfl
    · split
      · exact RenderSystem.renderText_spritePass text w
      · rfl

theorem World.queuePush_passes (key : SortKey) (command : Command) (w : World) :
    (w.queuePush key command).world.passes = w.passes := by
  unfold World.queuePush
  split <;> rfl

theorem RenderSystem.renderSprites_passes (count : Nat) (sprites : List EntityPtr) (w : World) :
    (RenderSystem.renderSprites count sprites w).world.passes = w.passes := by
  unfold RenderSystem.renderSprites
  split
  · unfold forRange
    apply forEach_world_inv (fun v => v.passes = w.passes)
    · intro i v hv
      simp only []
      split
      · exact hv
      · split
        · exact hv
        · split
          · exact hv
          · apply forEach_world_inv (fun u => u.passes = w.passes)
            · intro c u hu
              rw [World.queuePush_passes]; exact hu
            · exact hv
    · rfl
  · rfl

theorem RenderSystem.renderTexts_passes (count : Nat) (texts : List EntityPtr) (w : World) :
    (RenderSystem.renderTexts count texts w).world.passes = w.passes := by
  unfold RenderSystem.renderTexts
  split
  · unfold forRange
    apply forEach_world_inv (fun v => v.passes = w.passes)
    · intro i v hv
      simp only []
      split
      · exact hv
      · split
        · exact hv
        · split
          · exact hv
          · apply forEach_world_inv (fun u => u.passes = w.passes)
            · intro c u hu
              rw [World.queuePush_passes]; exact hu
            · exact hv
    · rfl
  · rfl

theorem RenderSystem.setCameras_passes (count : Nat) (cameras : List EntityPtr) (w : World) :
    (RenderSystem.setCameras count cameras w).world.passes = w.passes := by
  unfold RenderSystem.setCameras
  split
  · unfold forRange
    apply forEach_world_inv (fun v => v.passes = w.passes)
    · intro i v hv
      simp only []
      split
      · exact hv
      · split
        · exact hv
        · split
          · exact hv
          · exact hv
    · rfl
  · rfl

theorem RenderSystem.renderLights_passes (count : Nat) (lights : List EntityPtr) (w : World) :
    (RenderSystem.renderLights count lights w).world.passes = w.passes := by
  unfold RenderSystem.renderLights
  split
  · unfold forRange
    apply forEach_world_inv (fun v => v.passes = w.passes)
    · intro i v hv
      simp only []
      split
      · exact hv
      · split
        · exact hv
        · split
          · exact hv
          · exact hv
    · rfl
  · rfl

theorem RenderSystem.begin_passes (w : World) :
    (RenderSystem.begin w).world.passes = w.passes := by
  unfold RenderSystem.begin
  split
  · split <;> rfl
  · rfl

theorem RenderSystem.end_pass_of_commands (w : World) (I : World → Prop) (hw : I w)
    (hset : ∀ (v : World) (r : RenderSystem), I v → I (v.setRenderer r))
    (hcall : ∀ entry ∈ w.renderer.queue.queue, ∀ (device : DevicePtr) (v : World),
      I v → I (entry.2.call device v).world) :
    I (RenderSystem.end w).world := by
  unfold RenderSystem.end
  split
  · cases hq : RenderQueue.end w.renderer.queue with
    | none => exact hw
    | some q =>
      simp only []
      apply forEach_world_inv_mem I
      · intro entry hentry v hv
        have hq2 : q.queue = w.renderer.queue.queue.insertionSort QueueEntry.le := by
          unfold RenderQueue.end at hq
          split at hq
          · injection hq with hq; rw [← hq]
          · cases hq
        have hmem : entry ∈ w.renderer.queue.queue := by
          have : entry ∈ q.queue := hentry
          rw [hq2] at this
          exact (List.perm_insertionSort QueueEntry.le _).mem_iff.mp this
        exact hcall entry hmem _ v hv
      · exact hset w _ hw
  · exact hw

/-- C20. Independent per-kind counters. Whatever the outcome, a call of `renderText`
leaves the sprite pass counter as it was and a call of `renderSprite` leaves the text
pass counter as it was; `begin()`, `present()`, `clear()`, `setCameras` and every
submission call leave both counters as they were. `end()` hands the replay the counters
it was called with. A replayed sprite command leaves the text counter as it was. A
replayed text command whose `RenderSystem` pointer is null stops at its assertion with
nothing changed, and otherwise leaves the sprite counter as it was. So `end()` changes
the sprite counter only if a sprite command is queued and the text counter only if a
text command is queued. -/
theorem RenderSystem.independent_pass_counters (w : World) :
    (∀ text : EntityPtr, (RenderSystem.renderText text w).world.spritePass = w.spritePass) ∧
    (∀ sprite : EntityPtr,
      (RenderSystem.renderSprite sprite w).world.textPass = w.textPass) ∧
    (∀ (text : EntityPtr) (device : DevicePtr),
      ((Command.textRender text).call device w).world.spritePass = w.spritePass) ∧
    (∀ (sprite : EntityPtr) (device : DevicePtr),
      ((Command.spriteRender sprite).call device w).world.textPass = w.textPass) ∧
    (RenderSystem.begin w).world.passes = w.passes ∧
    (RenderSystem.present w).world.passes = w.passes ∧
    (RenderSystem.clear w).world.passes = w.passes ∧
    (∀ (count : Nat) (entities : List EntityPtr) (renderTargets : List Nat),
      (RenderSystem.setCameras count entities w).world.passes = w.passes ∧
      (RenderSystem.renderSprites count entities w).world.passes = w.passes ∧
      (RenderSystem.renderTexts count entities w).world.passes = w.passes ∧
      (RenderSystem.renderModels count entities w).world.passes = w.passes ∧
      (RenderSystem.renderLights count entities w).world.passes = w.passes ∧
      (RenderSystem.setRenderTargets count renderTargets w).world.passes = w.passes) ∧
    (w.renderer.acceptingCommands = true → w.queueInStep →
      ∃ w0, w0.passes = w.passes ∧
        RenderSystem.end w = forEach (w.renderer.queue.queue.insertionSort QueueEntry.le)
          (fun command v => command.2.call v.renderer.device v) w0) ∧
    ((∀ entry ∈ w.renderer.queue.queue, entry.2.isSprite = false) →
      (RenderSystem.end w).world.spritePass = w.spritePass) ∧
    ((∀ entry ∈ w.renderer.queue.queue, entry.2.isSprite = true) →
      (RenderSystem.end w).world.textPass = w.textPass) ∧
    (∀ (text : EntityPtr) (device : DevicePtr) (e : Entity) (t : TextComponent),
      w.entities[text]? = some e → e.text = some t →
      (t.renderSystem = false →
        (Command.textRender text).call device w = .fatal .assertion w) ∧
      (t.renderSystem = true →
        (Command.textRender text).call device w
          = TextRenderingSystem.renderText text w)) := by
  refine ⟨fun text => RenderSystem.renderText_spritePass text w,
    fun sprite => RenderSystem.renderSprite_textPass sprite w,
    fun text device => Command.call_text_spritePass text device w,
    fun sprite device => Command.call_sprite_textPass sprite device w,
    RenderSystem.begin_passes w, ?_, ?_, ?_, ?_, ?_, ?_, ?_⟩
  · unfold RenderSystem.present
    split <;> rfl
  · unfold RenderSystem.clear
    split <;> rfl
  · intro count entities renderTargets
    refine ⟨RenderSystem.setCameras_passes count entities w,
      RenderSystem.renderSprites_passes count entities w,
      RenderSystem.renderTexts_passes count entities w, ?_,
      RenderSystem.renderLights_passes count entities w, ?_⟩
    · unfold RenderSystem.renderModels
      split <;> rfl
    · unfold RenderSystem.setRenderTargets
      split <;> rfl
  · intro ha hq
    have hq' : w.renderer.queue.acceptingCommands = true := hq.trans ha
    refine ⟨w.setRenderer { w.renderer with
      queue := { queue := w.renderer.queue.queue.insertionSort QueueEntry.le,
                 acceptingCommands := false },
      acceptingCommands := false }, rfl, ?_⟩
    simp only [RenderSystem.end, ha, hq', RenderQueue.end, if_true]
    rfl
  · intro hall
    apply RenderSystem.end_pass_of_commands w (fun v => v.spritePass = w.spritePass) rfl
    · intro v r hv; exact hv
    · intro entry hentry device v hv
      have hk := hall entry hentry
      cases hc : entry.2 with
      | spriteRender sprite => rw [hc] at hk; cases hk
      | textRender text => exact (Command.call_text_spritePass text device v).trans hv
  · intro hall
    apply RenderSystem.end_pass_of_commands w (fun v => v.textPass = w.textPass) rfl
    · intro v r hv; exact hv
    · intro entry hentry device v hv
      have hk := hall entry hentry
      cases hc : entry.2 with
      | spriteRender sprite => exact (Command.call_sprite_textPass sprite device v).trans hv
      | textRender text => rw [hc] at hk; cases hk
  · intro text device e t he ht
    constructor
    · intro hr
      simp only [Command.call, TextComponent.render, he, ht, hr]
      rfl
    · intro hr
      simp only [Command.call, TextComponent.render, he, ht, hr, if_true]

theorem RenderSystem.independent_pass_counters_witness :
    Example.recordedWorld.renderer.acceptingCommands = true ∧
    Example.recordedWorld.queueInStep ∧
    Example.recordedWorld.renderer.queue.queue.length = 6 ∧
    (∀ entry ∈ Example.recordedWorld.renderer.queue.queue, entry.2.isSprite = true) ∧
    (RenderSystem.end Example.recordedWorld).world.textPass
      = Example.recordedWorld.textPass ∧
    (∃ w0, w0.passes = Example.recordedWorld.passes ∧
      RenderSystem.end Example.recordedWorld
        = forEach (Example.recordedWorld.renderer.queue.queue.insertionSort QueueEntry.le)
          (fun command v => command.2.call v.renderer.device v) w0) ∧
    (RenderSystem.renderSprite 2 (Example.textWorld.setTextPass 1)).world.passes = (1, 1) ∧
    (RenderSystem.renderText 3 (Example.textWorld.setSpritePass 1)).world.passes = (1, 1) ∧
    (∀ entry ∈ Example.freshTextRecorded.renderer.queue.queue, entry.2.isSprite = false) ∧
    (RenderSystem.end Example.freshTextRecorded).world.spritePass
      = Example.freshTextRecorded.spritePass ∧
    (Command.textRender 1).call 7 Example.freshTextRecorded
      = .fatal .assertion Example.freshTextRecorded :=
  ⟨by decide, by decide, by decide, by decide,
   (RenderSystem.independent_pass_counters Example.recordedWorld).2.2.2.2.2.2.2.2.2.2.1
     (by decide),
   (RenderSystem.independent_pass_counters Example.recordedWorld).2.2.2.2.2.2.2.2.1
     (by decide) (by decide),
   by decide, by decide, by decide,
   (RenderSystem.independent_pass_counters Example.freshTextRecorded).2.2.2.2.2.2.2.2.2.1
     (by decide),
   ((RenderSystem.independent_pass_counters Example.freshTextRecorded).2.2.2.2.2.2.2.2.2.2.2
     1 7 (Example.freshTextRecorded.entities.get ⟨1, by decide⟩)
     ⟨⟨0, 0⟩, Example.white, none, "ab", true, false⟩ (by decide) (by decide)).1 rfl⟩

/-! ## C17: the transform is restored -/

theorem World.besidesTransform_deviceCall (w : World) (c : DeviceCall) (p : EntityPtr) :
    (w.deviceCall c).besidesTransform p = w.besidesTransform p := rfl

theorem World.besidesTransform_setEntity (w : World) (p : EntityPtr) (e : Entity)
    (x : Option TransformComponent) (he : w.entities[p]? = some e) :
    (w.setEntity p { e with transform := x }).besidesTransform p = w.besidesTransform p := by
  have hlt : p < w.entities.length := by
    by_contra hn
    rw [List.getElem?_eq_none (not_lt.mp hn)] at he
    cases he
  unfold World.besidesTransform World.setEntity
  simp [List.getElem?_set, hlt, he]

theorem RenderSystem.renderGlyph_besidesTransform (text : EntityPtr) (t : TextComponent)
    (font : Font) (originalScale : Vec3) (i : Nat) (penX : Rat) (w : World) :
    (RenderSystem.renderGlyph text t font originalScale i penX w).world.besidesTransform text
      = w.besidesTransform text := by
  unfold RenderSystem.renderGlyph
  split
  · rfl
  · split
    · rfl
    · rename_i c hc texture htex
      simp only []
      cases texture with
      | none =>
        simp only []
        cases he : w.entities[text]? with
        | none => rfl
        | some e =>
          simp only []
          cases htr : e.transform with
          | none => rfl
          | some tr =>
            simp only []
            split
            · simp only [Outcome.world_fatal]
              exact World.besidesTransform_setEntity w text e _ he
            · simp only [Outcome.world_ok]
              exact World.besidesTransform_setEntity w text e _ he
      | some tex =>
        simp only []
        have hdc : (w.deviceCall (.bindTexture tex 0)).entities = w.entities := rfl
        cases he : w.entities[text]? with
        | none => simp only [hdc, he]; rfl
        | some e =>
          simp only [hdc, he]
          cases htr : e.transform with
          | none => rfl
          | some tr =>
            simp only []
            split
            · simp only [Outcome.world_fatal]
              exact World.besidesTransform_setEntity (w.deviceCall (.bindTexture tex 0)) text e _ he
            · simp only [Outcome.world_ok]
              exact World.besidesTransform_setEntity (w.deviceCall (.bindTexture tex 0)) text e _ he

theorem RenderSystem.renderTextLoop_besidesTransform (text : EntityPtr) (t : TextComponent)
    (font : Font) (originalScale : Vec3) (is : List Nat) :
    ∀ (penX : Rat) (w : World),
      (RenderSystem.renderTextLoop text t font originalScale is penX w).world.besidesTransform
        text = w.besidesTransform text := by
  induction is with
  | nil => intro penX w; rfl
  | cons i rest ih =>
    intro penX w
    unfold RenderSystem.renderTextLoop
    apply Outcome.bind_world_inv (fun v => v.besidesTransform text = w.besidesTransform text)
    · exact RenderSystem.renderGlyph_besidesTransform text t font originalScale i penX w
    · intro v hv
      rw [ih]; exact hv

theorem RenderSystem.updateCharTextures_entities (font : Font) (text : String) (w : World) :
    (RenderSystem.updateCharTextures font text w).world.entities = w.entities := by
  unfold RenderSystem.updateCharTextures
  split
  · apply Outcome.bind_world_inv (fun v => v.entities = w.entities)
    · unfold forRange
      apply forEach_world_inv (fun v => v.entities = w.entities)
      · intro i v hv
        simp only []
        split
        · exact hv
        · split
          · exact hv
          · exact hv
      · rfl
    · intro v hv
      exact hv
  · rfl

theorem set_blank_cancel (l1 l2 : List Entity) (p : EntityPtr) (e : Entity)
    (h : l1.set p Entity.blank = l2.set p Entity.blank) (he : l2[p]? = some e) :
    l1.set p e = l2 := by
  have hlt : p < l2.length := by
    by_contra hn
    rw [List.getElem?_eq_none (not_lt.mp hn)] at he
    cases he
  have h1 : (l1.set p Entity.blank).set p e = (l2.set p Entity.blank).set p e := by rw [h]
  rw [List.set_set, List.set_set] at h1
  rw [h1]
  apply List.ext_getElem?
  intro q
  rw [List.getElem?_set]
  by_cases hq : p = q
  · subst hq
    simp [hlt, he]
  · simp [hq]

/-- What `renderText` leaves of the entities when it returns: all of them. -/
theorem RenderSystem.renderText_entities (text : EntityPtr) (w w' : World)
    (h : RenderSystem.renderText text w = .ok w') : w'.entities = w.entities := by
  unfold RenderSystem.renderText at h
  simp only [World.entities_deviceCall] at h
  cases he : w.entities[text]? with
  | none => rw [he] at h; cases h
  | some e =>
    simp only [he] at h
    cases ht : e.text with
    | none => rw [ht] at h; cases h
    | some t =>
      simp only [ht] at h
      cases hf : t.font with
      | none => rw [hf] at h; cases h
      | some font =>
        simp only [hf] at h
        have hue := RenderSystem.updateCharTextures_entities font t.text
          (w.deviceCall (.bindPipeline w.renderer.sprPipeline))
        cases hu : RenderSystem.updateCharTextures font t.text
            (w.deviceCall (.bindPipeline w.renderer.sprPipeline)) with
        | fatal f v => rw [hu] at h; cases h
        | ok w1 =>
          rw [hu] at h hue
          simp only [Outcome.bind_ok, Outcome.world_ok, World.entities_deviceCall] at h hue
          have he1 : w1.entities[text]? = some e := by rw [hue]; exact he
          simp only [he1, Option.some_bind] at h
          cases htr : e.transform with
          | none => rw [htr] at h; cases h
          | some original =>
            simp only [htr] at h
            have hlb := RenderSystem.renderTextLoop_besidesTransform text t font original.scale
              (List.range t.text.length) 0 w1
            cases hl : RenderSystem.renderTextLoop text t font original.scale
                (List.range t.text.length) 0 w1 with
            | fatal f v => rw [hl] at h; cases h
            | ok w2 =>
              rw [hl] at h hlb
              simp only [Outcome.bind_ok, Outcome.world_ok] at h hlb
              cases he2 : w2.entities[text]? with
              | none => rw [he2] at h; cases h
              | some e2 =>
                simp only [he2] at h
                cases htr2 : e2.transform with
                | none => rw [htr2] at h; cases h
                | some tr2 =>
                  simp only [htr2] at h
                  injection h with h
                  rw [← h]
                  show w2.entities.set text _ = w.entities
                  unfold World.besidesTransform at hlb
                  rw [he2, he1, hue] at hlb
                  have hfst := congrArg Prod.fst hlb
                  have hsnd := congrArg Prod.snd hlb
                  simp only [Option.map_some', Option.some.injEq] at hfst hsnd
                  have hent : ({ e2 with transform := some ⟨original.position, original.scale⟩ }
                      : Entity) = e := by
                    cases e
                    cases e2
                    simp only [Entity.mk.injEq] at hsnd htr ⊢
                    exact ⟨htr.symm, hsnd.2⟩
                  rw [hent]
                  exact set_blank_cancel _ _ text e hfst he

/-- The transform a completed `renderGlyph` call leaves on the owning entity: the
position moved by the pen, the scale set from the original scale and the bitmap size. -/
theorem RenderSystem.renderGlyph_transform (text : EntityPtr) (t : TextComponent)
    (font : Font) (originalScale : Vec3) (i : Nat) (penX : Rat) (w v' : World)
    (h : RenderSystem.renderGlyph text t font originalScale i penX w = .ok v') :
    ∃ e tr c, w.entities[text]? = some e ∧ e.transform = some tr ∧
      t.text.data[i]? = some c ∧
      (v'.entities[text]?).bind Entity.transform = some
        ⟨tr.position.add ⟨penX * 2, penY font (font.loadChar c), 0⟩,
         originalScale.mul ⟨(font.loadChar c).bitmapWidth, (font.loadChar c).bitmapRows, 1⟩⟩ := by
  unfold RenderSystem.renderGlyph at h
  cases hc : t.text.data[i]? with
  | none => rw [hc] at h; cases h
  | some c =>
    simp only [hc] at h
    cases htex : w.renderer.charTextures[i]? with
    | none => rw [htex] at h; cases h
    | some texture =>
      simp only [htex] at h
      cases texture with
      | none =>
        simp only [] at h
        cases he : w.entities[text]? with
        | none => rw [he] at h; cases h
        | some e =>
          simp only [he] at h
          cases htr : e.transform with
          | none => rw [htr] at h; cases h
          | some tr =>
            simp only [htr] at h
            refine ⟨e, tr, c, rfl, htr, rfl, ?_⟩
            split at h
            · cases h
            · injection h with h
              rw [← h]
              show ((w.setEntity text _).entities[text]?).bind Entity.transform = _
              rw [World.entities_setEntity_self w text e _ he]
              rfl
      | some tex =>
        simp only [World.entities_deviceCall] at h
        cases he : w.entities[text]? with
        | none => rw [he] at h; cases h
        | some e =>
          simp only [he] at h
          cases htr : e.transform with
          | none => rw [htr] at h; cases h
          | some tr =>
            simp only [htr] at h
            refine ⟨e, tr, c, rfl, htr, rfl, ?_⟩
            split at h
            · cases h
            · injection h with h
              rw [← h]
              show (((w.deviceCall (.bindTexture tex 0)).setEntity text _).entities[text]?).bind
                Entity.transform = _
              rw [World.entities_setEntity_self (w.deviceCall (.bindTexture tex 0)) text e _ he]
              rfl

theorem RenderSystem.renderText_empty (text : EntityPtr) (w : World) (e : Entity)
    (t : TextComponent) (font : Font) (tr : TransformComponent)
    (he : w.entities[text]? = some e) (ht : e.text = some t) (hf : t.font = some font)
    (htr : e.transform = some tr) (hempty : t.text = "") :
    ∃ w', RenderSystem.renderText text w = .ok w' := by
  have hu : ∃ w1, RenderSystem.updateCharTextures font ""
      (w.deviceCall (.bindPipeline w.renderer.sprPipeline)) = .ok w1 := by
    unfold RenderSystem.updateCharTextures
    split
    · exact ⟨_, rfl⟩
    · exact ⟨_, rfl⟩
  obtain ⟨w1, hu⟩ := hu
  have hue := RenderSystem.updateCharTextures_entities font ""
    (w.deviceCall (.bindPipeline w.renderer.sprPipeline))
  rw [hu] at hue
  have he1 : w1.entities[text]? = some e := by
    rw [show w1.entities = w.entities from hue]; exact he
  unfold RenderSystem.renderText
  simp only [World.entities_deviceCall, he, ht, hf, hempty, hu, Outcome.bind_ok, he1,
    Option.some_bind, htr]
  simp only [String.length, List.length_nil, List.range_zero,
    RenderSystem.renderTextLoop, Outcome.bind_ok, he1, htr]
  exact ⟨_, rfl⟩

/-- C17. Transform restore. For a text component with a font on an entity with a
transform, and every string: whenever `renderText` returns, every entity is what it was
before the call, so the owning entity's transform has the position and scale it had
immediately before the call. The call does return when every glyph bitmap can be
read, the cached textures match the remembered string and the camera due exists, and
for the empty string without these conditions. During the call each completed glyph
iteration leaves the transform moved by the pen and scaled by the bitmap size. -/
theorem RenderSystem.renderText_restores_transform (text : EntityPtr) (w : World) (e : Entity)
    (t : TextComponent) (font : Font) (tr : TransformComponent)
    (he : w.entities[text]? = some e) (ht : e.text = some t) (hf : t.font = some font)
    (htr : e.transform = some tr) :
    (∀ w', RenderSystem.renderText text w = .ok w' →
      w'.entities = w.entities ∧
      ∃ e' tr', w'.entities[text]? = some e' ∧ e'.transform = some tr' ∧
        tr'.position = tr.position ∧ tr'.scale = tr.scale) ∧
    (∀ cam : CameraComponent,
      (∀ c ∈ t.text.data, (expandGlyph (font.loadChar c)).isSome = true) →
      w.renderer.charTextures.length = w.renderer.previousText.length →
      w.cameraAt w.textPass = some cam →
      ∃ w', RenderSystem.renderText text w = .ok w') ∧
    (t.text = "" → ∃ w', RenderSystem.renderText text w = .ok w') ∧
    (∀ (originalScale : Vec3) (i : Nat) (penX : Rat) (v' : World),
      RenderSystem.renderGlyph text t font originalScale i penX w = .ok v' →
      ∃ c, t.text.data[i]? = some c ∧
        (v'.entities[text]?).bind Entity.transform = some
          ⟨tr.position.add ⟨penX * 2, penY font (font.loadChar c), 0⟩,
           originalScale.mul
             ⟨(font.loadChar c).bitmapWidth, (font.loadChar c).bitmapRows, 1⟩⟩) := by
  refine ⟨?_, ?_, ?_, ?_⟩
  · intro w' h
    have hent := RenderSystem.renderText_entities text w w' h
    refine ⟨hent, e, tr, ?_, htr, rfl, rfl⟩
    rw [hent]; exact he
  · intro cam hcs hinv hcam
    obtain ⟨w', h, _⟩ := RenderSystem.renderText_ok text w e t font tr cam he ht hf htr hcs
      hinv hcam
    exact ⟨w', h⟩
  · intro hempty
    exact RenderSystem.renderText_empty text w e t font tr he ht hf htr hempty
  · intro originalScale i penX v' h
    obtain ⟨e1, tr1, c, he1, htr1, hc, hres⟩ :=
      RenderSystem.renderGlyph_transform text t font originalScale i penX w v' h
    rw [he] at he1
    injection he1 with he1
    subst he1
    rw [htr] at htr1
    injection htr1 with htr1
    subst htr1
    exact ⟨c, hc, hres⟩

theorem RenderSystem.renderText_restores_transform_witness :
    Example.textWorld.entities[3]? = some Example.textEntity ∧
    Example.textEntity.transform = some Example.origin ∧
    (∃ w', RenderSystem.renderText 3 Example.textWorld = .ok w' ∧
      w'.entities = Example.textWorld.entities) ∧
    (∃ w', RenderSystem.renderText 0 Example.emptyTextWorld = .ok w' ∧
      w'.entities = Example.emptyTextWorld.entities) ∧
    (RenderSystem.renderText 3 Example.textWorld).world.graphicsDevice.calls.countP
      DeviceCall.isDraw = 2 :=
  ⟨by decide, by decide,
   let ⟨w', h⟩ :=
     (RenderSystem.renderText_restores_transform 3 Example.textWorld Example.textEntity
       ⟨⟨0, 3⟩, Example.white, some Example.font, "ab", true, true⟩ Example.font Example.origin
       (by decide) (by decide) (by decide) (by decide)).2.1 ⟨⟨0⟩, .const 0⟩
       (by decide) (by decide) (by decide)
   ⟨w', h,
     ((RenderSystem.renderText_restores_transform 3 Example.textWorld Example.textEntity
       ⟨⟨0, 3⟩, Example.white, some Example.font, "ab", true, true⟩ Example.font Example.origin
       (by decide) (by decide) (by decide) (by decide)).1 w' h).1⟩,
   let ⟨w', h⟩ :=
     (RenderSystem.renderText_restores_transform 0 Example.emptyTextWorld
       ⟨some Example.origin, none, some ⟨⟨0, 3⟩, Example.white, some Example.font, "", true, true⟩,
         none, none⟩
       ⟨⟨0, 3⟩, Example.white, some Example.font, "", true, true⟩ Example.font Example.origin
       (by decide) (by decide) (by decide) (by decide)).2.2.1 (by decide)
   ⟨w', h,
     ((RenderSystem.renderText_restores_transform 0 Example.emptyTextWorld
       ⟨some Example.origin, none, some ⟨⟨0, 3⟩, Example.white, some Example.font, "", true, true⟩,
         none, none⟩
       ⟨⟨0, 3⟩, Example.white, some Example.font, "", true, true⟩ Example.font Example.origin
       (by decide) (by decide) (by decide) (by decide)).1 w' h).1⟩,
   by decide⟩

/-! ## C16: the glyph cache memo -/

theorem World.glyphCache_deviceCall (w : World) (c : DeviceCall)
    (hc : c.isCreateTextTexture = false) : (w.deviceCall c).glyphCache = w.glyphCache := by
  simp [World.glyphCache, World.textTextureCalls, World.deviceCall, List.filter_append, hc]

theorem World.glyphCache_submitQuad (w : World) : w.submitQuad.glyphCache = w.glyphCache := by
  simp [World.glyphCache, World.textTextureCalls, World.deviceCall, World.submitQuad,
    List.filter_append, DeviceCall.isCreateTextTexture]

theorem World.glyphCache_setEntity (w : World) (p : EntityPtr) (e : Entity) :
    (w.setEntity p e).glyphCache = w.glyphCache := rfl

theorem World.glyphCache_setTextPass (w : World) (n : Nat) :
    (w.setTextPass n).glyphCache = w.glyphCache := rfl

theorem World.glyphCache_congr (v w : World) (h1 : v.renderer.charTextures = w.renderer.charTextures)
    (h2 : v.renderer.previousText = w.renderer.previousText)
    (h3 : v.graphicsDevice = w.graphicsDevice) : v.glyphCache = w.glyphCache := by
  unfold World.glyphCache World.textTextureCalls
  rw [h1, h2, h3]

theorem RenderSystem.renderGlyph_glyphCache (text : EntityPtr) (t : TextComponent)
    (font : Font) (originalScale : Vec3) (i : Nat) (penX : Rat) (w : World) :
    (RenderSystem.renderGlyph text t font originalScale i penX w).world.glyphCache
      = w.glyphCache := by
  unfold RenderSystem.renderGlyph
  split
  · rfl
  · split
    · rfl
    · rename_i c hc texture htex
      simp only []
      cases texture with
      | none =>
        simp only []
        split
        · rfl
        · split
          · rfl
          · split
            · rfl
            · simp only [Outcome.world_ok]
              rw [World.glyphCache_submitQuad]
              exact World.glyphCache_deviceCall _ _ rfl
      | some tex =>
        simp only []
        have h0 : (w.deviceCall (.bindTexture tex 0)).glyphCache = w.glyphCache :=
          World.glyphCache_deviceCall _ _ rfl
        split
        · exact h0
        · split
          · exact h0
          · split
            · exact h0
            · simp only [Outcome.world_ok]
              rw [World.glyphCache_deviceCall _ (.debindTexture tex 0) rfl,
                World.glyphCache_submitQuad]
              exact (World.glyphCache_deviceCall _ (.bindViewport _) rfl).trans h0

theorem RenderSystem.renderTextLoop_glyphCache (text : EntityPtr) (t : TextComponent)
    (font : Font) (originalScale : Vec3) (is : List Nat) :
    ∀ (penX : Rat) (w : World),
      (RenderSystem.renderTextLoop text t font originalScale is penX w).world.glyphCache
        = w.glyphCache := by
  induction is with
  | nil => intro penX w; rfl
  | cons i rest ih =>
    intro penX w
    unfold RenderSystem.renderTextLoop
    apply Outcome.bind_world_inv (fun v => v.glyphCache = w.glyphCache)
    · exact RenderSystem.renderGlyph_glyphCache text t font originalScale i penX w
    · intro v hv
      rw [ih]; exact hv

/-- The glyph cache when `renderText` returns is the one its texture update left. -/
theorem RenderSystem.renderText_glyphCache (text : EntityPtr) (w w' : World) (e : Entity)
    (t : TextComponent) (font : Font)
    (he : w.entities[text]? = some e) (ht : e.text = some t) (hf : t.font = some font)
    (h : RenderSystem.renderText text w = .ok w') :
    ∃ w1, RenderSystem.updateCharTextures font t.text
        (w.deviceCall (.bindPipeline w.renderer.sprPipeline)) = .ok w1 ∧
      w'.glyphCache = w1.glyphCache := by
  unfold RenderSystem.renderText at h
  simp only [World.entities_deviceCall, he, ht, hf] at h
  cases hu : RenderSystem.updateCharTextures font t.text
      (w.deviceCall (.bindPipeline w.renderer.sprPipeline)) with
  | fatal f v => rw [hu] at h; cases h
  | ok w1 =>
    refine ⟨w1, rfl, ?_⟩
    rw [hu] at h
    simp only [Outcome.bind_ok] at h
    split at h
    · cases h
    · rename_i original horig
      have hlb := RenderSystem.renderTextLoop_glyphCache text t font original.scale
        (List.range t.text.length) 0 w1
      cases hl : RenderSystem.renderTextLoop text t font original.scale
          (List.range t.text.length) 0 w1 with
      | fatal f v => rw [hl] at h; cases h
      | ok w2 =>
        rw [hl] at h hlb
        simp only [Outcome.bind_ok, Outcome.world_ok] at h hlb
        split at h
        · cases h
        · split at h
          · cases h
          · injection h with h
            rw [← h, World.glyphCache_setTextPass,
              World.glyphCache_deviceCall _ (.debindPipeline _) rfl, World.glyphCache_setEntity]
            exact hlb

theorem createdResults_length (n : Nat) : ∀ pending : List (Option Nat),
    (createdResults n pending).length = n := by
  induction n with
  | zero => intro pending; rfl
  | succ n ih => intro pending; simp [createdResults, ih]

theorem foldl_createGlyph_cache (font : Font) (cs : List Char) :
    ∀ w : World,
      (cs.foldl (World.createGlyph font) w).renderer.charTextures
        = w.renderer.charTextures ++ createdResults cs.length w.graphicsDevice.pending ∧
      (cs.foldl (World.createGlyph font) w).textTextureCalls
        = w.textTextureCalls ++ cs.map font.textureCall ∧
      (cs.foldl (World.createGlyph font) w).graphicsDevice.pending
        = w.graphicsDevice.pending.drop cs.length ∧
      (cs.foldl (World.createGlyph font) w).renderer.previousText
        = w.renderer.previousText := by
  induction cs with
  | nil => intro w; simp [createdResults]
  | cons c rest ih =>
    intro w
    obtain ⟨h1, h2, h3, h4⟩ := ih (w.createGlyph font c)
    rw [List.foldl_cons, h1, h2, h3, h4]
    refine ⟨?_, ?_, ?_, rfl⟩
    · simp [World.createGlyph, World.deviceCreate, World.setRenderer, createdResults]
    · simp [World.createGlyph, World.deviceCreate, World.setRenderer, World.textTextureCalls,
        List.filter_append, Font.textureCall, DeviceCall.isCreateTextTexture]
    · simp [World.createGlyph, World.deviceCreate, World.setRenderer]

/-- The texture update of `renderText` when the string differs from the remembered one
and every glyph bitmap can be read. -/
theorem RenderSystem.updateCharTextures_changed (font : Font) (text : String) (w : World)
    (hcs : ∀ c ∈ text.data, (expandGlyph (font.loadChar c)).isSome = true)
    (hne : text ≠ w.renderer.previousText) :
    ∃ w', RenderSystem.updateCharTextures font text w = .ok w' ∧
      w'.renderer.charTextures = createdResults text.length w.graphicsDevice.pending ∧
      w'.textTextureCalls = w.textTextureCalls ++ text.data.map font.textureCall ∧
      w'.graphicsDevice.pending = w.graphicsDevice.pending.drop text.length ∧
      w'.renderer.previousText = text := by
  unfold RenderSystem.updateCharTextures
  rw [if_pos hne, eraseAll_eq_nil]
  simp only []
  rw [forRange_read (fun c w =>
    match expandGlyph (font.loadChar c) with
    | none => .fatal .memory w
    | some expandedData =>
      let created := w.deviceCreate (.createTextTexture (font.loadChar c).bitmapWidth
        (font.loadChar c).bitmapRows expandedData)
      .ok (created.2.setRenderer { created.2.renderer with
        charTextures := created.2.renderer.charTextures ++ [created.1] }))
    text.data (show text.length ≤ text.data.length from Nat.le_refl _)]
  · rw [show text.length = text.data.length from rfl, List.take_length,
      forEach_createGlyph font text.data hcs, Outcome.bind_ok]
    obtain ⟨h1, h2, h3, _⟩ := foldl_createGlyph_cache font text.data
      (w.setRenderer { w.renderer with charTextures := [] })
    refine ⟨_, rfl, ?_, ?_, ?_, rfl⟩
    · exact h1.trans (by simp [World.setRenderer])
    · exact h2
    · exact h3
  · intro i v
    cases text.data[i]? with
    | none => rfl
    | some c =>
      rfl

theorem RenderSystem.updateCharTextures_same (font : Font) (text : String) (w : World)
    (h : text = w.renderer.previousText) :
    RenderSystem.updateCharTextures font text w = .ok w := by
  unfold RenderSystem.updateCharTextures
  rw [if_neg (by simpa using h)]

theorem nextPass_lt (pass size : Nat) (h : 0 < size) : nextPass pass size < size := by
  unfold nextPass
  split
  · exact h
  · omega

/-- C16. Glyph cache memo. For a text component with a font on an entity with a
transform, when every glyph bitmap can be read, the cached textures match the
remembered string and the camera due exists, `renderText` completes and: if the
string equals the remembered string, no `createTextTexture` call is made and the cached
texture list and the remembered string are unchanged; if it differs, the cached list is
replaced by exactly the results of one new `createTextTexture` call per character, made
in character order with that character's glyph, and the remembered string becomes the
new string. Rendering the same component again right away makes no
`createTextTexture` call and leaves the cache as it is. -/
theorem RenderSystem.glyph_cache_memo (text : EntityPtr) (w : World) (e : Entity)
    (t : TextComponent) (font : Font) (tr : TransformComponent) (cam : CameraComponent)
    (he : w.entities[text]? = some e) (ht : e.text = some t) (hf : t.font = some font)
    (htr : e.transform = some tr)
    (hcs : ∀ c ∈ t.text.data, (expandGlyph (font.loadChar c)).isSome = true)
    (hinv : w.renderer.charTextures.length = w.renderer.previousText.length)
    (hcam : w.cameraAt w.textPass = some cam) :
    ∃ w', RenderSystem.renderText text w = .ok w' ∧
      (t.text = w.renderer.previousText →
        w'.textTextureCalls = w.textTextureCalls ∧
        w'.renderer.charTextures = w.renderer.charTextures ∧
        w'.renderer.previousText = w.renderer.previousText ∧
        w'.graphicsDevice.pending = w.graphicsDevice.pending) ∧
      (t.text ≠ w.renderer.previousText →
        w'.textTextureCalls = w.textTextureCalls ++ t.text.data.map font.textureCall ∧
        w'.renderer.charTextures = createdResults t.text.length w.graphicsDevice.pending ∧
        w'.renderer.charTextures.length = t.text.length ∧
        w'.renderer.previousText = t.text) ∧
      ((∀ i : Nat, i < w.renderer.cameras.length → (w.cameraAt i).isSome = true) →
        ∃ w'', RenderSystem.renderText text w' = .ok w'' ∧
          w''.textTextureCalls = w'.textTextureCalls ∧
          w''.renderer.charTextures = w'.renderer.charTextures ∧
          w''.renderer.previousText = w'.renderer.previousText) := by
  obtain ⟨w', h, hp, _, hctl, hprev, hlen, _, _⟩ :=
    RenderSystem.renderText_ok text w e t font tr cam he ht hf htr hcs hinv hcam
  obtain ⟨w1, hu, hcache⟩ := RenderSystem.renderText_glyphCache text w w' e t font he ht hf h
  have h0 : (w.deviceCall (.bindPipeline w.renderer.sprPipeline)).glyphCache = w.glyphCache :=
    World.glyphCache_deviceCall w (.bindPipeline w.renderer.sprPipeline) rfl
  refine ⟨w', h, ?_, ?_, ?_⟩
  · intro hsame
    rw [RenderSystem.updateCharTextures_same font t.text
      (w.deviceCall (.bindPipeline w.renderer.sprPipeline)) hsame] at hu
    injection hu with hu
    rw [← hu, h0] at hcache
    simp only [World.glyphCache, Prod.mk.injEq] at hcache
    exact ⟨hcache.2.2.1, hcache.1, hcache.2.1, hcache.2.2.2⟩
  · intro hne
    obtain ⟨w2, hu2, g1, g2, _, g4⟩ := RenderSystem.updateCharTextures_changed font t.text
      (w.deviceCall (.bindPipeline w.renderer.sprPipeline)) hcs hne
    rw [hu2] at hu
    injection hu with hu
    subst hu
    simp only [World.glyphCache, Prod.mk.injEq] at hcache h0
    refine ⟨?_, ?_, hlen, hprev⟩
    · rw [hcache.2.2.1, g2, h0.2.2.1]
    · rw [hcache.1, g1]
      rfl
  · intro hcams
    have hent := RenderSystem.renderText_entities text w w' h
    have hcameras : w'.renderer.cameras = w.renderer.cameras := by
      have := hctl
      simp only [World.control, Prod.mk.injEq] at this
      exact this.2.2.1
    have hpos : 0 < w.renderer.cameras.length := by
      unfold World.cameraAt at hcam
      cases hi : w.renderer.cameras[w.textPass]? with
      | none => rw [hi] at hcam; cases hcam
      | some p =>
        have : w.textPass < w.renderer.cameras.length := by
          by_contra hn
          rw [List.getElem?_eq_none (not_lt.mp hn)] at hi
          cases hi
        omega
    have hsome := hcams (nextPass w.textPass w.renderer.cameras.length)
      (nextPass_lt _ _ hpos)
    obtain ⟨cam', hcam'⟩ := Option.isSome_iff_exists.mp hsome
    have hcam2 : w'.cameraAt w'.textPass = some cam' := by
      rw [World.cameraAt_congr w' w hcameras hent, hp]; exact hcam'
    obtain ⟨w'', h2, _⟩ := RenderSystem.renderText_ok text w' e t font tr cam'
      (by rw [hent]; exact he) ht hf htr hcs (by rw [hlen, hprev]) hcam2
    obtain ⟨w3, hu3, hcache3⟩ := RenderSystem.renderText_glyphCache text w' w'' e t font
      (by rw [hent]; exact he) ht hf h2
    rw [RenderSystem.updateCharTextures_same font t.text
      (w'.deviceCall (.bindPipeline w'.renderer.sprPipeline)) hprev.symm] at hu3
    injection hu3 with hu3
    rw [← hu3, World.glyphCache_deviceCall w' (.bindPipeline w'.renderer.sprPipeline) rfl]
      at hcache3
    simp only [World.glyphCache, Prod.mk.injEq] at hcache3
    exact ⟨w'', h2, hcache3.2.2.1, hcache3.1, hcache3.2.1⟩

theorem RenderSystem.glyph_cache_memo_witness :
    Example.glyphWorld.entities[3]? = some Example.textEntity ∧
    Example.glyphWorld.renderer.previousText = "" ∧
    Example.glyphWorld.cameraAt Example.glyphWorld.textPass = some ⟨⟨0⟩, .const 0⟩ ∧
    (∃ w', RenderSystem.renderText 3 Example.glyphWorld = .ok w' ∧
      w'.textTextureCalls = Example.glyphWorld.textTextureCalls ++
        "ab".data.map Example.font.textureCall ∧
      w'.renderer.previousText = "ab" ∧
      ∃ w'', RenderSystem.renderText 3 w' = .ok w'' ∧
        w''.textTextureCalls = w'.textTextureCalls ∧
        w''.renderer.charTextures = w'.renderer.charTextures) ∧
    (RenderSystem.renderText 3 Example.glyphWorld).world.renderer.charTextures
      = [some 21, some 22] ∧
    (RenderSystem.renderText 3 Example.glyphWorld).world.textTextureCalls
      = [.createTextTexture 1 1 [255, 200], .createTextTexture 1 1 [255, 200]] ∧
    ((RenderSystem.renderText 3 Example.glyphWorld).bind
      (RenderSystem.renderText 3)).world.textTextureCalls
      = [.createTextTexture 1 1 [255, 200], .createTextTexture 1 1 [255, 200]] :=
  ⟨by decide, by decide, by decide,
   let ⟨w', h1, _, h3, h4⟩ :=
     RenderSystem.glyph_cache_memo 3 Example.glyphWorld Example.textEntity
       ⟨⟨0, 3⟩, Example.white, some Example.font, "ab", true, true⟩ Example.font Example.origin
       ⟨⟨0⟩, .const 0⟩ (by decide) (by decide) (by decide) (by decide) (by decide)
       (by decide) (by decide)
   let ⟨w'', g1, g2, g3, _⟩ := h4 (by decide)
   ⟨w', h1, (h3 (by decide)).1, (h3 (by decide)).2.2.2, w'', g1, g2, g3⟩,
   by decide, by decide, by decide⟩

/-! ## C19: the sort key of a text -/

theorem Rat.floor_eq_intFloor (x : Rat) : x.floor = ⌊x⌋ := rfl

/-- The conversion of a float in the range of the depth field: it is defined and gives
the integer part. -/
theorem castUInt64_of_range (x : Rat) (h0 : 0 ≤ x) (h1 : x < 2 ^ SortKey.depthBits) :
    ∃ n : Nat, castUInt64 x = some n ∧ n < 2 ^ SortKey.depthBits ∧
      (n : Rat) ≤ x ∧ x < n + 1 ∧ (n : Int) = ⌊x⌋ := by
  have hfl0 : (0 : Int) ≤ ⌊x⌋ := Int.floor_nonneg.mpr h0
  have hle : ((⌊x⌋ : Int) : Rat) ≤ x := Int.floor_le x
  have hlt : x < ((⌊x⌋ : Int) : Rat) + 1 := Int.lt_floor_add_one x
  have hfl1 : ⌊x⌋ < (2 : Int) ^ SortKey.depthBits := by
    have : ((⌊x⌋ : Int) : Rat) < ((2 ^ SortKey.depthBits : Int) : Rat) := by
      push_cast
      exact lt_of_le_of_lt hle h1
    exact_mod_cast this
  have hfl2 : ⌊x⌋ < (2 : Int) ^ 64 := by
    refine lt_trans hfl1 ?_
    unfold SortKey.depthBits
    norm_num
  have hcast : ((⌊x⌋.toNat : Nat) : Int) = ⌊x⌋ := Int.toNat_of_nonneg hfl0
  refine ⟨⌊x⌋.toNat, ?_, ?_, ?_, ?_, hcast⟩
  · unfold castUInt64
    simp only [h0, if_true, Rat.floor_eq_intFloor]
    rw [if_pos ⟨hfl0, hfl2⟩]
  · have : ((⌊x⌋.toNat : Nat) : Int) < (2 : Int) ^ SortKey.depthBits := by rw [hcast]; exact hfl1
    exact_mod_cast this
  · have : ((⌊x⌋.toNat : Nat) : Rat) = ((⌊x⌋ : Int) : Rat) := by
      rw [← hcast]; push_cast; rw [hcast]
    rw [this]; exact hle
  · have : ((⌊x⌋.toNat : Nat) : Rat) = ((⌊x⌋ : Int) : Rat) := by
      rw [← hcast]; push_cast; rw [hcast]
    rw [this]; exact hlt

theorem TextComponent.update_of_cast (t : TextComponent) (tr : TransformComponent) (n : Nat)
    (hc : castUInt64 tr.position.z = some n) (hn : n < 2 ^ SortKey.depthBits) :
    TextComponent.update t tr
      = some { t with key := ⟨if t.color.a < 1 then 1 else 0, n⟩ } := by
  unfold TextComponent.update
  simp only [hc, Nat.mod_eq_of_lt hn]

/-- C19, as stated, fails. The depth 2^63 is non-negative and its truncation to an
unsigned 64-bit integer is 2^63 itself, but `update` leaves 0 in the depth field, which
has 63 bits; the smaller depth 1 gives the larger field value 1, so the depth field is
not non-decreasing in z. -/
theorem TextComponent.update_depth_counterexample :
    (0 : Rat) ≤ 9223372036854775808 ∧
    castUInt64 9223372036854775808 = some 9223372036854775808 ∧
    TextComponent.update (Example.textOfAlpha 1) (Example.atDepth 9223372036854775808)
      = some { Example.textOfAlpha 1 with key := ⟨0, 0⟩ } ∧
    (1 : Rat) ≤ 9223372036854775808 ∧
    TextComponent.update (Example.textOfAlpha 1) (Example.atDepth 1)
      = some { Example.textOfAlpha 1 with key := ⟨0, 1⟩ } ∧
    ¬ (∀ (t t1 t2 : TextComponent) (tr1 tr2 : TransformComponent),
        0 ≤ tr1.position.z → tr1.position.z ≤ tr2.position.z →
        TextComponent.update t tr1 = some t1 → TextComponent.update t tr2 = some t2 →
        t1.key.depth ≤ t2.key.depth) := by
  refine ⟨by decide, by decide, by decide, by decide, by decide, ?_⟩
  intro h
  have h1 := h (Example.textOfAlpha 1) { Example.textOfAlpha 1 with key := ⟨0, 1⟩ }
    { Example.textOfAlpha 1 with key := ⟨0, 0⟩ } (Example.atDepth 1)
    (Example.atDepth 9223372036854775808) (by decide) (by decide) (by decide) (by decide)
  exact absurd h1 (by decide)

/-- C19, amended. For a z position from 0 up to, but not including, 2^63 (the range of
the depth field), `update` succeeds; the key's translucent field is 1 exactly when the
colour's alpha is strictly less than 1 and 0 otherwise; the depth field is z truncated
toward zero; colour, font, string and both render system pointers of the component are
unchanged; the key depends on colour and position only, so a second call yields the
same component; and the depth field is non-decreasing in z over that range. -/
theorem TextComponent.update_key (t : TextComponent) (tr : TransformComponent)
    (h0 : 0 ≤ tr.position.z) (h1 : tr.position.z < 2 ^ SortKey.depthBits) :
    ∃ t', TextComponent.update t tr = some t' ∧
      (t'.key.translucent = 1 ↔ t.color.a < 1) ∧
      (t'.key.translucent = 0 ↔ ¬ t.color.a < 1) ∧
      ((t'.key.depth : Rat) ≤ tr.position.z ∧ tr.position.z < t'.key.depth + 1) ∧
      t'.color = t.color ∧ t'.font = t.font ∧ t'.text = t.text ∧
      t'.renderer = t.renderer ∧ t'.renderSystem = t.renderSystem ∧
      TextComponent.update t' tr = some t' ∧
      (∀ (t2 : TextComponent) (tr2 : TransformComponent),
        t2.color = t.color → tr2.position = tr.position →
        (TextComponent.update t2 tr2).map TextComponent.key = some t'.key) ∧
      (∀ tr2 : TransformComponent, tr.position.z ≤ tr2.position.z →
        tr2.position.z < 2 ^ SortKey.depthBits →
        ∃ t2', TextComponent.update t tr2 = some t2' ∧ t'.key.depth ≤ t2'.key.depth) := by
  obtain ⟨n, hc, hn, hle, hlt, hfl⟩ := castUInt64_of_range tr.position.z h0 h1
  refine ⟨_, TextComponent.update_of_cast t tr n hc hn, ?_, ?_, ⟨hle, hlt⟩, rfl, rfl, rfl, rfl,
    rfl, ?_, ?_, ?_⟩
  · show (if t.color.a < 1 then 1 else 0) = 1 ↔ _
    by_cases ha : t.color.a < 1 <;> simp [ha]
  · show (if t.color.a < 1 then 1 else 0) = 0 ↔ _
    by_cases ha : t.color.a < 1 <;> simp [ha]
  · exact TextComponent.update_of_cast _ tr n hc hn
  · intro t2 tr2 hcol hpos
    rw [TextComponent.update_of_cast t2 tr2 n (by rw [hpos]; exact hc) hn, hcol]
    rfl
  · intro tr2 hz hz2
    obtain ⟨m, hc2, hm, _, _, hfl2⟩ :=
      castUInt64_of_range tr2.position.z (le_trans h0 hz) hz2
    refine ⟨_, TextComponent.update_of_cast t tr2 m hc2 hm, ?_⟩
    show n ≤ m
    have : (n : Int) ≤ (m : Int) := by
      rw [hfl, hfl2]
      exact Int.floor_mono hz
    exact_mod_cast this

theorem TextComponent.update_key_witness :
    (0 : Rat) ≤ 7 ∧ (7 : Rat) < 2 ^ SortKey.depthBits ∧
    (∃ t', TextComponent.update (Example.textOfAlpha 0) (Example.atDepth 7) = some t' ∧
      (t'.key.translucent = 1 ↔ (0 : Rat) < 1) ∧
      TextComponent.update t' (Example.atDepth 7) = some t') ∧
    TextComponent.update (Example.textOfAlpha 0) (Example.atDepth 7)
      = some { Example.textOfAlpha 0 with key := ⟨1, 7⟩ } ∧
    TextComponent.update (Example.textOfAlpha 1) (Example.atDepth 7)
      = some { Example.textOfAlpha 1 with key := ⟨0, 7⟩ } :=
  ⟨by decide, by decide,
   let ⟨t', h1, h2, _, _, _, _, _, _, _, h9, _⟩ :=
     TextComponent.update_key (Example.textOfAlpha 0) (Example.atDepth 7) (by decide)
       (by decide)
   ⟨t', h1, h2, h9⟩,
   by decide, by decide⟩

/-! ## C24: the pass counter can leave its range -/

/-- C24. The pass counter is not kept in range by the phase guards alone. From an
initialized Idle system with the sprite counter at 0, the calls `begin`, `setCameras`
with one camera, `renderSprites`, `setCameras` with two cameras, `end`, `clear`,
`begin`, `setCameras` with one camera, `renderSprites` all complete, so each passes
its assertions; the following `end()` passes its assertion too and enters
`renderSprite` with the counter at 1 and one camera in the Camera Set, where the lookup
`cameras[pass]` is out of range. `clear()` never changes the counter. -/
theorem RenderSystem.pass_counter_out_of_range :
    (∃ (w0 v v0 : World) (calls : List Operation) (sprite : EntityPtr) (key : SortKey),
      w0.renderer.initialized = true ∧ w0.renderer.acceptingCommands = false ∧
      w0.spritePass = 0 ∧
      runOperations calls w0 = .ok v ∧
      (∀ n : Nat, n ≤ calls.length → (runOperations (calls.take n) w0).isOk = true) ∧
      v.renderer.acceptingCommands = true ∧ v.queueInStep ∧
      v.renderer.queue.queue = [(key, .spriteRender sprite)] ∧
      v0 = v.setRenderer { v.renderer with
        queue := { queue := [(key, .spriteRender sprite)], acceptingCommands := false },
        acceptingCommands := false } ∧
      RenderSystem.end v = (Command.spriteRender sprite).call v.renderer.device v0 ∧
      (Command.spriteRender sprite).call v.renderer.device v0
        = RenderSystem.renderSprite sprite v0 ∧
      v0.renderer.cameras.length ≤ v0.spritePass ∧
      v0.renderer.cameras[v0.spritePass]? = none ∧
      (∃ w', RenderSystem.renderSprite sprite v0 = .fatal .memory w') ∧
      (∃ w', RenderSystem.end v = .fatal .memory w')) ∧
    (∀ w : World, (RenderSystem.clear w).world.spritePass = w.spritePass) := by
  refine ⟨⟨Example.idleWorld, (runOperations Example.twoFrames Example.idleWorld).world,
    _, Example.twoFrames, 2, ⟨0, 5⟩, by decide, by decide, by decide, by decide, ?_,
    by decide, by decide, by decide, rfl, by decide, by decide, by decide, by decide,
    ?_, ?_⟩, ?_⟩
  · intro n hn
    have hn9 : n ≤ 9 := hn
    interval_cases n <;> decide
  · exact ⟨(RenderSystem.end (runOperations Example.twoFrames Example.idleWorld).world).world,
      by decide⟩
  · exact ⟨(RenderSystem.end (runOperations Example.twoFrames Example.idleWorld).world).world,
      by decide⟩
  · intro w
    unfold RenderSystem.clear
    split <;> rfl

theorem RenderSystem.pass_counter_out_of_range_witness :
    (RenderSystem.clear Example.recordedWorld).world.spritePass
      = Example.recordedWorld.spritePass ∧
    (RenderSystem.clear (RenderSystem.end Example.recordedWorld).world).isOk = true :=
  ⟨RenderSystem.pass_counter_out_of_range.2 Example.recordedWorld, by decide⟩

/-! ## C23: the glyph cache invariant -/

theorem World.cacheInStep_of_cache (v w : World) (h : v.cache = w.cache)
    (hw : w.cacheInStep) : v.cacheInStep := by
  unfold World.cache at h
  simp only [Prod.mk.injEq] at h
  unfold World.cacheInStep
  rw [h.1, h.2]
  exact hw

theorem forEach_ok_inv {α : Type} (I : World → Prop) (body : α → World → Outcome)
    (xs : List α) (hbody : ∀ x ∈ xs, ∀ w w', I w → body x w = .ok w' → I w') :
    ∀ w w', I w → forEach xs body w = .ok w' → I w' := by
  induction xs with
  | nil =>
    intro w w' hw h
    injection h with h
    rw [← h]; exact hw
  | cons x xs ih =>
    intro w w' hw h
    rw [forEach_cons] at h
    cases hb : body x w with
    | fatal f v => rw [hb] at h; cases h
    | ok v =>
      rw [hb, Outcome.bind_ok] at h
      exact ih (fun y hy => hbody y (List.mem_cons_of_mem x hy)) v w'
        (hbody x (List.mem_cons_self x xs) w v hw hb) h

theorem forEach_ok_count {α : Type} (f : World → Nat) (body : α → World → Outcome)
    (hbody : ∀ x w w', body x w = .ok w' → f w' = f w + 1) (xs : List α) :
    ∀ w w', forEach xs body w = .ok w' → f w' = f w + xs.length := by
  induction xs with
  | nil =>
    intro w w' h
    injection h with h
    rw [← h]; rfl
  | cons x xs ih =>
    intro w w' h
    rw [forEach_cons] at h
    cases hb : body x w with
    | fatal e v => rw [hb] at h; cases h
    | ok v =>
      rw [hb, Outcome.bind_ok] at h
      rw [ih v w' h, hbody x w v hb, List.length_cons]
      omega

/-- The texture update of `renderText`, when it completes, leaves one cached texture
per character of the string and remembers the string. -/
theorem RenderSystem.updateCharTextures_cacheInStep (font : Font) (text : String)
    (w w1 : World) (hw : w.cacheInStep)
    (h : RenderSystem.updateCharTextures font text w = .ok w1) :
    w1.renderer.charTextures.length = text.length ∧ w1.renderer.previousText = text := by
  unfold RenderSystem.updateCharTextures at h
  by_cases hne : text = w.renderer.previousText
  · rw [if_neg (by simpa using hne)] at h
    injection h with h
    rw [← h]
    exact ⟨hw.trans (by rw [← hne]), hne.symm⟩
  · rw [if_pos hne, eraseAll_eq_nil] at h
    simp only [] at h
    unfold forRange at h
    cases hl : forEach (List.range text.length) (fun i w =>
        match text.data[i]? with
        | none => .fatal .memory w
        | some c =>
          let slot := font.loadChar c
          match expandGlyph slot with
          | none => .fatal .memory w
          | some expandedData =>
            let (texture, w) :=
              w.deviceCreate (.createTextTexture slot.bitmapWidth slot.bitmapRows expandedData)
            .ok (w.setRenderer { w.renderer with
              charTextures := w.renderer.charTextures ++ [texture] }))
        (w.setRenderer { w.renderer with charTextures := [] }) with
    | fatal f v => rw [hl] at h; cases h
    | ok w2 =>
      rw [hl, Outcome.bind_ok] at h
      injection h with h
      rw [← h]
      refine ⟨?_, rfl⟩
      have hcount := forEach_ok_count (fun v => v.renderer.charTextures.length) _ ?_ _ _ _ hl
      · show w2.renderer.charTextures.length = text.length
        exact hcount.trans (by simp [World.setRenderer])
      · intro i v v' hb
        simp only [] at hb
        split at hb
        · cases hb
        · split at hb
          · cases hb
          · injection hb with hb
            rw [← hb]
            simp [World.setRenderer, World.deviceCreate]

theorem RenderSystem.renderText_ok_inv (text : EntityPtr) (w w' : World)
    (h : RenderSystem.renderText text w = .ok w') :
    ∃ e t font, w.entities[text]? = some e ∧ e.text = some t ∧ t.font = some font := by
  unfold RenderSystem.renderText at h
  simp only [World.entities_deviceCall] at h
  cases he : w.entities[text]? with
  | none => rw [he] at h; cases h
  | some e =>
    simp only [he] at h
    cases ht : e.text with
    | none => rw [ht] at h; cases h
    | some t =>
      simp only [ht] at h
      cases hf : t.font with
      | none => rw [hf] at h; cases h
      | some font => exact ⟨e, t, font, rfl, ht, hf⟩

/-- When `renderText` returns, the cache holds one texture per character of the string
of the component and remembers that string. -/
theorem RenderSystem.renderText_cacheInStep (text : EntityPtr) (w w' : World)
    (hw : w.cacheInStep) (h : RenderSystem.renderText text w = .ok w') : w'.cacheInStep := by
  obtain ⟨e, t, font, he, ht, hf⟩ := RenderSystem.renderText_ok_inv text w w' h
  obtain ⟨w1, hu, hcache⟩ := RenderSystem.renderText_glyphCache text w w' e t font he ht hf h
  obtain ⟨h1, h2⟩ := RenderSystem.updateCharTextures_cacheInStep font t.text
    (w.deviceCall (.bindPipeline w.renderer.sprPipeline)) w1 hw hu
  simp only [World.glyphCache, Prod.mk.injEq] at hcache
  unfold World.cacheInStep
  rw [hcache.1, hcache.2.1, h1, h2]

theorem RenderSystem.renderSprite_cache (sprite : EntityPtr) (w : World) :
    (RenderSystem.renderSprite sprite w).world.cache = w.cache := by
  unfold RenderSystem.renderSprite
  simp only []
  split
  · rfl
  · split
    · rfl
    · split <;> split <;> try rfl
      all_goals (split <;> rfl)

theorem World.queuePush_cache (key : SortKey) (command : Command) (w : World) :
    (w.queuePush key command).world.cache = w.cache := by
  unfold World.queuePush
  split <;> rfl

theorem RenderSystem.renderSprites_cache (count : Nat) (sprites : List EntityPtr) (w : World) :
    (RenderSystem.renderSprites count sprites w).world.cache = w.cache := by
  unfold RenderSystem.renderSprites
  split
  · unfold forRange
    apply forEach_world_inv (fun v => v.cache = w.cache)
    · intro i v hv
      simp only []
      split
      · exact hv
      · split
        · exact hv
        · split
          · exact hv
          · apply forEach_world_inv (fun u => u.cache = w.cache)
            · intro c u hu
              rw [World.queuePush_cache]; exact hu
            · exact hv
    · rfl
  · rfl

theorem RenderSystem.renderTexts_cache (count : Nat) (texts : List EntityPtr) (w : World) :
    (RenderSystem.renderTexts count texts w).world.cache = w.cache := by
  unfold RenderSystem.renderTexts
  split
  · unfold forRange
    apply forEach_world_inv (fun v => v.cache = w.cache)
    · intro i v hv
      simp only []
      split
      · exact hv
      · split
        · exact hv
        · split
          · exact hv
          · apply forEach_world_inv (fun u => u.cache = w.cache)
            · intro c u hu
              rw [World.queuePush_cache]; exact hu
            · exact hv
    · rfl
  · rfl

theorem RenderSystem.setCameras_cache (count : Nat) (cameras : List EntityPtr) (w : World) :
    (RenderSystem.setCameras count cameras w).world.cache = w.cache := by
  unfold RenderSystem.setCameras
  split
  · unfold forRange
    apply forEach_world_inv (fun v => v.cache = w.cache)
    · intro i v hv
      simp only []
      split
      · exact hv
      · split
        · exact hv
        · split
          · exact hv
          · exact hv
    · rfl
  · rfl

theorem RenderSystem.renderLights_cache (count : Nat) (lights : List EntityPtr) (w : World) :
    (RenderSystem.renderLights count lights w).world.cache = w.cache := by
  unfold RenderSystem.renderLights
  split
  · unfold forRange
    apply forEach_world_inv (fun v => v.cache = w.cache)
    · intro i v hv
      simp only []
      split
      · exact hv
      · split
        · exact hv
        · split
          · exact hv
          · exact hv
    · rfl
  · rfl

theorem Command.call_cacheInStep (c : Command) (device : DevicePtr) (w w' : World)
    (hw : w.cacheInStep) (h : c.call device w = .ok w') : w'.cacheInStep := by
  cases c with
  | spriteRender sprite =>
    simp only [Command.call, SpriteComponent.render] at h
    split at h
    · cases h
    · split at h
      · cases h
      · split at h
        · have hc := RenderSystem.renderSprite_cache sprite w
          rw [h] at hc
          exact World.cacheInStep_of_cache w' w hc hw
        · cases h
  | textRender text =>
    simp only [Command.call, TextComponent.render] at h
    split at h
    · cases h
    · split at h
      · cases h
      · split at h
        · exact RenderSystem.renderText_cacheInStep text w w' hw h
        · cases h

theorem RenderSystem.end_cacheInStep (w w' : World) (hw : w.cacheInStep)
    (h : RenderSystem.end w = .ok w') : w'.cacheInStep := by
  unfold RenderSystem.end at h
  split at h
  · cases hq : RenderQueue.end w.renderer.queue with
    | none => rw [hq] at h; cases h
    | some q =>
      rw [hq] at h
      simp only [] at h
      refine forEach_ok_inv World.cacheInStep
        (fun (command : QueueEntry) (v : World) => command.2.call v.renderer.device v) _
        (fun entry _ v v' hv hb => Command.call_cacheInStep entry.2 _ v v' hv hb) _ w' ?_ h
      exact hw
  · cases h

theorem RenderSystem.init_cache (vShaderSize pShaderSize : Nat) (w : World) :
    (RenderSystem.init vShaderSize pShaderSize w).cache = w.cache := by
  simp [RenderSystem.init, World.cache, World.deviceCreate, World.deviceCall,
    World.setRenderer]

theorem RenderSystem.deinit_cache (w : World) : (RenderSystem.deinit w).cache = w.cache := rfl

theorem Operation.run_init (vShaderSize pShaderSize : Nat) (w : World) :
    (Operation.init vShaderSize pShaderSize).run w
      = .ok (RenderSystem.init vShaderSize pShaderSize w) := rfl

theorem Operation.run_deinit (w : World) :
    Operation.deinit.run w = .ok (RenderSystem.deinit w) := rfl

/-- Every call of the render system that completes preserves the glyph cache
invariant. -/
theorem Operation.run_cacheInStep (op : Operation) (w w' : World) (hw : w.cacheInStep)
    (h : op.run w = .ok w') : w'.cacheInStep := by
  cases op with
  | init v p =>
    rw [Operation.run_init] at h
    have hc := RenderSystem.init_cache v p w
    generalize RenderSystem.init v p w = u at h hc
    injection h with h
    rw [← h]
    exact World.cacheInStep_of_cache u w hc hw
  | deinit =>
    rw [Operation.run_deinit] at h
    have hc := RenderSystem.deinit_cache w
    generalize RenderSystem.deinit w = u at h hc
    injection h with h
    rw [← h]
    exact World.cacheInStep_of_cache u w hc hw
  | begin =>
    have hc : (RenderSystem.begin w).world.cache = w.cache := by
      unfold RenderSystem.begin
      split
      · split <;> rfl
      · rfl
    rw [show Operation.begin.run w = RenderSystem.begin w from rfl] at h
    rw [h] at hc
    exact World.cacheInStep_of_cache w' w hc hw
  | finish => exact RenderSystem.end_cacheInStep w w' hw h
  | present =>
    have hc : (RenderSystem.present w).world.cache = w.cache := by
      unfold RenderSystem.present
      split <;> rfl
    rw [show Operation.present.run w = RenderSystem.present w from rfl] at h
    rw [h] at hc
    exact World.cacheInStep_of_cache w' w hc hw
  | clear =>
    have hc : (RenderSystem.clear w).world.cache = w.cache := by
      unfold RenderSystem.clear
      split <;> rfl
    rw [show Operation.clear.run w = RenderSystem.clear w from rfl] at h
    rw [h] at hc
    exact World.cacheInStep_of_cache w' w hc hw
  | renderSprites count sprites =>
    have hc := RenderSystem.renderSprites_cache count sprites w
    rw [show (Operation.renderSprites count sprites).run w
      = RenderSystem.renderSprites count sprites w from rfl] at h
    rw [h] at hc
    exact World.cacheInStep_of_cache w' w hc hw
  | renderTexts count texts =>
    have hc := RenderSystem.renderTexts_cache count texts w
    rw [show (Operation.renderTexts count texts).run w
      = RenderSystem.renderTexts count texts w from rfl] at h
    rw [h] at hc
    exact World.cacheInStep_of_cache w' w hc hw
  | renderModels count models =>
    have hc : (RenderSystem.renderModels count models w).world.cache = w.cache := by
      unfold RenderSystem.renderModels
      split <;> rfl
    rw [show (Operation.renderModels count models).run w
      = RenderSystem.renderModels count models w from rfl] at h
    rw [h] at hc
    exact World.cacheInStep_of_cache w' w hc hw
  | renderLights count lights =>
    have hc := RenderSystem.renderLights_cache count lights w
    rw [show (Operation.renderLights count lights).run w
      = RenderSystem.renderLights count lights w from rfl] at h
    rw [h] at hc
    exact World.cacheInStep_of_cache w' w hc hw
  | setRenderTargets count renderTargets =>
    have hc : (RenderSystem.setRenderTargets count renderTargets w).world.cache = w.cache := by
      unfold RenderSystem.setRenderTargets
      split <;> rfl
    rw [show (Operation.setRenderTargets count renderTargets).run w
      = RenderSystem.setRenderTargets count renderTargets w from rfl] at h
    rw [h] at hc
    exact World.cacheInStep_of_cache w' w hc hw
  | setCameras count cameras =>
    have hc := RenderSystem.setCameras_cache count cameras w
    rw [show (Operation.setCameras count cameras).run w
      = RenderSystem.setCameras count cameras w from rfl] at h
    rw [h] at hc
    exact World.cacheInStep_of_cache w' w hc hw
  | renderSprite sprite =>
    have hc := RenderSystem.renderSprite_cache sprite w
    rw [show (Operation.renderSprite sprite).run w
      = RenderSystem.renderSprite sprite w from rfl] at h
    rw [h] at hc
    exact World.cacheInStep_of_cache w' w hc hw
  | renderText text => exact RenderSystem.renderText_cacheInStep text w w' hw h
  | renderModel model =>
    change Outcome.ok w = Outcome.ok w' at h
    injection h with h
    rw [← h]; exact hw

theorem Outcome.eq_ok_of_isOk (o : Outcome) (h : o.isOk = true) : o = .ok o.world := by
  cases o with
  | ok w => rfl
  | fatal f w => cases h

theorem runOperations_cacheInStep (calls : List Operation) (w w' : World)
    (hw : w.cacheInStep) (h : runOperations calls w = .ok w') : w'.cacheInStep :=
  forEach_ok_inv World.cacheInStep Operation.run calls
    (fun op _ v v' hv hb => Operation.run_cacheInStep op v v' hv hb) w w' hw h

/-- C23. Glyph cache invariant. A render system as constructed has no cached glyph
texture and an empty remembered string; every call that completes from a state in
which the number of cached glyph textures equals the length of the remembered string
ends in such a state, so every state reached from construction by completed calls is
such a state. Inside `renderText`, once the texture update has completed from such a
state, there are as many cached textures as the text has characters, the draw loop
never changes them, and the lookup `charTextures[i]` is in range for every character
index i at every point of the loop. For `end()` the preservation comes in two steps:
its bookkeeping leaves the cache as it was, and every replayed command that completes
preserves the invariant; a text command whose `RenderSystem` pointer is null stops at
its assertion with nothing changed, and otherwise is the call of
`TextRenderingSystem::renderText`. -/
theorem RenderSystem.glyph_cache_invariant (w : World) :
    (∀ (raw : RenderSystem) (device : DevicePtr),
      w.renderer = RenderSystem.construct raw device →
      w.renderer.charTextures = [] ∧ w.renderer.previousText = "" ∧ w.cacheInStep) ∧
    (∀ (op : Operation) (w' : World), w.cacheInStep → op.run w = .ok w' → w'.cacheInStep) ∧
    (∀ (raw : RenderSystem) (device : DevicePtr) (calls : List Operation) (w' : World),
      w.renderer = RenderSystem.construct raw device →
      runOperations calls w = .ok w' → w'.cacheInStep) ∧
    (∀ (text : EntityPtr) (t : TextComponent) (font : Font) (w1 : World),
      w.cacheInStep →
      RenderSystem.updateCharTextures font t.text
        (w.deviceCall (.bindPipeline w.renderer.sprPipeline)) = .ok w1 →
      w1.renderer.charTextures.length = t.text.length ∧
      w1.renderer.previousText = t.text ∧
      ∀ (originalScale : Vec3) (is : List Nat) (penX : Rat) (i : Nat), i < t.text.length →
        (RenderSystem.renderTextLoop text t font originalScale is penX
          w1).world.renderer.charTextures = w1.renderer.charTextures ∧
        ((RenderSystem.renderTextLoop text t font originalScale is penX
          w1).world.renderer.charTextures[i]?).isSome = true) ∧
    (w.renderer.acceptingCommands = true → w.queueInStep →
      ∃ w0, w0.cache = w.cache ∧
        RenderSystem.end w = forEach (w.renderer.queue.queue.insertionSort QueueEntry.le)
          (fun command v => command.2.call v.renderer.device v) w0) ∧
    (∀ (c : Command) (device : DevicePtr) (w' : World),
      w.cacheInStep → c.call device w = .ok w' → w'.cacheInStep) ∧
    (∀ (text : EntityPtr) (device : DevicePtr) (e : Entity) (t : TextComponent),
      w.entities[text]? = some e → e.text = some t →
      (t.renderSystem = false →
        (Command.textRender text).call device w = .fatal .assertion w) ∧
      (t.renderSystem = true →
        (Command.textRender text).call device w
          = TextRenderingSystem.renderText text w)) := by
  refine ⟨?_, ?_, ?_, ?_, ?_, ?_, ?_⟩
  · intro raw device hw
    refine ⟨by rw [hw]; rfl, by rw [hw]; rfl, ?_⟩
    unfold World.cacheInStep
    rw [hw]
    rfl
  · intro op w' hw h
    exact Operation.run_cacheInStep op w w' hw h
  · intro raw device calls w' hw h
    refine runOperations_cacheInStep calls w w' ?_ h
    unfold World.cacheInStep
    rw [hw]
    rfl
  · intro text t font w1 hw hu
    obtain ⟨h1, h2⟩ := RenderSystem.updateCharTextures_cacheInStep font t.text
      (w.deviceCall (.bindPipeline w.renderer.sprPipeline)) w1 hw hu
    refine ⟨h1, h2, ?_⟩
    intro originalScale is penX i hi
    have hg := RenderSystem.renderTextLoop_glyphCache text t font originalScale is penX w1
    simp only [World.glyphCache, Prod.mk.injEq] at hg
    refine ⟨hg.1, ?_⟩
    rw [hg.1, List.getElem?_eq_getElem (by rw [h1]; exact hi)]
    rfl
  · intro ha hq
    have hq' : w.renderer.queue.acceptingCommands = true := hq.trans ha
    refine ⟨w.setRenderer { w.renderer with
      queue := { queue := w.renderer.queue.queue.insertionSort QueueEntry.le,
                 acceptingCommands := false },
      acceptingCommands := false }, rfl, ?_⟩
    simp only [RenderSystem.end, ha, hq', RenderQueue.end, if_true]
    rfl
  · intro c device w' hw h
    exact Command.call_cacheInStep c device w w' hw h
  · intro text device e t he ht
    constructor
    · intro hr
      simp only [Command.call, TextComponent.render, he, ht, hr]
      rfl
    · intro hr
      simp only [Command.call, TextComponent.render, he, ht, hr, if_true]

theorem RenderSystem.glyph_cache_invariant_witness :
    Example.constructedWorld.renderer = RenderSystem.construct Example.idleRenderer 7 ∧
    (∃ w', runOperations [.init 10 20, .begin, .finish, .clear]
        Example.constructedWorld = .ok w' ∧ w'.cacheInStep) ∧
    Example.glyphWorld.cacheInStep ∧
    (∃ w', (Operation.renderText 3).run Example.glyphWorld = .ok w' ∧ w'.cacheInStep ∧
      w'.renderer.charTextures = [some 21, some 22] ∧ w'.renderer.previousText = "ab") ∧
    (∃ w', runOperations [.begin, .setCameras 1 [0], .renderTexts 1 [3], .finish]
        Example.glyphWorld = .ok w' ∧ w'.cacheInStep ∧
      w'.renderer.charTextures = [some 21, some 22] ∧ w'.renderer.previousText = "ab") ∧
    (Command.textRender 1).call 7 Example.freshTextRecorded
      = .fatal .assertion Example.freshTextRecorded :=
  ⟨rfl,
   ⟨(runOperations [.init 10 20, .begin, .finish, .clear]
      Example.constructedWorld).world, by decide,
    (RenderSystem.glyph_cache_invariant Example.constructedWorld).2.2.1 Example.idleRenderer 7
      [.init 10 20, .begin, .finish, .clear] _ rfl (by decide)⟩,
   by decide,
   ⟨((Operation.renderText 3).run Example.glyphWorld).world,
    Outcome.eq_ok_of_isOk _ (by decide),
    (RenderSystem.glyph_cache_invariant Example.glyphWorld).2.1 (.renderText 3) _ (by decide)
      (Outcome.eq_ok_of_isOk _ (by decide)),
    by decide, by decide⟩,
   ⟨(runOperations [.begin, .setCameras 1 [0], .renderTexts 1 [3], .finish]
      Example.glyphWorld).world,
    Outcome.eq_ok_of_isOk _ (by decide),
    runOperations_cacheInStep _ Example.glyphWorld _ (by decide)
      (Outcome.eq_ok_of_isOk _ (by decide)),
    by decide, by decide⟩,
   ((RenderSystem.glyph_cache_invariant Example.freshTextRecorded).2.2.2.2.2.2
     1 7 (Example.freshTextRecorded.entities.get ⟨1, by decide⟩)
     ⟨⟨0, 0⟩, Example.white, none, "ab", true, false⟩ (by decide) (by decide)).1 rfl⟩

/-! ## C21: the device calls of one text -/

theorem RenderSystem.renderGlyph_calls (text : EntityPtr) (t : TextComponent) (font : Font)
    (originalScale : Vec3) (cam : CameraComponent) (i : Nat) (penX : Rat) (v : World)
    (c : Char) (texture : Option Texture) (e : Entity) (tr : TransformComponent)
    (hc : t.text.data[i]? = some c) (htex : v.renderer.charTextures[i]? = some texture)
    (he : v.entities[text]? = some e) (htr : e.transform = some tr)
    (hcam : v.cameraAt v.textPass = some cam) :
    ∃ v', RenderSystem.renderGlyph text t font originalScale i penX v = .ok v' ∧
      v'.graphicsDevice.calls = v.graphicsDevice.calls ++
        glyphCalls v.renderer.sprVertexUniformBuffer v.renderer.sprPixelUniformBuffer texture
          cam t.color
          ⟨tr.position.add ⟨penX * 2, penY font (font.loadChar c), 0⟩,
           originalScale.mul
             ⟨(font.loadChar c).bitmapWidth, (font.loadChar c).bitmapRows, 1⟩⟩ := by
  unfold RenderSystem.renderGlyph
  simp only [hc, htex]
  cases texture with
  | none =>
    simp only [he, htr, World.textPass_setEntity,
      World.cameraAt_setEntity_transform v text e _ he, hcam]
    refine ⟨_, rfl, ?_⟩
    simp [glyphCalls, World.submitQuad, World.deviceCall, World.setRenderer, World.setEntity]
  | some tex =>
    have he' : (v.deviceCall (.bindTexture tex 0)).entities[text]? = some e := he
    simp only [World.entities_deviceCall, he, htr, World.textPass_setEntity,
      World.textPass_deviceCall,
      World.cameraAt_setEntity_transform (v.deviceCall (.bindTexture tex 0)) text e _ he',
      World.cameraAt_deviceCall, hcam]
    refine ⟨_, rfl, ?_⟩
    simp [glyphCalls, World.submitQuad, World.deviceCall, World.setRenderer, World.setEntity]

theorem glyphCalls_shape (vertexUniform pixelUniform : Option Handle)
    (texture : Option Texture) (cam : CameraComponent) (color : Vec4)
    (transform : TransformComponent) :
    (glyphCalls vertexUniform pixelUniform texture cam color transform).countP
      DeviceCall.isDraw = 1 ∧
    (glyphCalls vertexUniform pixelUniform texture cam color transform).countP
      DeviceCall.isPipelineCall = 0 ∧
    (glyphCalls vertexUniform pixelUniform texture cam color transform).countP
      DeviceCall.isCreateTextTexture = 0 ∧
    ∀ st : List Binding,
      (glyphCalls vertexUniform pixelUniform texture cam color transform).foldl
        DeviceCall.bindStep (some st) = some st := by
  unfold glyphCalls
  cases texture with
  | none =>
    simp [DeviceCall.bindStep, DeviceCall.isDraw, DeviceCall.isPipelineCall,
      DeviceCall.isCreateTextTexture]
  | some tex =>
    simp [DeviceCall.bindStep, DeviceCall.isDraw, DeviceCall.isPipelineCall,
      DeviceCall.isCreateTextTexture]

theorem textLoopCalls_shape (vertexUniform pixelUniform : Option Handle)
    (textures : List (Option Texture)) (cam : CameraComponent) (color : Vec4)
    (steps : List (Nat × TransformComponent)) :
    (textLoopCalls vertexUniform pixelUniform textures cam color steps).countP
      DeviceCall.isDraw = steps.length ∧
    (textLoopCalls vertexUniform pixelUniform textures cam color steps).countP
      DeviceCall.isPipelineCall = 0 ∧
    (textLoopCalls vertexUniform pixelUniform textures cam color steps).countP
      DeviceCall.isCreateTextTexture = 0 ∧
    ∀ st : List Binding,
      (textLoopCalls vertexUniform pixelUniform textures cam color steps).foldl
        DeviceCall.bindStep (some st) = some st := by
  induction steps with
  | nil => simp [textLoopCalls]
  | cons step rest ih =>
    obtain ⟨h1, h2, h3, h4⟩ := glyphCalls_shape vertexUniform pixelUniform
      ((textures[step.1]?).join) cam color step.2
    obtain ⟨g1, g2, g3, g4⟩ := ih
    unfold textLoopCalls at g1 g2 g3 g4 ⊢
    simp only [List.flatMap_cons, List.countP_append, List.foldl_append, List.length_cons]
    refine ⟨by rw [h1, g1]; omega, by rw [h2, g2], by rw [h3, g3], ?_⟩
    intro st
    rw [h4, g4]

theorem World.control_handles (v w : World) (h : v.control = w.control) :
    v.renderer.sprPipeline = w.renderer.sprPipeline ∧
    v.renderer.sprVertexUniformBuffer = w.renderer.sprVertexUniformBuffer ∧
    v.renderer.sprPixelUniformBuffer = w.renderer.sprPixelUniformBuffer ∧
    v.renderer.cameras = w.renderer.cameras := by
  simp only [World.control, Prod.mk.injEq] at h
  exact ⟨h.2.2.2.2.2.2.1, h.2.2.2.2.2.2.2.1, h.2.2.2.2.2.2.2.2, h.2.2.1⟩

/-- The device calls of the "Render text" loop over the character indices `is`. -/
theorem RenderSystem.renderTextLoop_trace (text : EntityPtr) (t : TextComponent) (font : Font)
    (originalScale : Vec3) (cam : CameraComponent) (is : List Nat) :
    ∀ (penX : Rat) (v : World),
      (∀ i ∈ is, i < t.text.length ∧ i < v.renderer.charTextures.length) →
      (∃ e tr, v.entities[text]? = some e ∧ e.transform = some tr) →
      v.cameraAt v.textPass = some cam →
      ∃ v' trs, RenderSystem.renderTextLoop text t font originalScale is penX v = .ok v' ∧
        trs.length = is.length ∧
        v'.graphicsDevice.calls = v.graphicsDevice.calls ++
          textLoopCalls v.renderer.sprVertexUniformBuffer v.renderer.sprPixelUniformBuffer
            v.renderer.charTextures cam t.color (is.zip trs) := by
  induction is with
  | nil =>
    intro penX v _ _ _
    exact ⟨v, [], rfl, rfl, by simp [textLoopCalls]⟩
  | cons i rest ih =>
    intro penX v hidx he hcam
    obtain ⟨hi1, hi2⟩ := hidx i (by simp)
    obtain ⟨v1, h1, _, _, h4, _, _, _, h8, h9⟩ :=
      RenderSystem.renderGlyph_ok text t font originalScale cam i penX v hi1 hi2 he hcam
    obtain ⟨e, tr, hent, htr⟩ := he
    obtain ⟨v1', h1', hcalls⟩ := RenderSystem.renderGlyph_calls text t font originalScale cam
      i penX v (t.text.data.get ⟨i, hi1⟩) (v.renderer.charTextures.get ⟨i, hi2⟩) e tr
      (by simp [List.getElem?_eq_getElem (show i < t.text.data.length from hi1)])
      (by simp [List.getElem?_eq_getElem hi2]) hent htr hcam
    rw [h1] at h1'
    injection h1' with h1'
    subst h1'
    have hctl : v1.control = v.control := by
      have := RenderSystem.renderGlyph_control text t font originalScale i penX v
      rw [h1] at this
      exact this
    obtain ⟨_, hvu, hpu, _⟩ := World.control_handles v1 v hctl
    obtain ⟨v2, trs, g1, g2, g3⟩ := ih (RenderSystem.penXAfter t font i) v1
      (fun j hj => by
        rw [h4]
        exact hidx j (by simp [hj]))
      h8 h9
    refine ⟨v2,
      (⟨tr.position.add
          ⟨penX * 2, penY font (font.loadChar (t.text.data.get ⟨i, hi1⟩)), 0⟩,
        originalScale.mul
          ⟨(font.loadChar (t.text.data.get ⟨i, hi1⟩)).bitmapWidth,
           (font.loadChar (t.text.data.get ⟨i, hi1⟩)).bitmapRows, 1⟩⟩ : TransformComponent)
        :: trs, ?_, by simp [g2], ?_⟩
    · unfold RenderSystem.renderTextLoop
      rw [h1, Outcome.bind_ok]
      exact g1
    · rw [g3, hcalls, hvu, hpu, h4]
      simp [textLoopCalls, List.getElem?_eq_getElem hi2]

theorem foldl_createGlyph_calls (font : Font) (cs : List Char) :
    ∀ w : World,
      (cs.foldl (World.createGlyph font) w).graphicsDevice.calls
        = w.graphicsDevice.calls ++ cs.map font.textureCall := by
  induction cs with
  | nil => intro w; simp
  | cons c rest ih =>
    intro w
    rw [List.foldl_cons, ih]
    simp [World.createGlyph, World.deviceCreate, World.setRenderer, Font.textureCall]

/-- The device calls of the texture update of `renderText`: none when the string is the
remembered one, else one `createTextTexture` per character. -/
theorem RenderSystem.updateCharTextures_trace (font : Font) (text : String) (w : World)
    (hcs : text ≠ w.renderer.previousText →
      ∀ c ∈ text.data, (expandGlyph (font.loadChar c)).isSome = true)
    (hinv : w.cacheInStep) :
    ∃ w1, RenderSystem.updateCharTextures font text w = .ok w1 ∧
      w1.graphicsDevice.calls = w.graphicsDevice.calls ++
        (if text = w.renderer.previousText then [] else text.data.map font.textureCall) ∧
      w1.renderer.charTextures.length = text.length ∧
      (text = w.renderer.previousText → w1 = w) := by
  by_cases hne : text = w.renderer.previousText
  · refine ⟨w, RenderSystem.updateCharTextures_same font text w hne, by simp [hne], ?_,
      fun _ => rfl⟩
    exact hinv.trans (by rw [← hne])
  · have hcs' := hcs hne
    obtain ⟨w1, hu, _⟩ := RenderSystem.updateCharTextures_changed font text w hcs' hne
    have hlen := (RenderSystem.updateCharTextures_cacheInStep font text w w1 hinv hu).1
    refine ⟨w1, hu, ?_, hlen, fun h => absurd h hne⟩
    rw [if_neg hne]
    unfold RenderSystem.updateCharTextures at hu
    rw [if_pos hne, eraseAll_eq_nil] at hu
    simp only [] at hu
    rw [forRange_read (fun c w =>
      match expandGlyph (font.loadChar c) with
      | none => .fatal .memory w
      | some expandedData =>
        let created := w.deviceCreate (.createTextTexture (font.loadChar c).bitmapWidth
          (font.loadChar c).bitmapRows expandedData)
        .ok (created.2.setRenderer { created.2.renderer with
          charTextures := created.2.renderer.charTextures ++ [created.1] }))
      text.data (show text.length ≤ text.data.length from Nat.le_refl _)] at hu
    · rw [show text.length = text.data.length from rfl, List.take_length,
        forEach_createGlyph font text.data hcs', Outcome.bind_ok] at hu
      injection hu with hu
      rw [← hu]
      exact foldl_createGlyph_calls font text.data
        (w.setRenderer { w.renderer with charTextures := [] })
    · intro i v
      cases text.data[i]? with
      | none => rfl
      | some c =>
        rfl

/-- The stages of a `renderText` call that returns: the texture update, the loop over
the characters, the closing calls. -/
theorem RenderSystem.renderText_stages (text : EntityPtr) (w w' : World) (e : Entity)
    (t : TextComponent) (font : Font) (tr : TransformComponent)
    (he : w.entities[text]? = some e) (ht : e.text = some t) (hf : t.font = some font)
    (htr : e.transform = some tr) (h : RenderSystem.renderText text w = .ok w') :
    ∃ w1 v2, RenderSystem.updateCharTextures font t.text
        (w.deviceCall (.bindPipeline w.renderer.sprPipeline)) = .ok w1 ∧
      RenderSystem.renderTextLoop text t font tr.scale (List.range t.text.length) 0 w1
        = .ok v2 ∧
      w'.graphicsDevice.calls
        = v2.graphicsDevice.calls ++ [.debindPipeline v2.renderer.sprPipeline] ∧
      w'.renderer = v2.renderer ∧
      w'.textPass = nextPass v2.textPass v2.renderer.cameras.length := by
  unfold RenderSystem.renderText at h
  simp only [World.entities_deviceCall, he, ht, hf] at h
  have hue := RenderSystem.updateCharTextures_entities font t.text
    (w.deviceCall (.bindPipeline w.renderer.sprPipeline))
  cases hu : RenderSystem.updateCharTextures font t.text
      (w.deviceCall (.bindPipeline w.renderer.sprPipeline)) with
  | fatal f v => rw [hu] at h; cases h
  | ok w1 =>
    rw [hu] at h hue
    simp only [Outcome.bind_ok, Outcome.world_ok, World.entities_deviceCall] at h hue
    have he1 : w1.entities[text]? = some e := by rw [hue]; exact he
    simp only [he1, Option.some_bind, htr] at h
    cases hl : RenderSystem.renderTextLoop text t font tr.scale
        (List.range t.text.length) 0 w1 with
    | fatal f v => rw [hl] at h; cases h
    | ok v2 =>
      rw [hl] at h
      simp only [Outcome.bind_ok] at h
      cases he2 : v2.entities[text]? with
      | none => rw [he2] at h; cases h
      | some e2 =>
        simp only [he2] at h
        cases htr2 : e2.transform with
        | none => rw [htr2] at h; cases h
        | some tr2 =>
          simp only [htr2] at h
          injection h with h
          rw [← h]
          exact ⟨w1, v2, rfl, hl, rfl, rfl, rfl⟩

/-- The device calls of a `renderText` call: the pipeline bind, the glyph textures
created if the string is not the remembered one, the loop over the characters, the
pipeline debind. -/
theorem RenderSystem.renderText_trace (text : EntityPtr) (w : World) (e : Entity)
    (t : TextComponent) (font : Font) (tr : TransformComponent) (cam : CameraComponent)
    (he : w.entities[text]? = some e) (ht : e.text = some t) (hf : t.font = some font)
    (htr : e.transform = some tr)
    (hcs : t.text ≠ w.renderer.previousText →
      ∀ c ∈ t.text.data, (expandGlyph (font.loadChar c)).isSome = true)
    (hinv : w.cacheInStep) (hcam : w.cameraAt w.textPass = some cam) :
    ∃ w' trs, RenderSystem.renderText text w = .ok w' ∧
      trs.length = t.text.length ∧
      w'.renderer.charTextures.length = t.text.length ∧
      w'.graphicsDevice.calls = w.graphicsDevice.calls ++
        [.bindPipeline w.renderer.sprPipeline] ++
        (if t.text = w.renderer.previousText then [] else t.text.data.map font.textureCall) ++
        textLoopCalls w.renderer.sprVertexUniformBuffer w.renderer.sprPixelUniformBuffer
          w'.renderer.charTextures cam t.color ((List.range t.text.length).zip trs) ++
        [.debindPipeline w.renderer.sprPipeline] ∧
      w'.textPass = nextPass w.textPass w.renderer.cameras.length ∧
      (t.text = w.renderer.previousText →
        w'.renderer.charTextures = w.renderer.charTextures) := by
  obtain ⟨w1, hu, hucalls, hulen, husame⟩ := RenderSystem.updateCharTextures_trace font t.text
    (w.deviceCall (.bindPipeline w.renderer.sprPipeline)) hcs hinv
  have hue : w1.entities = w.entities := by
    have := RenderSystem.updateCharTextures_entities font t.text
      (w.deviceCall (.bindPipeline w.renderer.sprPipeline))
    rw [hu] at this
    exact this
  have huc : w1.control = w.control := by
    have := RenderSystem.updateCharTextures_control font t.text
      (w.deviceCall (.bindPipeline w.renderer.sprPipeline))
    rw [hu] at this
    exact this
  have hup : w1.passes = w.passes := by
    have := RenderSystem.updateCharTextures_passes font t.text
      (w.deviceCall (.bindPipeline w.renderer.sprPipeline))
    rw [hu] at this
    exact this
  have htp1 : w1.textPass = w.textPass := congrArg Prod.snd hup
  obtain ⟨hp1, hvu1, hpu1, hcams1⟩ := World.control_handles w1 w huc
  have hcam1 : w1.cameraAt w1.textPass = some cam := by
    rw [World.cameraAt_congr w1 w hcams1 hue, htp1]; exact hcam
  have he1 : w1.entities[text]? = some e := by rw [hue]; exact he
  have hidx : ∀ i ∈ List.range t.text.length,
      i < t.text.length ∧ i < w1.renderer.charTextures.length := fun i hi => by
    rw [hulen]
    exact ⟨List.mem_range.mp hi, List.mem_range.mp hi⟩
  obtain ⟨v2, trs, hl, htrs, hlcalls⟩ := RenderSystem.renderTextLoop_trace text t font tr.scale
    cam (List.range t.text.length) 0 w1 hidx ⟨e, tr, he1, htr⟩ hcam1
  obtain ⟨v2', hl', l1, _, l3, _, _, _, l7⟩ := RenderSystem.renderTextLoop_ok text t font
    tr.scale cam (List.range t.text.length) 0 w1 hidx ⟨e, tr, he1, htr⟩ hcam1
  rw [hl] at hl'
  injection hl' with hl'
  subst hl'
  have hc2 : v2.control = w1.control := by
    have := RenderSystem.renderTextLoop_control text t font tr.scale
      (List.range t.text.length) 0 w1
    rw [hl] at this
    exact this
  obtain ⟨hp2, _, _, hcams2⟩ := World.control_handles v2 w1 hc2
  obtain ⟨e2, tr2, hent2, htr2⟩ := l7
  refine ⟨((v2.setEntity text { e2 with
      transform := some { position := tr.position, scale := tr.scale } }).deviceCall
        (.debindPipeline v2.renderer.sprPipeline)).setTextPass
          (nextPass v2.textPass v2.renderer.cameras.length), trs, ?_, ?_, ?_, ?_, ?_, ?_⟩
  · unfold RenderSystem.renderText
    simp only [World.entities_deviceCall, he, ht, hf, hu, Outcome.bind_ok, he1,
      Option.some_bind, htr, hl, hent2, htr2]
    rfl
  · rw [htrs]; simp
  · show v2.renderer.charTextures.length = _
    rw [l3, hulen]
  · show v2.graphicsDevice.calls ++ [.debindPipeline v2.renderer.sprPipeline] = _
    rw [hlcalls, hucalls, hp2, hp1, hvu1, hpu1]
    show _ = _ ++ textLoopCalls _ _ v2.renderer.charTextures _ _ _ ++ _
    rw [l3]
    simp [World.deviceCall]
  · show nextPass v2.textPass v2.renderer.cameras.length = _
    rw [l1, htp1, hcams2, hcams1]
  · intro hsame
    show v2.renderer.charTextures = _
    rw [l3, husame hsame]
    rfl

theorem textureCalls_shape (font : Font) (cs : List Char) :
    (cs.map font.textureCall).countP DeviceCall.isDraw = 0 ∧
    (cs.map font.textureCall).countP DeviceCall.isPipelineCall = 0 ∧
    ∀ st : List Binding,
      (cs.map font.textureCall).foldl DeviceCall.bindStep (some st) = some st := by
  induction cs with
  | nil => simp
  | cons c rest ih =>
    obtain ⟨h1, h2, h3⟩ := ih
    refine ⟨?_, ?_, ?_⟩
    · rw [List.map_cons, List.countP_cons, h1]
      rfl
    · rw [List.map_cons, List.countP_cons, h2]
      rfl
    · intro st
      rw [List.map_cons, List.foldl_cons]
      exact h3 st

/-- C21. Text command device trace. For a text component with a font on an entity with
a transform, whose string has length L, with the glyph cache in step, the camera due
existing and, if the string is not the remembered one, readable glyph bitmaps, one
call of `renderText` completes and appends to the device log: `bindPipeline` of the
sprite pipeline; then calls none of which binds or debinds a pipeline, namely the
`createTextTexture` calls of a changed string followed, for each character index in
order, by `bindViewport`, the vertex uniform bind and `copyData`, the pixel uniform bind
and `copyData` and `draw(6)`, bracketed by `bindTexture`/`debindTexture` of that index's
cached texture on slot 0 when it is non-null; then `debindPipeline`. These are exactly L
draws, the binds are closed in reverse order, and the text pass counter advances. For
L = 0 the log gains the pipeline bind and debind only. -/
theorem RenderSystem.text_device_trace (text : EntityPtr) (w : World) (e : Entity)
    (t : TextComponent) (font : Font) (tr : TransformComponent) (cam : CameraComponent)
    (he : w.entities[text]? = some e) (ht : e.text = some t) (hf : t.font = some font)
    (htr : e.transform = some tr)
    (hcs : t.text ≠ w.renderer.previousText →
      ∀ c ∈ t.text.data, (expandGlyph (font.loadChar c)).isSome = true)
    (hinv : w.cacheInStep) (hcam : w.cameraAt w.textPass = some cam) :
    ∃ (w' : World) (middle : List DeviceCall) (trs : List TransformComponent),
      RenderSystem.renderText text w = .ok w' ∧
      w'.graphicsDevice.calls = w.graphicsDevice.calls ++
        [.bindPipeline w.renderer.sprPipeline] ++ middle ++
        [.debindPipeline w.renderer.sprPipeline] ∧
      middle =
        (if t.text = w.renderer.previousText then [] else t.text.data.map font.textureCall) ++
        textLoopCalls w.renderer.sprVertexUniformBuffer w.renderer.sprPixelUniformBuffer
          w'.renderer.charTextures cam t.color ((List.range t.text.length).zip trs) ∧
      trs.length = t.text.length ∧
      w'.renderer.charTextures.length = t.text.length ∧
      middle.countP DeviceCall.isPipelineCall = 0 ∧
      middle.countP DeviceCall.isDraw = t.text.length ∧
      w'.graphicsDevice.calls.countP DeviceCall.isDraw
        = w.graphicsDevice.calls.countP DeviceCall.isDraw + t.text.length ∧
      bindsBalanced ([.bindPipeline w.renderer.sprPipeline] ++ middle ++
        [.debindPipeline w.renderer.sprPipeline]) = true ∧
      w'.textPass = nextPass w.textPass w.renderer.cameras.length ∧
      (t.text.length = 0 → w'.graphicsDevice.calls = w.graphicsDevice.calls ++
        [.bindPipeline w.renderer.sprPipeline, .debindPipeline w.renderer.sprPipeline]) ∧
      (∀ (tex : Texture) (tr' : TransformComponent),
        glyphCalls w.renderer.sprVertexUniformBuffer w.renderer.sprPixelUniformBuffer
          (some tex) cam t.color tr' =
          [.bindTexture tex 0,
           .bindViewport cam.viewport,
           .bindVertexUniformBuffer w.renderer.sprVertexUniformBuffer 0,
           .copyData w.renderer.sprVertexUniformBuffer 64
             (.mvp (.mul cam.viewProj (.ofTransform tr'))),
           .bindPixelUniformBuffer w.renderer.sprPixelUniformBuffer 1,
           .copyData w.renderer.sprPixelUniformBuffer 16 (.color t.color),
           .draw 6,
           .debindTexture tex 0]) ∧
      (∀ tr' : TransformComponent,
        glyphCalls w.renderer.sprVertexUniformBuffer w.renderer.sprPixelUniformBuffer
          none cam t.color tr' =
          [.bindViewport cam.viewport,
           .bindVertexUniformBuffer w.renderer.sprVertexUniformBuffer 0,
           .copyData w.renderer.sprVertexUniformBuffer 64
             (.mvp (.mul cam.viewProj (.ofTransform tr'))),
           .bindPixelUniformBuffer w.renderer.sprPixelUniformBuffer 1,
           .copyData w.renderer.sprPixelUniformBuffer 16 (.color t.color),
           .draw 6]) := by
  obtain ⟨w', trs, h, htrs, hlen, hcalls, hpass, _⟩ :=
    RenderSystem.renderText_trace text w e t font tr cam he ht hf htr hcs hinv hcam
  obtain ⟨s1, s2, _, s4⟩ := textLoopCalls_shape w.renderer.sprVertexUniformBuffer
    w.renderer.sprPixelUniformBuffer w'.renderer.charTextures cam t.color
    ((List.range t.text.length).zip trs)
  have hzip : ((List.range t.text.length).zip trs).length = t.text.length := by
    simp [htrs]
  rw [hzip] at s1
  have hcreates : ∀ l : List DeviceCall,
      l = (if t.text = w.renderer.previousText then []
        else t.text.data.map font.textureCall) →
      l.countP DeviceCall.isDraw = 0 ∧ l.countP DeviceCall.isPipelineCall = 0 ∧
      ∀ st : List Binding, l.foldl DeviceCall.bindStep (some st) = some st := by
    intro l hl
    by_cases hsame : t.text = w.renderer.previousText
    · rw [if_pos hsame] at hl
      subst hl
      simp
    · rw [if_neg hsame] at hl
      subst hl
      exact textureCalls_shape font t.text.data
  obtain ⟨k1, k2, k3⟩ := hcreates _ rfl
  refine ⟨w', _, trs, h, by rw [hcalls]; simp only [List.append_assoc], rfl, htrs, hlen,
    ?_, ?_, ?_, ?_, hpass, ?_, ?_, ?_⟩
  · rw [List.countP_append, k2, s2]
  · rw [List.countP_append, k1, s1]; omega
  · rw [hcalls]
    simp only [List.countP_append, k1, s1]
    simp [DeviceCall.isDraw]
  · unfold bindsBalanced
    simp only [List.foldl_append, List.foldl_cons, List.foldl_nil]
    rw [show DeviceCall.bindStep (some []) (.bindPipeline w.renderer.sprPipeline)
      = some [.pipeline w.renderer.sprPipeline] from rfl, k3, s4]
    simp [DeviceCall.bindStep]
  · intro hzero
    rw [hcalls]
    have hdata : t.text.data = [] := List.length_eq_zero.mp hzero
    simp [hzero, hdata, textLoopCalls]
  · intro tex tr'
    rfl
  · intro tr'
    rfl

theorem RenderSystem.text_device_trace_witness :
    Example.glyphWorld.entities[3]? = some Example.textEntity ∧
    Example.glyphWorld.cacheInStep ∧
    Example.glyphWorld.cameraAt Example.glyphWorld.textPass = some ⟨⟨0⟩, .const 0⟩ ∧
    (∃ w', RenderSystem.renderText 3 Example.glyphWorld = .ok w' ∧
      w'.graphicsDevice.calls.countP DeviceCall.isDraw
        = Example.glyphWorld.graphicsDevice.calls.countP DeviceCall.isDraw + "ab".length ∧
      w'.renderer.charTextures.length = "ab".length) ∧
    (RenderSystem.renderText 3 Example.glyphWorld).world.graphicsDevice.calls.countP
      DeviceCall.isPipelineCall = 2 ∧
    (RenderSystem.renderText 3 Example.glyphWorld).world.graphicsDevice.calls.filter
      (fun c => c.isPipelineCall || c.isCreateTextTexture || c.isDraw)
      = [.bindPipeline (some 1), .createTextTexture 1 1 [255, 200],
         .createTextTexture 1 1 [255, 200], .draw 6, .draw 6, .debindPipeline (some 1)] ∧
    (RenderSystem.renderText 0 Example.emptyTextWorld).world.graphicsDevice.calls
      = [.bindPipeline (some 1), .debindPipeline (some 1)] ∧
    (RenderSystem.renderText 0 Example.emptyTextWorld).world.textPass = 0 :=
  ⟨by decide, by decide, by decide,
   let ⟨w', _, _, h1, _, _, _, h5, _, _, h8, _⟩ :=
     RenderSystem.text_device_trace 3 Example.glyphWorld Example.textEntity
       ⟨⟨0, 3⟩, Example.white, some Example.font, "ab", true, true⟩ Example.font Example.origin
       ⟨⟨0⟩, .const 0⟩ (by decide) (by decide) (by decide) (by decide)
       (fun _ => by decide) (by decide) (by decide)
   ⟨w', h1, h8, h5⟩,
   by decide, by decide, by decide, by decide⟩

/-! ## C25: the glyph cache is keyed by the string -/

/-- C25. The glyph cache is keyed by the string only. For two text components with
equal strings, whatever their fonts, with the glyph cache in step, the cameras of
the Camera Set existing, and the first font's glyph bitmaps readable if the string is
not the remembered one: rendering the first and then the second completes; if the first
call regenerated, the cached textures are the results of the `createTextTexture` calls
made with the glyphs of the first font; the second call makes no `createTextTexture`
call, leaves the cached textures as they are and draws its characters with these
textures. The texture update does nothing for any font whenever the string is the
remembered one. -/
theorem RenderSystem.glyph_cache_keyed_by_string (text1 text2 : EntityPtr) (w : World)
    (e1 e2 : Entity) (t1 t2 : TextComponent) (font1 font2 : Font)
    (tr1 tr2 : TransformComponent) (cam : CameraComponent)
    (he1 : w.entities[text1]? = some e1) (ht1 : e1.text = some t1)
    (hf1 : t1.font = some font1) (htr1 : e1.transform = some tr1)
    (he2 : w.entities[text2]? = some e2) (ht2 : e2.text = some t2)
    (hf2 : t2.font = some font2) (htr2 : e2.transform = some tr2)
    (hstr : t2.text = t1.text)
    (hcs : t1.text ≠ w.renderer.previousText →
      ∀ c ∈ t1.text.data, (expandGlyph (font1.loadChar c)).isSome = true)
    (hinv : w.cacheInStep) (hcam : w.cameraAt w.textPass = some cam)
    (hcams : ∀ i : Nat, i < w.renderer.cameras.length → (w.cameraAt i).isSome = true) :
    ∃ (w1 w2 : World) (cam2 : CameraComponent) (trs : List TransformComponent),
      RenderSystem.renderText text1 w = .ok w1 ∧
      RenderSystem.renderText text2 w1 = .ok w2 ∧
      (t1.text ≠ w.renderer.previousText →
        w1.textTextureCalls = w.textTextureCalls ++ t1.text.data.map font1.textureCall ∧
        w1.renderer.charTextures
          = createdResults t1.text.length w.graphicsDevice.pending) ∧
      w2.textTextureCalls = w1.textTextureCalls ∧
      w2.renderer.charTextures = w1.renderer.charTextures ∧
      w2.renderer.previousText = w1.renderer.previousText ∧
      trs.length = t2.text.length ∧
      w2.graphicsDevice.calls = w1.graphicsDevice.calls ++
        [.bindPipeline w1.renderer.sprPipeline] ++
        textLoopCalls w1.renderer.sprVertexUniformBuffer w1.renderer.sprPixelUniformBuffer
          w1.renderer.charTextures cam2 t2.color ((List.range t2.text.length).zip trs) ++
        [.debindPipeline w1.renderer.sprPipeline] ∧
      (∀ (font : Font) (v : World), t2.text = v.renderer.previousText →
        RenderSystem.updateCharTextures font t2.text v = .ok v) := by
  obtain ⟨w1, _, h1, _, _, _, hpass1, _⟩ :=
    RenderSystem.renderText_trace text1 w e1 t1 font1 tr1 cam he1 ht1 hf1 htr1 hcs hinv hcam
  obtain ⟨u1, hu1, hcache1⟩ :=
    RenderSystem.renderText_glyphCache text1 w w1 e1 t1 font1 he1 ht1 hf1 h1
  obtain ⟨_, hprev1'⟩ := RenderSystem.updateCharTextures_cacheInStep font1 t1.text
    (w.deviceCall (.bindPipeline w.renderer.sprPipeline)) u1 hinv hu1
  have hcache1' := hcache1
  simp only [World.glyphCache, Prod.mk.injEq] at hcache1'
  have hprev1 : w1.renderer.previousText = t1.text := hcache1'.2.1.trans hprev1'
  have hinv1 : w1.cacheInStep := RenderSystem.renderText_cacheInStep text1 w w1 hinv h1
  have hent := RenderSystem.renderText_entities text1 w w1 h1
  have hctl : w1.control = w.control := by
    have := RenderSystem.renderText_control text1 w
    rw [h1] at this
    exact this
  obtain ⟨_, _, _, hcameras⟩ := World.control_handles w1 w hctl
  have hpos : 0 < w.renderer.cameras.length := by
    unfold World.cameraAt at hcam
    cases hi : w.renderer.cameras[w.textPass]? with
    | none => rw [hi] at hcam; cases hcam
    | some p =>
      have : w.textPass < w.renderer.cameras.length := by
        by_contra hn
        rw [List.getElem?_eq_none (not_lt.mp hn)] at hi
        cases hi
      omega
  obtain ⟨cam2, hcam2'⟩ := Option.isSome_iff_exists.mp
    (hcams (nextPass w.textPass w.renderer.cameras.length) (nextPass_lt _ _ hpos))
  have hcam2 : w1.cameraAt w1.textPass = some cam2 := by
    rw [World.cameraAt_congr w1 w hcameras hent, hpass1]; exact hcam2'
  have hsame2 : t2.text = w1.renderer.previousText := hstr.trans hprev1.symm
  obtain ⟨w2, trs, h2, htrs, _, hcalls2, _, hkeep⟩ :=
    RenderSystem.renderText_trace text2 w1 e2 t2 font2 tr2 cam2 (by rw [hent]; exact he2)
      ht2 hf2 htr2 (fun hne => absurd hsame2 hne) hinv1 hcam2
  obtain ⟨u2, hu2, hcache2⟩ := RenderSystem.renderText_glyphCache text2 w1 w2 e2 t2 font2
    (by rw [hent]; exact he2) ht2 hf2 h2
  rw [RenderSystem.updateCharTextures_same font2 t2.text
    (w1.deviceCall (.bindPipeline w1.renderer.sprPipeline)) hsame2] at hu2
  injection hu2 with hu2
  rw [← hu2, World.glyphCache_deviceCall w1 (.bindPipeline w1.renderer.sprPipeline) rfl]
    at hcache2
  simp only [World.glyphCache, Prod.mk.injEq] at hcache2
  refine ⟨w1, w2, cam2, trs, h1, h2, ?_, hcache2.2.2.1, hcache2.1, hcache2.2.1, htrs, ?_, ?_⟩
  · intro hne
    obtain ⟨u1', hu1', g1, g2, _, _⟩ := RenderSystem.updateCharTextures_changed font1 t1.text
      (w.deviceCall (.bindPipeline w.renderer.sprPipeline)) (hcs hne) hne
    rw [hu1] at hu1'
    injection hu1' with hu1'
    subst hu1'
    have h0 : (w.deviceCall (.bindPipeline w.renderer.sprPipeline)).textTextureCalls
        = w.textTextureCalls := by
      have := World.glyphCache_deviceCall w (.bindPipeline w.renderer.sprPipeline) rfl
      simp only [World.glyphCache, Prod.mk.injEq] at this
      exact this.2.2.1
    exact ⟨by rw [hcache1'.2.2.1, g2, h0], by rw [hcache1'.1, g1]; rfl⟩
  · rw [hcalls2, if_pos hsame2, hcache2.1]
    simp
  · intro font v hv
    exact RenderSystem.updateCharTextures_same font t2.text v hv

theorem RenderSystem.glyph_cache_keyed_by_string_witness :
    Example.font ≠ Example.wideFont ∧
    Example.twoFontsWorld.cacheInStep ∧
    (∃ w1 w2, RenderSystem.renderText 1 Example.twoFontsWorld = .ok w1 ∧
      RenderSystem.renderText 2 w1 = .ok w2 ∧
      w1.textTextureCalls = Example.twoFontsWorld.textTextureCalls ++
        "ab".data.map Example.font.textureCall ∧
      w2.textTextureCalls = w1.textTextureCalls ∧
      w2.renderer.charTextures = w1.renderer.charTextures) ∧
    ((RenderSystem.renderText 1 Example.twoFontsWorld).bind
      (RenderSystem.renderText 2)).world.textTextureCalls
      = [.createTextTexture 1 1 [255, 200], .createTextTexture 1 1 [255, 200]] ∧
    ((RenderSystem.renderText 1 Example.twoFontsWorld).bind
      (RenderSystem.renderText 2)).world.graphicsDevice.calls.filterMap
        DeviceCall.boundTexture = [21, 22, 21, 22] ∧
    (RenderSystem.renderText 2 Example.twoFontsWorld).world.textTextureCalls
      = [.createTextTexture 2 1 [255, 7, 255, 8], .createTextTexture 2 1 [255, 7, 255, 8]] :=
  ⟨by decide, by decide,
   let ⟨w1, w2, _, _, h1, h2, h3, h4, h5, _⟩ :=
     RenderSystem.glyph_cache_keyed_by_string 1 2 Example.twoFontsWorld Example.textEntity
       ⟨some Example.origin, none,
        some ⟨⟨0, 4⟩, Example.white, some Example.wideFont, "ab", true, true⟩, none, none⟩
       ⟨⟨0, 3⟩, Example.white, some Example.font, "ab", true, true⟩
       ⟨⟨0, 4⟩, Example.white, some Example.wideFont, "ab", true, true⟩
       Example.font Example.wideFont Example.origin Example.origin ⟨⟨0⟩, .const 0⟩
       (by decide) (by decide) (by decide) (by decide) (by decide) (by decide) (by decide)
       (by decide) (by decide) (fun _ => by decide) (by decide) (by decide) (by decide)
   ⟨w1, w2, h1, h2, (h3 (by decide)).1, h4, h5⟩,
   by decide, by decide, by decide⟩

/-! ## C22: the expansion of a glyph bitmap -/

theorem foldl_range_inv {α : Type} (P : Nat → α → Prop) (f : α → Nat → α) (init : α) (n : Nat)
    (h0 : P 0 init) (hstep : ∀ k acc, k < n → P k acc → P (k + 1) (f acc k)) :
    P n ((List.range n).foldl f init) := by
  induction n with
  | zero => exact h0
  | succ n ih =>
    rw [List.range_succ, List.foldl_append]
    exact hstep n _ (Nat.lt_succ_self n)
      (ih (fun k acc hk hp => hstep k acc (Nat.lt_succ_of_lt hk) hp))

theorem ExpandedUpTo.step (slot : GlyphSlot)
    (hbuf : slot.bitmapWidth * slot.bitmapRows ≤ slot.bitmapBuffer.length)
    (j k : Nat) (hj : j < slot.bitmapRows) (hk : k < slot.bitmapWidth)
    (acc : Option (List Nat)) :
    ExpandedUpTo slot (j * slot.bitmapWidth + k) acc →
    ExpandedUpTo slot (j * slot.bitmapWidth + (k + 1)) (expandPixel slot j acc k) := by
  intro h
  obtain ⟨data, hacc, hlen, hdata⟩ := h
  subst hacc
  have hp : k + j * slot.bitmapWidth < slot.bitmapWidth * slot.bitmapRows := by
    have : (j + 1) * slot.bitmapWidth ≤ slot.bitmapRows * slot.bitmapWidth :=
      Nat.mul_le_mul_right _ hj
    rw [Nat.mul_comm slot.bitmapRows] at this
    rw [Nat.add_mul] at this
    omega
  have hp' : k + slot.bitmapWidth * j < slot.bitmapBuffer.length := by
    rw [Nat.mul_comm]; omega
  have hcond : ¬ (k ≥ slot.bitmapWidth ∨ j ≥ slot.bitmapRows) := by omega
  have hlen2 : 2 * (k + j * slot.bitmapWidth) + 1 < data.length := by
    rw [hlen, Nat.mul_assoc]; omega
  have hw1 : writeByte data (2 * (k + j * slot.bitmapWidth)) 255
      = some (data.set (2 * (k + j * slot.bitmapWidth)) 255) := by
    unfold writeByte
    rw [if_pos (by omega)]
  have hw2 : ∀ byte, writeByte (data.set (2 * (k + j * slot.bitmapWidth)) 255)
      (2 * (k + j * slot.bitmapWidth) + 1) byte
      = some ((data.set (2 * (k + j * slot.bitmapWidth)) 255).set
          (2 * (k + j * slot.bitmapWidth) + 1) byte) := by
    intro byte
    unfold writeByte
    rw [if_pos (by simpa using hlen2)]
  unfold expandPixel
  simp only [hw1, hcond, if_false, List.getElem?_eq_getElem hp', hw2]
  refine ⟨_, rfl, by simp [hlen], ?_⟩
  intro p hpm
  by_cases hpe : p = k + j * slot.bitmapWidth
  · subst hpe
    constructor
    · rw [List.getElem?_set, List.getElem?_set]
      simp only [show ¬ (2 * (k + j * slot.bitmapWidth) + 1 = 2 * (k + j * slot.bitmapWidth))
        by omega, if_false, if_true]
      rw [if_pos (by omega)]
    · rw [List.getElem?_set]
      simp only [if_true]
      rw [if_pos (by simpa using hlen2)]
      rw [show k + j * slot.bitmapWidth = k + slot.bitmapWidth * j by rw [Nat.mul_comm]]
      rw [List.getElem?_eq_getElem hp']
  · have hlt : p < j * slot.bitmapWidth + k := by omega
    obtain ⟨h1, h2⟩ := hdata p hlt
    constructor
    · rw [List.getElem?_set, List.getElem?_set]
      rw [if_neg (by omega), if_neg (by omega)]
      exact h1
    · rw [List.getElem?_set, List.getElem?_set]
      rw [if_neg (by omega), if_neg (by omega)]
      exact h2

theorem expandGlyph_upTo (slot : GlyphSlot)
    (hsize : 2 * slot.bitmapWidth * slot.bitmapRows < 2 ^ bitmapSizeBits)
    (hbuf : slot.bitmapWidth * slot.bitmapRows ≤ slot.bitmapBuffer.length) :
    ExpandedUpTo slot (slot.bitmapRows * slot.bitmapWidth) (expandGlyph slot) := by
  unfold expandGlyph
  rw [Nat.mod_eq_of_lt hsize]
  apply foldl_range_inv (fun j acc => ExpandedUpTo slot (j * slot.bitmapWidth) acc)
  · refine ⟨_, rfl, by simp, ?_⟩
    intro p hp
    simp at hp
  · intro j acc hj hacc
    have hrow := foldl_range_inv
      (fun k acc => ExpandedUpTo slot (j * slot.bitmapWidth + k) acc)
      (expandPixel slot j) acc slot.bitmapWidth hacc
      (fun k acc hk h => ExpandedUpTo.step slot hbuf j k hj hk acc h)
    rw [Nat.add_mul, Nat.one_mul]
    exact hrow

theorem expandGlyph_eq_direct (slot : GlyphSlot) : expandGlyph slot = expandGlyphDirect slot := by
  unfold expandGlyph expandGlyphDirect
  apply List.foldl_ext
  intro acc j hj
  apply List.foldl_ext
  intro acc k hk
  have hj' : j < slot.bitmapRows := List.mem_range.mp hj
  have hk' : k < slot.bitmapWidth := List.mem_range.mp hk
  have hcond : ¬ (k ≥ slot.bitmapWidth ∨ j ≥ slot.bitmapRows) := by omega
  unfold expandPixel expandPixelDirect
  simp only [hcond, if_false]

theorem foldl_expandPixel_none (slot : GlyphSlot) (j : Nat) (ks : List Nat) :
    ks.foldl (expandPixel slot j) none = none := by
  induction ks with
  | nil => rfl
  | cons k rest ih => exact ih

theorem foldl_rows_none (slot : GlyphSlot) (js : List Nat) :
    js.foldl (fun acc j => (List.range slot.bitmapWidth).foldl (expandPixel slot j) acc) none
      = none := by
  induction js with
  | nil => rfl
  | cons j rest ih =>
    rw [List.foldl_cons, foldl_expandPixel_none]
    exact ih

/-- When the computed size of `expandedData` wraps to 0 for a bitmap that has pixels, the
first write is past the end of the array. -/
theorem expandGlyph_overflow (slot : GlyphSlot) (hw : 0 < slot.bitmapWidth)
    (hh : 0 < slot.bitmapRows)
    (hzero : (2 * slot.bitmapWidth * slot.bitmapRows) % 2 ^ bitmapSizeBits = 0) :
    expandGlyph slot = none := by
  unfold expandGlyph
  rw [hzero]
  obtain ⟨h', hh'⟩ : ∃ h', slot.bitmapRows = h' + 1 := ⟨slot.bitmapRows - 1, by omega⟩
  obtain ⟨w', hw'⟩ : ∃ w', slot.bitmapWidth = w' + 1 := ⟨slot.bitmapWidth - 1, by omega⟩
  rw [hh', List.range_succ_eq_map, List.foldl_cons]
  have hfirst : (List.range slot.bitmapWidth).foldl (expandPixel slot 0)
      (some (List.replicate 0 0)) = none := by
    rw [hw', List.range_succ_eq_map, List.foldl_cons]
    have : expandPixel slot 0 (some (List.replicate 0 0)) 0 = none := by
      simp [expandPixel, writeByte]
    rw [this, foldl_expandPixel_none]
  rw [hfirst]
  exact foldl_rows_none slot _

/-- C22, as stated, fails. For a bitmap of 65536 by 32768 pixels, whatever its buffer
holds, 2*w*h is 2^32, the size of the array computed in `unsigned int` is 0, and the
first write of the loop is past its end: no buffer of 2*w*h bytes is produced. -/
theorem expandGlyph_overflow_counterexample :
    (2 * 65536 * 32768 = 4294967296 ∧ 4294967296 % 2 ^ bitmapSizeBits = 0) ∧
    (∀ buffer : List Nat, buffer.length = 65536 * 32768 →
      (Example.hugeGlyph buffer).bitmapWidth * (Example.hugeGlyph buffer).bitmapRows
        = (Example.hugeGlyph buffer).bitmapBuffer.length ∧
      expandGlyph (Example.hugeGlyph buffer) = none ∧
      ¬ (∃ data, expandGlyph (Example.hugeGlyph buffer) = some data ∧
          data.length = 2 * (Example.hugeGlyph buffer).bitmapWidth *
            (Example.hugeGlyph buffer).bitmapRows)) := by
  refine ⟨⟨by decide, by decide⟩, ?_⟩
  intro buffer hbuffer
  have hnone : expandGlyph (Example.hugeGlyph buffer) = none :=
    expandGlyph_overflow (Example.hugeGlyph buffer) (show 0 < 65536 by decide)
      (show 0 < 32768 by decide) (show 2 * 65536 * 32768 % 2 ^ bitmapSizeBits = 0 by decide)
  refine ⟨hbuffer.symm, hnone, ?_⟩
  rintro ⟨data, hdata, _⟩
  rw [hnone] at hdata
  cases hdata

/-- C22, amended. For a glyph bitmap of width w and height h with 2*w*h below 2^32, so
that the size of the array does not wrap, and whose buffer holds its w*h bytes, the
expansion completes; the buffer it produces, which is the one passed to
`createTextTexture`, has exactly 2*w*h bytes, and for every pixel index p = k + j*w
with k < w and j < h, byte 2p is 255 and byte 2p+1 is the source bitmap byte at index
p. For every glyph the loops compute the same as the loops without the bounds test:
its zero branch is never taken. -/
theorem expandGlyph_spec (slot : GlyphSlot)
    (hsize : 2 * slot.bitmapWidth * slot.bitmapRows < 2 ^ bitmapSizeBits)
    (hbuf : slot.bitmapWidth * slot.bitmapRows ≤ slot.bitmapBuffer.length) :
    (∃ data, expandGlyph slot = some data ∧
      data.length = 2 * slot.bitmapWidth * slot.bitmapRows ∧
      (∀ k j, k < slot.bitmapWidth → j < slot.bitmapRows →
        data[2 * (k + j * slot.bitmapWidth)]? = some 255 ∧
        ∃ byte, slot.bitmapBuffer[k + j * slot.bitmapWidth]? = some byte ∧
          data[2 * (k + j * slot.bitmapWidth) + 1]? = some byte) ∧
      (∀ (font : Font) (c : Char), font.loadChar c = slot →
        font.textureCall c = .createTextTexture slot.bitmapWidth slot.bitmapRows data)) ∧
    expandGlyph slot = expandGlyphDirect slot := by
  obtain ⟨data, hdata, hlen, hall⟩ := expandGlyph_upTo slot hsize hbuf
  refine ⟨⟨data, hdata, hlen, ?_, ?_⟩, expandGlyph_eq_direct slot⟩
  · intro k j hk hj
    have hp : k + j * slot.bitmapWidth < slot.bitmapRows * slot.bitmapWidth := by
      have : (j + 1) * slot.bitmapWidth ≤ slot.bitmapRows * slot.bitmapWidth :=
        Nat.mul_le_mul_right _ hj
      rw [Nat.add_mul] at this
      omega
    obtain ⟨h1, h2⟩ := hall _ hp
    have hlt : k + j * slot.bitmapWidth < slot.bitmapBuffer.length := by
      have := Nat.mul_comm slot.bitmapRows slot.bitmapWidth
      omega
    refine ⟨h1, _, List.getElem?_eq_getElem hlt, ?_⟩
    rw [h2, List.getElem?_eq_getElem hlt]
  · intro font c hc
    unfold Font.textureCall
    rw [hc, hdata]
    rfl

theorem expandGlyph_spec_witness :
    2 * Example.glyph.bitmapWidth * Example.glyph.bitmapRows < 2 ^ bitmapSizeBits ∧
    Example.glyph.bitmapWidth * Example.glyph.bitmapRows ≤ Example.glyph.bitmapBuffer.length ∧
    (∃ data, expandGlyph Example.glyph = some data ∧
      data.length = 2 * Example.glyph.bitmapWidth * Example.glyph.bitmapRows) ∧
    expandGlyph Example.glyph = some [255, 200] ∧
    expandGlyph ⟨2, 2, [0, 7, 8, 9], 0, 0, 0, 0⟩ = some [255, 0, 255, 7, 255, 8, 255, 9] :=
  ⟨by decide, by decide,
   let ⟨⟨data, h1, h2, _⟩, _⟩ := expandGlyph_spec Example.glyph (by decide) (by decide)
   ⟨data, h1, h2⟩,
   by decide, by decide⟩

/-! ## C1: the phase guards of begin and end -/

/-- C1, as stated, fails. `Example.freshTextRecorded` is reached by `begin()`,
`setCameras` and `renderTexts`; `acceptingCommands` is true and one text command is
queued. `end()` passes its phase assertion and clears the flag, and then the text
command stops at the assertion on its own `RenderSystem` pointer: `end()` does not
succeed although `acceptingCommands` was true. The same happens, with an invalid camera
lookup, after the calls of `Example.twoFrames`. -/
theorem RenderSystem.end_accepting_counterexample :
    Example.freshTextRecorded.renderer.initialized = true ∧
    Example.freshTextRecorded.renderer.acceptingCommands = true ∧
    Example.freshTextRecorded.queueInStep ∧
    Example.freshTextRecorded.renderer.queue.queue = [(⟨0, 0⟩, .textRender 1)] ∧
    (RenderSystem.end Example.freshTextRecorded).isOk = false ∧
    RenderSystem.end Example.freshTextRecorded =
      .fatal .assertion (Example.freshTextRecorded.setRenderer
        { Example.freshTextRecorded.renderer with
          queue := ⟨[(⟨0, 0⟩, .textRender 1)], false⟩, acceptingCommands := false }) ∧
    ¬ ((RenderSystem.end Example.freshTextRecorded).isOk = true ↔
        Example.freshTextRecorded.renderer.acceptingCommands = true) ∧
    (runOperations Example.twoFrames Example.idleWorld).world.renderer.acceptingCommands
      = true ∧
    (RenderSystem.end (runOperations Example.twoFrames Example.idleWorld).world).isOk
      = false := by
  decide

/-- C1, amended. Phase machine of the render system. With the queue's window in step
with the system's flag: `begin()` completes exactly when the system is initialized and
not accepting commands, otherwise it stops at its assertion with nothing changed, and
on completion `acceptingCommands` is true. `end()` stops at its phase assertion, with
nothing changed, when `acceptingCommands` is false; when it is true, `end()` passes
the assertion, sorts the queue, sets `acceptingCommands` to false and then replays the
queue from that state, so it completes when nothing is queued; it completes only if
`acceptingCommands` was true. On an initialized Idle system a sequence of
`begin()`/`end()` calls completes exactly when it strictly alternates begin, end,
begin, end, ... starting with begin, every other sequence stopping at a fatal
assertion. -/
theorem RenderSystem.phase_machine (w : World) (hq : w.queueInStep) :
    ((RenderSystem.begin w).isOk = true ↔
      (w.renderer.initialized = true ∧ w.renderer.acceptingCommands = false)) ∧
    ((RenderSystem.begin w).isOk = false → RenderSystem.begin w = .fatal .assertion w) ∧
    (∀ w1, RenderSystem.begin w = .ok w1 →
      w1.renderer.acceptingCommands = true ∧ w1.queueInStep) ∧
    (w.renderer.acceptingCommands = false → RenderSystem.end w = .fatal .assertion w) ∧
    (w.renderer.acceptingCommands = true →
      ∃ (sorted : RenderQueue) (w0 : World),
        RenderQueue.end w.renderer.queue = some sorted ∧
        w0 = w.setRenderer { w.renderer with queue := sorted, acceptingCommands := false } ∧
        w0.renderer.acceptingCommands = false ∧
        RenderSystem.end w = forEach sorted.getQueue
          (fun command v => command.2.call v.renderer.device v) w0) ∧
    ((RenderSystem.end w).isOk = true → w.renderer.acceptingCommands = true) ∧
    (w.renderer.acceptingCommands = true → w.renderer.queue.queue = [] →
      ∃ w2, RenderSystem.end w = .ok w2 ∧ w2.renderer.acceptingCommands = false ∧
        w2.renderer.initialized = w.renderer.initialized) ∧
    (w.renderer.initialized = true → w.renderer.acceptingCommands = false →
      ∀ calls : List PhaseCall,
        ((runPhaseCalls calls w).isOk = true ↔ Alternates calls) ∧
        (¬ Alternates calls → ∃ w', runPhaseCalls calls w = .fatal .assertion w')) := by
  have hq' : w.renderer.queue.acceptingCommands = w.renderer.acceptingCommands := hq
  refine ⟨?_, ?_, ?_, ?_, ?_, ?_, ?_, ?_⟩
  · cases hi : w.renderer.initialized <;> cases ha : w.renderer.acceptingCommands <;>
      simp [RenderSystem.begin, hi, ha, RenderQueue.begin, hq', Outcome.isOk]
  · cases hi : w.renderer.initialized <;> cases ha : w.renderer.acceptingCommands <;>
      simp [RenderSystem.begin, hi, ha, RenderQueue.begin, hq', Outcome.isOk]
  · intro w1 h1
    cases hi : w.renderer.initialized <;> cases ha : w.renderer.acceptingCommands <;>
      simp [RenderSystem.begin, hi, ha, RenderQueue.begin, hq'] at h1
    subst h1
    exact ⟨rfl, rfl⟩
  · exact RenderSystem.end_idle w
  · intro ha
    have hqa : w.renderer.queue.acceptingCommands = true := hq'.trans ha
    refine ⟨{ queue := w.renderer.queue.queue.insertionSort QueueEntry.le,
              acceptingCommands := false }, _, ?_, rfl, rfl, ?_⟩
    · simp only [RenderQueue.end, hqa, if_true]
    · simp only [RenderSystem.end, ha, hqa, RenderQueue.end, if_true]
      rfl
  · intro h
    cases ha : w.renderer.acceptingCommands
    · rw [RenderSystem.end_idle w ha] at h
      simp [Outcome.isOk] at h
    · rfl
  · intro ha he
    obtain ⟨w2, h2, hi2, ha2, _⟩ := RenderSystem.end_empty w ha hq he
    exact ⟨w2, h2, ha2, hi2⟩
  · intro hi ha calls
    have h := runPhaseCalls_idle calls w hi ha hq
    refine ⟨h.1, fun hn => h.2 ?_⟩
    cases hok : (runPhaseCalls calls w).isOk
    · rfl
    · exact absurd (h.1.mp hok) hn

theorem RenderSystem.phase_machine_witness :
    Example.idleWorld.queueInStep ∧
    (runPhaseCalls [.begin, .finish, .begin, .finish] Example.idleWorld).isOk = true ∧
    (∃ w', runPhaseCalls [.begin, .begin] Example.idleWorld = .fatal .assertion w') ∧
    (∃ w', runPhaseCalls [.finish] Example.idleWorld = .fatal .assertion w') ∧
    Example.recordedWorld.queueInStep ∧
    Example.recordedWorld.renderer.acceptingCommands = true ∧
    (∃ (sorted : RenderQueue) (w0 : World),
      sorted.getQueue.length = 6 ∧ w0.renderer.acceptingCommands = false ∧
      RenderSystem.end Example.recordedWorld = forEach sorted.getQueue
        (fun command v => command.2.call v.renderer.device v) w0) :=
  have h := (RenderSystem.phase_machine Example.idleWorld rfl).2.2.2.2.2.2.2 rfl rfl
  ⟨rfl,
   ((h [.begin, .finish, .begin, .finish]).1).mpr (by decide),
   (h [.begin, .begin]).2 (by decide),
   (h [.finish]).2 (by decide),
   by decide, by decide,
   let ⟨sorted, w0, h1, _, h3, h4⟩ :=
     (RenderSystem.phase_machine Example.recordedWorld (by decide)).2.2.2.2.1 (by decide)
   ⟨sorted, w0, by
      have h5 : sorted = ⟨Example.recordedWorld.renderer.queue.queue.insertionSort
          QueueEntry.le, false⟩ := by
        have h6 : RenderQueue.end Example.recordedWorld.renderer.queue
            = some ⟨Example.recordedWorld.renderer.queue.queue.insertionSort
                QueueEntry.le, false⟩ := by decide
        rw [h6] at h1
        injection h1 with h1
        exact h1.symm
      rw [h5]
      decide, h3, h4⟩⟩

/-! ## C5: end replays the queue once -/

theorem forEachEntered_prefix {α : Type} (body : α → World → Outcome) (xs : List α) :
    ∀ w, forEachEntered xs body w <+: xs := by
  induction xs with
  | nil => intro w; exact List.prefix_refl _
  | cons x rest ih =>
    intro w
    unfold forEachEntered
    cases body x w with
    | ok v => exact (List.prefix_cons_inj x).mpr (ih v)
    | fatal f v => exact (List.prefix_cons_inj x).mpr (List.nil_prefix)

theorem forEachEntered_ok {α : Type} (body : α → World → Outcome) (xs : List α) :
    ∀ w, (forEach xs body w).isOk = true → forEachEntered xs body w = xs := by
  induction xs with
  | nil => intro w _; rfl
  | cons x rest ih =>
    intro w h
    unfold forEachEntered
    rw [forEach_cons] at h
    cases hb : body x w with
    | ok v =>
      rw [hb, Outcome.bind_ok] at h
      simp only []
      rw [ih v h]
    | fatal f v =>
      rw [hb] at h
      cases h

theorem Command.call_pipelineBinds_le (c : Command) (device : DevicePtr) (w : World) :
    (c.call device w).world.pipelineBinds ≤ w.pipelineBinds + 1 := by
  cases c with
  | spriteRender sprite =>
    simp only [Command.call, SpriteComponent.render]
    split
    · exact Nat.le_succ _
    · split
      · exact Nat.le_succ _
      · split
        · exact Nat.le_of_eq (RenderSystem.renderSprite_pipelineBinds sprite w)
        · exact Nat.le_succ _
  | textRender text =>
    simp only [Command.call, TextComponent.render]
    split
    · exact Nat.le_succ _
    · split
      · exact Nat.le_succ _
      · split
        · exact Nat.le_of_eq (RenderSystem.renderText_pipelineBinds text w)
        · exact Nat.le_succ _

theorem forEach_call_pipelineBinds_le (device : DevicePtr) (entries : List QueueEntry) :
    ∀ w : World,
      (forEach entries (fun command v => command.2.call device v) w).world.pipelineBinds
        ≤ w.pipelineBinds + entries.length := by
  induction entries with
  | nil => intro w; exact Nat.le_refl _
  | cons e rest ih =>
    intro w
    rw [forEach_cons]
    have h1 := Command.call_pipelineBinds_le e.2 device w
    cases hb : e.2.call device w with
    | fatal f v =>
      rw [hb] at h1
      simp only [Outcome.bind_fatal, Outcome.world_fatal, List.length_cons] at h1 ⊢
      omega
    | ok v =>
      rw [hb] at h1
      have h2 := ih v
      simp only [Outcome.bind_ok, Outcome.world_ok, List.length_cons] at h1 h2 ⊢
      omega

/-- C5, as stated, fails. `Example.freshTextTwice` is reached by `begin()`, `setCameras`
and two calls of `renderTexts`; it accepts commands and two text commands are queued.
`end()` invokes the first entry, which stops at the assertion on its own `RenderSystem`
pointer, and the second entry is never invoked: one command was entered, the queue has
two entries. -/
theorem RenderSystem.end_replay_counterexample :
    Example.freshTextTwice.renderer.initialized = true ∧
    Example.freshTextTwice.renderer.acceptingCommands = true ∧
    Example.freshTextTwice.queueInStep ∧
    Example.freshTextTwice.renderer.queue.queue
      = [(⟨0, 0⟩, .textRender 1), (⟨0, 0⟩, .textRender 1)] ∧
    RenderQueue.end Example.freshTextTwice.renderer.queue
      = some ⟨[(⟨0, 0⟩, .textRender 1), (⟨0, 0⟩, .textRender 1)], false⟩ ∧
    RenderSystem.end Example.freshTextTwice =
      .fatal .assertion (Example.freshTextTwice.setRenderer
        { Example.freshTextTwice.renderer with
          queue := ⟨[(⟨0, 0⟩, .textRender 1), (⟨0, 0⟩, .textRender 1)], false⟩,
          acceptingCommands := false }) ∧
    forEachEntered
      ([(⟨0, 0⟩, .textRender 1), (⟨0, 0⟩, .textRender 1)] : List QueueEntry)
      (fun command v => command.2.call v.renderer.device v)
      (Example.freshTextTwice.setRenderer
        { Example.freshTextTwice.renderer with
          queue := ⟨[(⟨0, 0⟩, .textRender 1), (⟨0, 0⟩, .textRender 1)], false⟩,
          acceptingCommands := false })
      = ([(⟨0, 0⟩, .textRender 1)] : List QueueEntry) ∧
    (RenderSystem.end Example.freshTextTwice).isOk = false := by
  decide

/-- C5, amended. Called while accepting commands, `end()` sorts the queue, clears
`acceptingCommands`, and only then runs the loop over the entries of the sorted queue
in iteration order, invoking each with the system's device pointer, which stays the
same throughout. The commands it invokes are the entries of the sorted queue from the
first on, each once and none skipped, up to a command that does not complete, and all
of them when `end()` completes; the sorted queue has as many entries as were queued.
The device receives at most one `bindPipeline` per entry, and exactly one per entry
when `end()` completes; queue and phase are then as the sort left them. -/
theorem RenderSystem.end_replays_queue_once (w : World)
    (ha : w.renderer.acceptingCommands = true) (hq : w.queueInStep) :
    ∃ (sorted : RenderQueue) (w1 : World),
      RenderQueue.end w.renderer.queue = some sorted ∧
      w1 = w.setRenderer { w.renderer with queue := sorted, acceptingCommands := false } ∧
      w1.renderer.acceptingCommands = false ∧
      sorted.getQueue.length = w.renderer.queue.getQueue.length ∧
      RenderSystem.end w = forEach sorted.getQueue
        (fun command v => command.2.call v.renderer.device v) w1 ∧
      RenderSystem.end w = forEach sorted.getQueue
        (fun command v => command.2.call w.renderer.device v) w1 ∧
      forEachEntered sorted.getQueue
        (fun command v => command.2.call v.renderer.device v) w1 <+: sorted.getQueue ∧
      ((RenderSystem.end w).isOk = true →
        forEachEntered sorted.getQueue
          (fun command v => command.2.call v.renderer.device v) w1 = sorted.getQueue) ∧
      (RenderSystem.end w).world.pipelineBinds
        ≤ w.pipelineBinds + sorted.getQueue.length ∧
      (∀ w', RenderSystem.end w = .ok w' →
        w'.pipelineBinds = w.pipelineBinds + sorted.getQueue.length ∧
        w'.renderer.queue = sorted ∧ w'.renderer.acceptingCommands = false) := by
  have hq' : w.renderer.queue.acceptingCommands = true := hq.trans ha
  have hdirect : RenderSystem.end w = forEach
      (w.renderer.queue.queue.insertionSort QueueEntry.le)
      (fun command v => command.2.call v.renderer.device v)
      (w.setRenderer { w.renderer with
        queue := { queue := w.renderer.queue.queue.insertionSort QueueEntry.le,
                   acceptingCommands := false },
        acceptingCommands := false }) := by
    simp only [RenderSystem.end, ha, hq', RenderQueue.end, if_true]
    rfl
  have hrun := RenderSystem.end_eq w ha hq
  refine ⟨{ queue := w.renderer.queue.queue.insertionSort QueueEntry.le,
             acceptingCommands := false }, _, ?_, rfl, rfl, ?_, hdirect, hrun, ?_, ?_, ?_, ?_⟩
  · simp only [RenderQueue.end, hq', if_true]
  · simp [RenderQueue.getQueue, List.length_insertionSort]
  · exact forEachEntered_prefix _ _ _
  · intro hok
    rw [hdirect] at hok
    exact forEachEntered_ok _ _ _ hok
  · rw [hrun]
    exact forEach_call_pipelineBinds_le _ _ _
  · intro w' hw'
    rw [hrun] at hw'
    have hb := forEach_call_pipelineBinds _ _ _ _ hw'
    have hc := forEach_world_inv (fun v => v.control = (w.setRenderer { w.renderer with
        queue := { queue := w.renderer.queue.queue.insertionSort QueueEntry.le,
                   acceptingCommands := false },
        acceptingCommands := false }).control)
      (fun (command : QueueEntry) v => command.2.call w.renderer.device v)
      (fun c v hv => by
        show (c.2.call w.renderer.device v).world.control = _
        rw [Command.call_control]; exact hv)
      (w.renderer.queue.queue.insertionSort QueueEntry.le) _ rfl
    rw [hw'] at hc
    simp only [Outcome.world_ok, World.control, Prod.mk.injEq, World.setRenderer] at hc
    refine ⟨?_, hc.1, hc.2.2.2.2.2.1⟩
    rw [hb]; rfl

theorem RenderSystem.end_replays_queue_once_witness :
    Example.recordedWorld.renderer.acceptingCommands = true ∧
    Example.recordedWorld.queueInStep ∧
    (RenderSystem.end Example.recordedWorld).isOk = true ∧
    (∀ w', RenderSystem.end Example.recordedWorld = .ok w' →
      w'.pipelineBinds = Example.recordedWorld.pipelineBinds + 6) ∧
    Example.freshTextRecorded.renderer.acceptingCommands = true ∧
    (RenderSystem.end Example.freshTextRecorded).isOk = false ∧
    (RenderSystem.end Example.freshTextRecorded).world.pipelineBinds
      ≤ Example.freshTextRecorded.pipelineBinds + 1 :=
  ⟨by decide, by decide, by decide, fun w' hw' =>
    let ⟨sorted, _, _, _, _, h4, _, _, _, _, _, h⟩ :=
      RenderSystem.end_replays_queue_once Example.recordedWorld (by decide) (by decide)
    have hlen : sorted.getQueue.length = 6 := by
      rw [h4]; decide
    hlen ▸ (h w' hw').1,
   by decide, by decide,
   let ⟨sorted, _, _, _, _, h4, _, _, _, _, h9, _⟩ :=
     RenderSystem.end_replays_queue_once Example.freshTextRecorded (by decide) (by decide)
   have hlen : sorted.getQueue.length = 1 := by
     rw [h4]; decide
   hlen ▸ h9⟩

end sge
